import Mathlib

/-!
# craftadungeon: the seeded generation pipeline

A shallow embedding of `src/utils/dungeonGenerator.js` and
`.history/src/utils/lootGenerator_20250831135202.js`.

Conventions of the embedding.

* A JavaScript string used as a seed is the list of its UTF-16 code units
  (what `charCodeAt` reads), a `List Nat`.  Other strings (room types, item
  names, table keys) are Lean strings.
* Integer-valued JavaScript numbers are `Int`/`Nat`.  The one place where an
  integer can leave the range in which doubles are exact, the product in
  `SeededRandom.next`, rounds through `roundToDouble`.
* Fractional numbers (the value returned by `next`, the products and
  comparisons built from it, the difficulty and type multipliers) are exact
  rationals: rounding of doubles to 53 bits is not modelled for them.
* `undefined` is `none` of an `Option`; a `TypeError` raised by a property
  read on `undefined` makes the enclosing function return `none`.
* Object-literal tables are looked up by their own keys only.
* A mutable object (`this.seed`, the grid, the room objects) is threaded
  through the functions as an explicit value.
-/

namespace CraftADungeon

/-! ## SeededRandom -/

/-- The JavaScript `ToInt32` conversion on an integer-valued number:
wrap modulo `2^32` into `[-2^31, 2^31)`. -/
def toInt32 (x : Int) : Int := (x + 2 ^ 31) % 2 ^ 32 - 2 ^ 31

/-- One pass of the loop body of `hashString`:
`hash = ((hash << 5) - hash) + char; hash = hash & hash`. -/
def hashStep (hash : Int) (char : Nat) : Int :=
  toInt32 ((toInt32 (toInt32 hash * 2 ^ 5) - hash) + (char : Int))

/-- `hashString(str)`: fold `hashStep` over the code units, then `Math.abs`. -/
def hashString (str : List Nat) : Nat :=
  (str.foldl hashStep 0).natAbs

/-- Number of halvings that bring `n` below `2^53` (at most `fuel`). -/
def excessBits : Nat → Nat → Nat
  | 0, _ => 0
  | fuel + 1, n => if n < 2 ^ 53 then 0 else excessBits fuel (n / 2) + 1

/-- A natural number as a double holds it: exact below `2^53`, otherwise
rounded to 53 significant bits, ties to even (finite range). -/
def roundToDouble (n : Nat) : Nat :=
  if n < 2 ^ 53 then n
  else
    let e := excessBits n n
    let q := n / 2 ^ e
    let r := n % 2 ^ e
    let half := 2 ^ (e - 1)
    if r < half then q * 2 ^ e
    else if half < r then (q + 1) * 2 ^ e
    else if q % 2 = 0 then q * 2 ^ e
    else (q + 1) * 2 ^ e

/-- The generator object: its only field is `seed`, the current state. -/
structure SeededRandom where
  seed : Nat
  deriving DecidableEq, Repr

namespace SeededRandom

/-- The constructor: `this.seed = this.hashString(seed)`. -/
def create (seed : List Nat) : SeededRandom := ⟨hashString seed⟩

/-- `next()`: `this.seed = (this.seed * 9301 + 49297) % 233280;
return this.seed / 233280`.  Returns the drawn value and the generator after
the call.  The product and the sum are each rounded to a double; the sum is
written with the constant first (addition of doubles commutes), which keeps
it unevaluated on a symbolic state. -/
def next (rng : SeededRandom) : ℚ × SeededRandom :=
  let seed := roundToDouble (49297 + roundToDouble (rng.seed * 9301)) % 233280
  ((seed : ℚ) / 233280, ⟨seed⟩)

/-- `nextInt(min, max)`: `Math.floor(this.next() * (max - min + 1)) + min`. -/
def nextInt (rng : SeededRandom) (min max : Int) : Int × SeededRandom :=
  let r := rng.next
  (⌊r.1 * ((max - min + 1 : Int) : ℚ)⌋ + min, r.2)

end SeededRandom

/-- An array read `array[i]` at an integer-valued index: `undefined` when the
index is negative or past the end. -/
def jsIndex {α : Type} (array : List α) (i : Int) : Option α :=
  if i < 0 then none else array.get? i.toNat

namespace SeededRandom

/-- `choice(array)`: `array[this.nextInt(0, array.length - 1)]`. -/
def choice {α : Type} (rng : SeededRandom) (array : List α) : Option α × SeededRandom :=
  let r := rng.nextInt 0 ((array.length : Int) - 1)
  (jsIndex array r.1, r.2)

end SeededRandom

/-- The destructuring swap `[a[i], a[j]] = [a[j], a[i]]`: both reads, then
both writes (`a[i]` first).  The loop of `shuffle` only calls it with
`0 ≤ j ≤ i < a.length`, where both reads are defined. -/
def swapAt {α : Type} (a : List α) (i : Nat) (j : Int) : List α :=
  match jsIndex a j, a.get? i with
  | some aj, some ai => (a.set i aj).set j.toNat ai
  | _, _ => a

/-- The loop `for (let i = shuffled.length - 1; i > 0; i--)` of `shuffle`,
entered with loop variable `i`. -/
def shuffleLoop {α : Type} : Nat → List α → SeededRandom → List α × SeededRandom
  | 0, shuffled, rng => (shuffled, rng)
  | i + 1, shuffled, rng =>
    let r := rng.nextInt 0 ((i + 1 : Nat) : Int)
    shuffleLoop i (swapAt shuffled (i + 1) r.1) r.2

/-- What a call of `shuffle` leaves behind: the caller's array, the returned
array and the generator. -/
structure ShuffleOutcome (α : Type) where
  array : List α
  shuffled : List α
  rng : SeededRandom

/-- `shuffle(array)`: copy the array (`[...array]`), run the loop on the
copy, return the copy.  No statement writes to `array`. -/
def SeededRandom.shuffle {α : Type} (rng : SeededRandom) (array : List α) : ShuffleOutcome α :=
  let shuffled := array
  let r := shuffleLoop (shuffled.length - 1) shuffled rng
  { array := array, shuffled := r.1, rng := r.2 }

/-- The comparison `random <= 0` on a number that may be `NaN` (`none`). -/
def leZero : Option ℚ → Bool
  | some r => decide (r ≤ 0)
  | none => false

/-- The statement `random -= weights[i]`: `NaN` once `weights[i]` is
`undefined` or `random` already is `NaN`. -/
def subWeight : Option ℚ → Option ℚ → Option ℚ
  | some r, some w => some (r - w)
  | _, _ => none

/-- The loop of `weightedChoice` from index `i` on, over the items still to
visit: `some item` when the loop returns `item`, `none` when it runs out. -/
def weightedLoop {α : Type} (weights : List ℚ) : List α → Nat → Option ℚ → Option α
  | [], _, _ => none
  | item :: rest, i, random =>
    let random := subWeight random (weights.get? i)
    if leZero random then some item else weightedLoop weights rest (i + 1) random

/-- `weightedChoice(items, weights)` of the loot generator's `SeededRandom`. -/
def SeededRandom.weightedChoice {α : Type} (rng : SeededRandom) (items : List α)
    (weights : List ℚ) : Option α × SeededRandom :=
  let totalWeight := weights.foldl (fun sum weight => sum + weight) 0
  let r := rng.next
  let random := r.1 * totalWeight
  match weightedLoop weights items 0 (some random) with
  | some item => (some item, r.2)
  | none => (jsIndex items ((items.length : Int) - 1), r.2)

/-! ## Grid and rooms -/

/-- The grid: `grid[y][x]` is `0` wall, `1` floor, `2` door, `3` room centre. -/
abbrev Grid := List (List Nat)

/-- The read `grid[y][x]`. -/
def getCell (grid : Grid) (x y : Int) : Option Nat :=
  (jsIndex grid y).bind (fun row => jsIndex row x)

/-- The write `grid[y][x] = v` at a cell of the grid. -/
def setCell (grid : Grid) (x y : Int) (v : Nat) : Grid :=
  match jsIndex grid y with
  | some row => if 0 ≤ x ∧ x < row.length then grid.set y.toNat (row.set x.toNat v) else grid
  | none => grid

/-- The values `v = start, start + 1, ...` with `v < stop`, in order: the
iterations of `for (let v = start; v < stop; v++)`. -/
def loopRange (start stop : Int) : List Int :=
  (List.range (stop - start).toNat).map (fun (k : Nat) => start + (k : Int))

/-- A room object.  `centerX`/`centerY` are `undefined` until the room is
stamped on the grid by `generateDungeon`. -/
structure Room where
  x : Int
  y : Int
  width : Int
  height : Int
  type : Option String
  id : Nat
  centerX : Option Int := none
  centerY : Option Int := none
  deriving DecidableEq, Repr

/-- The ten room types of `getRoomType`. -/
def roomTypes : List String :=
  ["Chamber", "Hall", "Treasury", "Barracks", "Library",
   "Armory", "Kitchen", "Throne Room", "Chapel", "Laboratory"]

/-- `getRoomType(rng)`: `rng.choice(types)`. -/
def getRoomType (rng : SeededRandom) : Option String × SeededRandom :=
  rng.choice roomTypes

/-- The padded overlap test of `generateRooms` between the candidate and an
accepted room. -/
def overlapsWith (newRoom room : Room) : Bool :=
  decide (newRoom.x < room.x + room.width + 2) &&
  decide (newRoom.x + newRoom.width + 2 > room.x) &&
  decide (newRoom.y < room.y + room.height + 2) &&
  decide (newRoom.y + newRoom.height + 2 > room.y)

/-- The loop of `generateRooms` with `fuel` iterations of
`i < attempts` left; each pass first tests `rooms.length < roomCount`. -/
def generateRoomsLoop (width height roomCount : Int) :
    Nat → List Room → SeededRandom → List Room × SeededRandom
  | 0, rooms, rng => (rooms, rng)
  | fuel + 1, rooms, rng =>
    if (rooms.length : Int) < roomCount then
      let roomWidth := rng.nextInt 4 8
      let roomHeight := roomWidth.2.nextInt 4 8
      let x := roomHeight.2.nextInt 1 (width - roomWidth.1 - 1)
      let y := x.2.nextInt 1 (height - roomHeight.1 - 1)
      let type := getRoomType y.2
      let newRoom : Room :=
        { x := x.1, y := y.1, width := roomWidth.1, height := roomHeight.1,
          type := type.1, id := rooms.length }
      let overlaps := rooms.any (fun room => overlapsWith newRoom room)
      if overlaps then generateRoomsLoop width height roomCount fuel rooms type.2
      else generateRoomsLoop width height roomCount fuel (rooms ++ [newRoom]) type.2
    else (rooms, rng)

/-- `generateRooms(rng, width, height, roomCount)`. -/
def generateRooms (rng : SeededRandom) (width height roomCount : Int) :
    List Room × SeededRandom :=
  let attempts := roomCount * 10
  generateRoomsLoop width height roomCount attempts.toNat [] rng

/-- The guard `x >= 0 && x < width && y >= 0 && y < height`. -/
def inBounds (width height x y : Int) : Bool :=
  decide (x ≥ 0) && decide (x < width) && decide (y ≥ 0) && decide (y < height)

/-- The cells visited by the two nested loops that stamp a room, row by row. -/
def roomCells (room : Room) : List (Int × Int) :=
  (loopRange room.y (room.y + room.height)).flatMap (fun y =>
    (loopRange room.x (room.x + room.width)).map (fun x => (x, y)))

/-- The guarded write `grid[y][x] = 1` of the stamping loops. -/
def stampCell (width height : Int) (grid : Grid) (c : Int × Int) : Grid :=
  if inBounds width height c.1 c.2 then setCell grid c.1 c.2 1 else grid

/-- The body of `rooms.forEach(room => ...)` in `generateDungeon`: floor the
rectangle, then mark the centre and record it on the room.
`Math.floor(room.x + room.width / 2)` is `room.x + room.width / 2` with the
rounded-down integer division. -/
def stampRoom (width height : Int) (grid : Grid) (room : Room) : Grid × Room :=
  let grid := (roomCells room).foldl (stampCell width height) grid
  let centerX := room.x + room.width / 2
  let centerY := room.y + room.height / 2
  if inBounds width height centerX centerY then
    (setCell grid centerX centerY 3,
      { room with centerX := some centerX, centerY := some centerY })
  else (grid, room)

/-- The whole `rooms.forEach` of `generateDungeon`: the grid and the room
objects after all rooms are stamped. -/
def stampRooms (width height : Int) : Grid → List Room → Grid × List Room
  | grid, [] => (grid, [])
  | grid, room :: rest =>
    let r := stampRoom width height grid room
    let rs := stampRooms width height r.1 rest
    (rs.1, r.2 :: rs.2)

/-! ## Corridors -/

/-- A grid position `{ x, y }`. -/
structure Point where
  x : Int
  y : Int
  deriving DecidableEq, Repr

/-- The record returned by `createCorridor` (`finish` is its `end` field). -/
structure Corridor where
  start : Point
  finish : Point
  path : List Point
  width : Int
  type : String
  deriving DecidableEq, Repr

/-- The innermost statement of every carving loop: inside the bounds, a wall
cell becomes floor and is pushed on the path. -/
def carveCell (width height : Int) (s : Grid × List Point) (c : Int × Int) :
    Grid × List Point :=
  if inBounds width height c.1 c.2 then
    if getCell s.1 c.1 c.2 = some 0 then (setCell s.1 c.1 c.2 1, s.2 ++ [⟨c.1, c.2⟩])
    else s
  else s

/-- The cells of a horizontal segment on row `y`, from `x = startX` to
`endX`, each with its `corridorWidth` offsets
`y + w - Math.floor(corridorWidth / 2)`. -/
def horizontalCells (x1 x2 y corridorWidth : Int) : List (Int × Int) :=
  (loopRange (min x1 x2) (max x1 x2 + 1)).flatMap (fun x =>
    (loopRange 0 corridorWidth).map (fun w => (x, y + w - corridorWidth / 2)))

/-- The cells of a vertical segment on column `x`, from `y = startY` to
`endY`, each with its `corridorWidth` offsets. -/
def verticalCells (y1 y2 x corridorWidth : Int) : List (Int × Int) :=
  (loopRange (min y1 y2) (max y1 y2 + 1)).flatMap (fun y =>
    (loopRange 0 corridorWidth).map (fun w => (x + w - corridorWidth / 2, y)))

/-- The test `deltaX > deltaY` of `createCorridor`. -/
def horizontalFirst (x1 y1 x2 y2 : Int) : Bool :=
  decide (|x2 - x1| > |y2 - y1|)

/-- All cells a call of `createCorridor` visits, in loop order. -/
def corridorCells (x1 y1 x2 y2 corridorWidth : Int) : List (Int × Int) :=
  if horizontalFirst x1 y1 x2 y2 then
    horizontalCells x1 x2 y1 corridorWidth ++ verticalCells y1 y2 x2 corridorWidth
  else
    verticalCells y1 y2 x1 corridorWidth ++ horizontalCells x1 x2 y2 corridorWidth

/-- `createCorridor(x1, y1, x2, y2, grid, width, height, corridorWidth)`:
the returned record and the grid after carving. -/
def createCorridor (x1 y1 x2 y2 : Int) (grid : Grid) (width height corridorWidth : Int) :
    Corridor × Grid :=
  let s := (corridorCells x1 y1 x2 y2 corridorWidth).foldl (carveCell width height) (grid, [])
  ({ start := ⟨x1, y1⟩, finish := ⟨x2, y2⟩, path := s.2, width := corridorWidth,
     type := if horizontalFirst x1 y1 x2 y2 then "horizontal-first" else "vertical-first" },
   s.1)

/-- A spanning-tree connection `{ from, to }`: `source` is its `from`, `target`
its `to`. -/
structure Connection where
  source : Nat
  target : Nat
  deriving DecidableEq, Repr

/-- The distance computed in `createMinimumSpanningTree`; `none` is `NaN`,
the result when a centre is `undefined`. -/
def centerDistance (room1 room2 : Room) : Option Int :=
  match room1.centerX, room2.centerX, room1.centerY, room2.centerY with
  | some x1, some x2, some y1, some y2 => some (|x1 - x2| + |y1 - y2|)
  | _, _, _, _ => none

/-- The body of the two nested `for ... of` loops for one pair of ids.
`best` holds `bestConnection` with `bestDistance` (`none`: `null` and
`Infinity`).  The outer `none` is the `TypeError` of reading `centerX` of an
`undefined` room. -/
def scanPair (rooms : List Room) (best : Option (Connection × Int)) (p : Nat × Nat) :
    Option (Option (Connection × Int)) :=
  match rooms.get? p.1, rooms.get? p.2 with
  | some room1, some room2 =>
    match centerDistance room1 room2 with
    | some distance =>
      match best with
      | some b => if distance < b.2 then some (some (⟨p.1, p.2⟩, distance)) else some best
      | none => some (some (⟨p.1, p.2⟩, distance))
    | none => some best
  | _, _ => none

/-- The nested loops over a list of `(connectedId, unconnectedId)` pairs. -/
def scanPairs (rooms : List Room) :
    List (Nat × Nat) → Option (Connection × Int) → Option (Option (Connection × Int))
  | [], best => some best
  | p :: rest, best =>
    match scanPair rooms best p with
    | some best => scanPairs rooms rest best
    | none => none

/-- The pairs in the order the nested loops visit them. -/
def allPairs (connected unconnected : List Nat) : List (Nat × Nat) :=
  connected.flatMap (fun c => unconnected.map (fun u => (c, u)))

/-- `set.add(x)` on a set kept as the list of its elements in insertion order. -/
def setAdd (s : List Nat) (x : Nat) : List Nat :=
  if x ∈ s then s else s ++ [x]

/-- The call `new Set(values)`. -/
def setOfList (values : List Nat) : List Nat :=
  values.foldl setAdd []

/-- The `while (unconnected.size > 0)` loop of `createMinimumSpanningTree`;
every pass removes one id, so `fuel` starts at `unconnected.size`. -/
def mstLoop (rooms : List Room) :
    Nat → List Nat → List Nat → List Connection → SeededRandom →
      Option (List Connection × SeededRandom)
  | 0, _, _, connections, rng => some (connections, rng)
  | fuel + 1, connected, unconnected, connections, rng =>
    match unconnected with
    | [] => some (connections, rng)
    | first :: _ =>
      match scanPairs rooms (allPairs connected unconnected) none with
      | none => none
      | some (some best) =>
        mstLoop rooms fuel (setAdd connected best.1.target) (unconnected.erase best.1.target)
          (connections ++ [best.1]) rng
      | some none =>
        let randomUnconnected := first
        let r := rng.nextInt 0 ((connected.length : Int) - 1)
        match jsIndex connected r.1 with
        | some randomConnected =>
          mstLoop rooms fuel (setAdd connected randomUnconnected)
            (unconnected.erase randomUnconnected)
            (connections ++ [⟨randomConnected, randomUnconnected⟩]) r.2
        | none => none

/-- `createMinimumSpanningTree(rooms, rng)`. -/
def createMinimumSpanningTree (rooms : List Room) (rng : SeededRandom) :
    Option (List Connection × SeededRandom) :=
  let connected := setOfList [0]
  let unconnected := setOfList ((rooms.drop 1).map (fun room => room.id))
  mstLoop rooms unconnected.length connected unconnected [] rng

/-- The operand `a || b` on numbers: `b` when `a` is `undefined` or `0`. -/
def orElse (a : Option Int) (b : Int) : Int :=
  match a with
  | some v => if v = 0 then b else v
  | none => b

/-- The call of `createCorridor` between the centres of two rooms, as both
call sites of `generateCorridors` write it. -/
def corridorBetween (room1 room2 : Room) (grid : Grid) (width height corridorWidth : Int) :
    Corridor × Grid :=
  createCorridor
    (orElse room1.centerX (room1.x + room1.width / 2))
    (orElse room1.centerY (room1.y + room1.height / 2))
    (orElse room2.centerX (room2.x + room2.width / 2))
    (orElse room2.centerY (room2.y + room2.height / 2))
    grid width height corridorWidth

/-- The `connections.forEach` of `generateCorridors`: one corridor per
connection, pushed on `corridors`. -/
def carveConnections (rooms : List Room) (width height corridorWidth : Int) :
    List Connection → Grid → List Corridor → Option (List Corridor × Grid)
  | [], grid, corridors => some (corridors, grid)
  | connection :: rest, grid, corridors =>
    match rooms.get? connection.source, rooms.get? connection.target with
    | some room1, some room2 =>
      let c := corridorBetween room1 room2 grid width height corridorWidth
      carveConnections rooms width height corridorWidth rest c.2 (corridors ++ [c.1])
    | _, _ => none

/-- The test `alreadyConnected` of the extra-connection loop. -/
def alreadyConnected (connections : List Connection) (room1 room2 : Room) : Bool :=
  connections.any (fun conn =>
    (conn.source == room1.id && conn.target == room2.id) ||
    (conn.source == room2.id && conn.target == room1.id))

/-- The loop `for (let i = 0; i < extraConnections; i++)` with `n` passes
left.  `room1 !== room2` compares object identity: the two draws picked
different array slots. -/
def extraLoop (rooms : List Room) (connections : List Connection)
    (width height corridorWidth : Int) :
    Nat → Grid → SeededRandom → Option (Grid × SeededRandom)
  | 0, grid, rng => some (grid, rng)
  | n + 1, grid, rng =>
    let i1 := rng.nextInt 0 ((rooms.length : Int) - 1)
    let i2 := i1.2.nextInt 0 ((rooms.length : Int) - 1)
    match jsIndex rooms i1.1, jsIndex rooms i2.1 with
    | some room1, some room2 =>
      if i1.1 ≠ i2.1 then
        if alreadyConnected connections room1 room2 then
          extraLoop rooms connections width height corridorWidth n grid i2.2
        else
          let c := corridorBetween room1 room2 grid width height corridorWidth
          extraLoop rooms connections width height corridorWidth n c.2 i2.2
      else extraLoop rooms connections width height corridorWidth n grid i2.2
    | none, none => extraLoop rooms connections width height corridorWidth n grid i2.2
    | _, _ => none

/-- `generateCorridors(rng, rooms, grid, width, height, corridorWidth)`: the
returned list, the grid and the generator after the call. -/
def generateCorridors (rng : SeededRandom) (rooms : List Room) (grid : Grid)
    (width height corridorWidth : Int) : Option (List Corridor × Grid × SeededRandom) :=
  if rooms.length < 2 then some ([], grid, rng)
  else
    match createMinimumSpanningTree rooms rng with
    | none => none
    | some (connections, rng) =>
      match carveConnections rooms width height corridorWidth connections grid [] with
      | none => none
      | some (corridors, grid) =>
        let extraConnections := min 2 (rooms.length / 3)
        match extraLoop rooms connections width height corridorWidth extraConnections grid rng with
        | none => none
        | some (grid, rng) => some (corridors, grid, rng)

/-! ## Doors -/

/-- The test `rooms.some(room => x >= room.x && x < room.x + room.width &&
y >= room.y && y < room.y + room.height)`. -/
def inRoom (rooms : List Room) (x y : Int) : Bool :=
  rooms.any (fun room =>
    decide (x ≥ room.x) && decide (x < room.x + room.width) &&
    decide (y ≥ room.y) && decide (y < room.y + room.height))

/-- The callback of `adjacentPositions.some` in `isRoomCorridorBoundary`: the
neighbour is inside the grid, is floor, and lies in no room. -/
def isCorridorAt (grid : Grid) (rooms : List Room) (width height : Int) (pos : Int × Int) :
    Bool :=
  if pos.1 < 0 ∨ pos.1 ≥ width ∨ pos.2 < 0 ∨ pos.2 ≥ height then false
  else if getCell grid pos.1 pos.2 ≠ some 1 then false
  else !(inRoom rooms pos.1 pos.2)

/-- `isRoomCorridorBoundary(x, y, grid, rooms, width, height)`. -/
def isRoomCorridorBoundary (x y : Int) (grid : Grid) (rooms : List Room)
    (width height : Int) : Bool :=
  if !(inRoom rooms x y) then false
  else
    [(x - 1, y), (x + 1, y), (x, y - 1), (x, y + 1)].any
      (isCorridorAt grid rooms width height)

/-- The cells scanned by `placeDoors`, row by row. -/
def doorCells (width height : Int) : List (Int × Int) :=
  (loopRange 1 (height - 1)).flatMap (fun y =>
    (loopRange 1 (width - 1)).map (fun x => (x, y)))

/-- The body of the scan of `placeDoors` at one cell. -/
def placeDoorAt (rooms : List Room) (width height : Int) (s : Grid × SeededRandom)
    (c : Int × Int) : Grid × SeededRandom :=
  if getCell s.1 c.1 c.2 = some 1 then
    if isRoomCorridorBoundary c.1 c.2 s.1 rooms width height then
      let r := s.2.next
      if r.1 < 7 / 10 then (setCell s.1 c.1 c.2 2, r.2) else (s.1, r.2)
    else s
  else s

/-- `placeDoors(rng, grid, rooms, width, height)`: the grid and the generator
after the call. -/
def placeDoors (rng : SeededRandom) (grid : Grid) (rooms : List Room) (width height : Int) :
    Grid × SeededRandom :=
  (doorCells width height).foldl (placeDoorAt rooms width height) (grid, rng)

/-! ## Encounters -/

/-- A value interpolated in a template string or used as a property key. -/
def jsToString (v : Option String) : String := v.getD "undefined"

/-- The table `difficultyMultiplier` of `generateEncounters`. -/
def difficultyMultiplier : List (String × ℚ) :=
  [("easy", 1 / 2), ("medium", 1), ("hard", 3 / 2), ("deadly", 2)]

/-- The table `biomeCreatures`. -/
def biomeCreatures : List (String × List String) :=
  [("dungeon", ["Goblin", "Skeleton", "Orc", "Troll", "Dragon"]),
   ("cave", ["Bat", "Bear", "Kobold", "Owlbear", "Bulette"]),
   ("forest", ["Wolf", "Dryad", "Treant", "Dire Wolf", "Green Dragon"]),
   ("crypt", ["Zombie", "Wraith", "Lich", "Mummy", "Vampire"]),
   ("temple", ["Celestial", "Demon", "Angel", "Paladin", "Cleric"]),
   ("tower", ["Mage", "Elemental", "Gargoyle", "Wizard", "Archmage"])]

/-- The vocabulary `biomeCreatures['dungeon']`. -/
def dungeonCreatures : List String := ["Goblin", "Skeleton", "Orc", "Troll", "Dragon"]

/-- The table `descriptions` of `generateEncounterDescription`. -/
def encounterDescriptions : List (String × String) :=
  [("Chamber", "A dimly lit chamber where danger lurks in the shadows."),
   ("Hall", "The echoing hall stretches before you, inhabited by hostile forces."),
   ("Treasury", "Gold and gems glitter in this treasure room, but guardians protect the hoard."),
   ("Barracks", "Old bunks and weapons racks suggest this was once a military quarters."),
   ("Library", "Ancient tomes line the shelves of this forgotten library."),
   ("Armory", "Weapons and armor hang from the walls, some still serviceable."),
   ("Kitchen", "The smell of old food and decay fills this abandoned kitchen."),
   ("Throne Room", "A grand throne dominates this royal chamber."),
   ("Chapel", "Sacred symbols and altar suggest this was once a holy place."),
   ("Laboratory", "Bubbling potions and strange apparatus fill this research chamber.")]

/-- An entry `{ name, count }` of an encounter; `count` is `NaN` (`none`)
when the difficulty has no multiplier. -/
structure Creature where
  name : Option String
  count : Option Int
  deriving DecidableEq, Repr

/-- An encounter record; `challengeRating` is `NaN` (`none`) when the
difficulty has no multiplier. -/
structure Encounter where
  id : Nat
  roomId : Nat
  name : String
  description : String
  challengeRating : Option Int
  creatures : List Creature
  deriving DecidableEq, Repr

/-- `generateEncounterDescription(roomType, creatures, biome)`; `none` is the
`TypeError` of `c.name.toLowerCase()` on an `undefined` name. -/
def generateEncounterDescription (roomType : Option String) (creatures : List Creature)
    (_biome : String) : Option String :=
  let baseDesc := (encounterDescriptions.lookup (jsToString roomType)).getD
    "A dimly lit chamber where danger lurks in the shadows."
  match creatures.mapM (fun c => c.name.map String.toLower) with
  | none => none
  | some names =>
    let creatureNames := String.intercalate ", " names
    some (baseDesc ++ " " ++ (if creatures.length = 1 then "A" else "Several") ++ " " ++
      creatureNames ++ " " ++ (if creatures.length = 1 then "guards" else "guard") ++
      " this area.")

/-- The draw `rng.nextInt(1, Math.max(1, Math.floor(baseCR * 2)))`. -/
def drawCount (baseCR : Option ℚ) (rng : SeededRandom) : Option Int × SeededRandom :=
  match baseCR with
  | some b =>
    let r := rng.nextInt 1 (max 1 ⌊b * 2⌋)
    (some r.1, r.2)
  | none => (none, rng.next.2)

/-- The loop `for (let i = 0; i < creatureCount; i++)` with `n` passes left. -/
def creatureLoop (creatures : List String) (baseCR : Option ℚ) :
    Nat → List Creature → SeededRandom → List Creature × SeededRandom
  | 0, encounterCreatures, rng => (encounterCreatures, rng)
  | n + 1, encounterCreatures, rng =>
    let name := rng.choice creatures
    let count := drawCount baseCR name.2
    creatureLoop creatures baseCR n
      (encounterCreatures ++ [{ name := name.1, count := count.1 }]) count.2

/-- The draw `Math.max(1, Math.round(baseCR * rng.next() * 3))`;
`Math.round(v)` is `⌊v + 1/2⌋`. -/
def drawChallengeRating (baseCR : Option ℚ) (rng : SeededRandom) :
    Option Int × SeededRandom :=
  let r := rng.next
  match baseCR with
  | some b => (some (max 1 ⌊b * r.1 * 3 + 1 / 2⌋), r.2)
  | none => (none, r.2)

/-- The callback of `rooms.forEach` in `generateEncounters`. -/
def encounterStep (creatures : List String) (baseCR : Option ℚ) (biome : String)
    (s : List Encounter × SeededRandom) (room : Room) :
    Option (List Encounter × SeededRandom) :=
  let gate := s.2.next
  if gate.1 < 6 / 10 then
    let creatureCount := gate.2.nextInt 1 3
    let cs := creatureLoop creatures baseCR creatureCount.1.toNat [] creatureCount.2
    match generateEncounterDescription room.type cs.1 biome with
    | none => none
    | some description =>
      let cr := drawChallengeRating baseCR cs.2
      some (s.1 ++ [{ id := s.1.length, roomId := room.id,
                      name := jsToString room.type ++ " Encounter",
                      description := description, challengeRating := cr.1,
                      creatures := cs.1 }], cr.2)
  else some (s.1, gate.2)

/-- The `rooms.forEach` of `generateEncounters`. -/
def encounterLoop (creatures : List String) (baseCR : Option ℚ) (biome : String) :
    List Room → List Encounter × SeededRandom → Option (List Encounter × SeededRandom)
  | [], s => some s
  | room :: rest, s =>
    match encounterStep creatures baseCR biome s room with
    | none => none
    | some s => encounterLoop creatures baseCR biome rest s

/-- `generateEncounters(rng, rooms, difficulty, biome)`. -/
def generateEncounters (rng : SeededRandom) (rooms : List Room) (difficulty biome : String) :
    Option (List Encounter × SeededRandom) :=
  let creatures := (biomeCreatures.lookup biome).getD dungeonCreatures
  let baseCR := difficultyMultiplier.lookup difficulty
  encounterLoop creatures baseCR biome rooms ([], rng)

/-! ## The pipeline -/

/-- The parameter record read by the generators. -/
structure Params where
  seed : List Nat
  width : Int
  height : Int
  roomCount : Int
  corridorWidth : Int
  difficulty : String
  biome : String
  enableAI : Bool
  deriving DecidableEq, Repr

/-- The record returned by `generateDungeon`. -/
structure GeneratedDungeon where
  width : Int
  height : Int
  grid : Grid
  rooms : List Room
  corridors : List Corridor
  encounters : List Encounter
  biome : String
  difficulty : String
  deriving DecidableEq, Repr

/-- `generateDungeon(params)`.  `Array(height)` and `Array(width)` raise a
`RangeError` on a negative length (`Array(width)` is only evaluated when
there is a row to fill). -/
def generateDungeon (params : Params) : Option GeneratedDungeon :=
  let rng := SeededRandom.create params.seed
  if params.height < 0 ∨ (0 < params.height ∧ params.width < 0) then none
  else
    let grid : Grid := List.replicate params.height.toNat (List.replicate params.width.toNat 0)
    let rooms := generateRooms rng params.width params.height params.roomCount
    let stamped := stampRooms params.width params.height grid rooms.1
    match generateCorridors rooms.2 stamped.2 stamped.1 params.width params.height
        params.corridorWidth with
    | none => none
    | some (corridors, grid, rng) =>
      let doors := placeDoors rng grid stamped.2 params.width params.height
      match generateEncounters doors.2 stamped.2 params.difficulty params.biome with
      | none => none
      | some (encounters, _) =>
        some { width := params.width, height := params.height, grid := doors.1,
               rooms := stamped.2, corridors := corridors, encounters := encounters,
               biome := params.biome, difficulty := params.difficulty }

/-! ## Loot -/

/-- A loot item record. -/
structure LootItem where
  name : String
  icon : Option String
  rarity : Option String
  type : Option String
  value : String
  description : Option String
  deriving DecidableEq, Repr

/-- A loot table record; only room tables carry a `roomId`. -/
structure LootTable where
  id : String
  name : String
  type : String
  roomId : Option Nat
  items : List LootItem
  deriving DecidableEq, Repr

/-- The table `difficultyModifier` of `generateTreasureTable`. -/
def difficultyModifier : List (String × ℚ) :=
  [("easy", 1 / 2), ("medium", 1), ("hard", 3 / 2), ("deadly", 2)]

/-- The table `rarityWeights`: per difficulty, the weights of common,
uncommon, rare, epic and legendary in key order. -/
def rarityWeights : List (String × List ℚ) :=
  [("easy", [70, 25, 4, 1, 0]),
   ("medium", [50, 30, 15, 4, 1]),
   ("hard", [30, 35, 25, 8, 2]),
   ("deadly", [20, 30, 30, 15, 5])]

/-- The keys of every entry of `rarityWeights`, in order. -/
def rarityNames : List String := ["common", "uncommon", "rare", "epic", "legendary"]

/-- `determineRarity(rng, difficulty)`. -/
def determineRarity (rng : SeededRandom) (difficulty : String) :
    Option String × SeededRandom :=
  let weightValues := (rarityWeights.lookup difficulty).getD [50, 30, 15, 4, 1]
  rng.weightedChoice rarityNames weightValues

/-- The table `typesByBias`. -/
def typesByBias : List (String × List String) :=
  [("treasure", ["gem", "jewelry", "art", "currency"]),
   ("valuable", ["gem", "jewelry", "art"]),
   ("weapons", ["weapon", "armor", "shield"]),
   ("scrolls", ["scroll", "book", "map"]),
   ("consumables", ["potion", "food", "component"]),
   ("equipment", ["tool", "gear", "weapon", "armor"]),
   ("holy", ["relic", "symbol", "scroll"]),
   ("magical", ["wand", "staff", "orb", "potion", "scroll"]),
   ("royal", ["jewelry", "art", "weapon", "crown"]),
   ("combat", ["weapon", "armor", "potion"]),
   ("general", ["weapon", "armor", "potion", "gem", "tool"])]

/-- `determineItemType(rng, bias)`. -/
def determineItemType (rng : SeededRandom) (bias : String) : Option String × SeededRandom :=
  let types := (typesByBias.lookup bias).getD ["weapon", "armor", "potion", "gem", "tool"]
  rng.choice types

/-- The table `icons` of `getItemIcon`. -/
def itemIcons : List (String × List String) :=
  [("weapon", ["⚔️", "🗡️", "🏹", "🔨", "🪓"]),
   ("armor", ["🛡️", "🥾", "👕", "👑", "🧤"]),
   ("shield", ["🛡️"]),
   ("potion", ["🧪", "🍶", "🥤"]),
   ("scroll", ["📜", "📋", "📃"]),
   ("book", ["📖", "📚", "📕"]),
   ("gem", ["💎", "💍", "🔮", "💠"]),
   ("jewelry", ["💍", "📿", "👑", "⌚"]),
   ("art", ["🎨", "🏺", "🪞", "🕯️"]),
   ("currency", ["🪙", "💰", "💵"]),
   ("tool", ["🔧", "⚒️", "🪚", "🔑"]),
   ("gear", ["🎒", "🪢", "🧭"]),
   ("wand", ["🪄", "✨"]),
   ("staff", ["🪄", "🦯"]),
   ("orb", ["🔮", "💎"]),
   ("relic", ["✨", "🏺", "📿"]),
   ("symbol", ["✝️", "☪️", "🕎", "☯️"]),
   ("map", ["🗺️", "📜"]),
   ("component", ["🌿", "🦴", "⭐", "🔥"]),
   ("food", ["🍖", "🍞", "🧀", "🍯"]),
   ("crown", ["👑", "💎"])]

/-- `getItemIcon(itemType)`.  Its last statement is `return
rng.choice(typeIcons)`, but `rng` is neither a parameter of this function nor
a binding of the module: evaluating it raises a `ReferenceError`, so every
call fails (`none`) after the table lookup. -/
def getItemIcon (itemType : Option String) : Option (Option String) :=
  let _typeIcons := (itemIcons.lookup (jsToString itemType)).getD ["❓"]
  none

/-- The table `typeMultiplier` of `calculateValue`. -/
def typeMultiplier : List (String × ℚ) :=
  [("weapon", 3 / 2), ("armor", 13 / 10), ("jewelry", 2), ("art", 9 / 5), ("gem", 5 / 2),
   ("potion", 4 / 5), ("scroll", 6 / 5), ("currency", 1)]

/-- `calculateValue(rng, rarity, itemType)`: the object literal `baseValues`
makes its five draws in key order whatever the rarity. -/
def calculateValue (rng : SeededRandom) (rarity itemType : Option String) :
    String × SeededRandom :=
  let common := rng.nextInt 1 50
  let uncommon := common.2.nextInt 51 250
  let rare := uncommon.2.nextInt 251 1000
  let epic := rare.2.nextInt 1001 5000
  let legendary := epic.2.nextInt 5001 25000
  let baseValues : List (String × Int) :=
    [("common", common.1), ("uncommon", uncommon.1), ("rare", rare.1), ("epic", epic.1),
     ("legendary", legendary.1)]
  let base :=
    match baseValues.lookup (jsToString rarity) with
    | some v => if v = 0 then common.1 else v
    | none => common.1
  let multiplier := (typeMultiplier.lookup (jsToString itemType)).getD 1
  let finalValue := ⌊(base : ℚ) * multiplier⌋
  (toString finalValue ++ " gp", legendary.2)

/-- The table `prefixes` of `generateItemName`. -/
def namePrefixes : List (String × List String) :=
  [("common", ["Simple", "Basic", "Plain", "Ordinary", "Standard"]),
   ("uncommon", ["Fine", "Quality", "Masterwork", "Superior", "Elegant"]),
   ("rare", ["Exquisite", "Enchanted", "Mystical", "Ancient", "Noble"]),
   ("epic", ["Legendary", "Mythical", "Divine", "Celestial", "Draconic"]),
   ("legendary", ["Artifact", "Godly", "Eternal", "Ultimate", "Transcendent"])]

/-- The table `itemNames`. -/
def itemNames : List (String × List String) :=
  [("weapon", ["Sword", "Blade", "Dagger", "Axe", "Mace", "Bow", "Crossbow", "Spear", "Hammer"]),
   ("armor", ["Chainmail", "Leather Armor", "Plate Mail", "Robes", "Cloak", "Boots", "Gauntlets"]),
   ("shield", ["Shield", "Buckler", "Tower Shield"]),
   ("potion", ["Healing Potion", "Mana Potion", "Elixir", "Philter", "Draught"]),
   ("scroll", ["Spell Scroll", "Map", "Deed", "Letter", "Contract"]),
   ("book", ["Spellbook", "Tome", "Grimoire", "Manual", "Chronicle"]),
   ("gem", ["Ruby", "Emerald", "Sapphire", "Diamond", "Opal", "Amethyst"]),
   ("jewelry", ["Ring", "Necklace", "Bracelet", "Amulet", "Circlet"]),
   ("art", ["Painting", "Sculpture", "Vase", "Tapestry", "Mirror"]),
   ("tool", ["Lockpicks", "Rope", "Grappling Hook", "Crowbar", "Hammer"]),
   ("wand", ["Wand", "Rod"]),
   ("staff", ["Staff", "Quarterstaff"]),
   ("orb", ["Crystal Orb", "Scrying Orb"]),
   ("crown", ["Crown", "Tiara", "Diadem"])]

/-- The table `biomeModifiers`. -/
def biomeModifiers : List (String × List String) :=
  [("dungeon", ["of the Deep", "of Shadows", "of Stone"]),
   ("cave", ["of the Depths", "of Crystal", "of Echoes"]),
   ("forest", ["of the Grove", "of Nature", "of the Wild"]),
   ("crypt", ["of the Dead", "of Souls", "of Eternity"]),
   ("temple", ["of Light", "of Faith", "of the Divine"]),
   ("tower", ["of Power", "of Wisdom", "of the Arcane"])]

/-- `generateItemName(rng, item, biome)`, reading `item.rarity` and
`item.type`. -/
def generateItemName (rng : SeededRandom) (rarity itemType : Option String) (biome : String) :
    String × SeededRandom :=
  let adjective := rng.choice ((namePrefixes.lookup (jsToString rarity)).getD
    ["Simple", "Basic", "Plain", "Ordinary", "Standard"])
  let baseName := adjective.2.choice ((itemNames.lookup (jsToString itemType)).getD ["Item"])
  let fullName := jsToString adjective.1 ++ " " ++ jsToString baseName.1
  if rarity = some "rare" ∨ rarity = some "epic" ∨ rarity = some "legendary" then
    let modifier := baseName.2.choice ((biomeModifiers.lookup biome).getD
      ["of the Deep", "of Shadows", "of Stone"])
    (fullName ++ " " ++ jsToString modifier.1, modifier.2)
  else (fullName, baseName.2)

/-- The table `descriptions` of `generateItemDescription`. -/
def itemDescriptions : List (String × List String) :=
  [("weapon",
    ["A well-balanced weapon with a keen edge.",
     "This weapon bears the marks of many battles.",
     "Crafted with exceptional skill and attention to detail.",
     "The metal gleams with an otherworldly sheen."]),
   ("armor",
    ["Sturdy protection that has weathered many conflicts.",
     "This armor shows signs of masterful craftsmanship.",
     "Lightweight yet durable, perfect for adventurers.",
     "Enhanced with protective enchantments."]),
   ("potion",
    ["A bubbling liquid that glows faintly in the dark.",
     "The contents swirl mysteriously within the bottle.",
     "Smells of herbs and magical ingredients.",
     "Crafted by a skilled alchemist."]),
   ("gem",
    ["This precious stone catches light beautifully.",
     "A flawless gem of exceptional clarity.",
     "The facets seem to hold inner fire.",
     "Valued by collectors and jewelers alike."]),
   ("scroll",
    ["Ancient parchment covered in mystic symbols.",
     "The writing glows faintly with magical power.",
     "Contains knowledge from a bygone age.",
     "Carefully preserved despite its age."])]

/-- `generateItemDescription(rng, itemType, rarity, biome)`. -/
def generateItemDescription (rng : SeededRandom) (itemType _rarity : Option String)
    (_biome : String) : Option String × SeededRandom :=
  let typeDescriptions := (itemDescriptions.lookup (jsToString itemType)).getD
    ["A well-balanced weapon with a keen edge.",
     "This weapon bears the marks of many battles.",
     "Crafted with exceptional skill and attention to detail.",
     "The metal gleams with an otherworldly sheen."]
  rng.choice typeDescriptions

/-- `generateLootItem(rng, biome, difficulty, bias)`: the fields of the
object literal are evaluated in order (`icon` first), then the name. -/
def generateLootItem (rng : SeededRandom) (biome difficulty bias : String) :
    Option (LootItem × SeededRandom) :=
  let rarity := determineRarity rng difficulty
  let itemType := determineItemType rarity.2 bias
  match getItemIcon itemType.1 with
  | none => none
  | some icon =>
    let value := calculateValue itemType.2 rarity.1 itemType.1
    let description := generateItemDescription value.2 itemType.1 rarity.1 biome
    let name := generateItemName description.2 rarity.1 itemType.1 biome
    some ({ name := name.1, icon := icon, rarity := rarity.1, type := itemType.1,
            value := value.1, description := description.1 }, name.2)

/-- A loop `for (let i = 0; i < count; i++) items.push(generateLootItem(...))`
with `n` passes left. -/
def lootItemLoop (biome difficulty bias : String) :
    Nat → List LootItem → SeededRandom → Option (List LootItem × SeededRandom)
  | 0, items, rng => some (items, rng)
  | n + 1, items, rng =>
    match generateLootItem rng biome difficulty bias with
    | none => none
    | some (item, rng) => lootItemLoop biome difficulty bias n (items ++ [item]) rng

/-- The operand `difficultyModifier[difficulty] || 1.0` of
`generateTreasureTable`. -/
def treasureModifier (difficulty : String) : ℚ :=
  match difficultyModifier.lookup difficulty with
  | some m => if m = 0 then 1 else m
  | none => 1

/-- `generateTreasureTable(rng, name, difficulty, biome)`. -/
def generateTreasureTable (rng : SeededRandom) (name difficulty biome : String) :
    Option (LootTable × SeededRandom) :=
  let modifier : ℚ := treasureModifier difficulty
  let count := rng.nextInt 3 8
  let itemCount := ⌊(count.1 : ℚ) * modifier⌋
  match lootItemLoop biome difficulty "treasure" itemCount.toNat [] count.2 with
  | none => none
  | some (items, rng) =>
    let gold := rng.nextInt 50 500
    let goldAmount := ⌊(gold.1 : ℚ) * modifier⌋
    some ({ id := "main_treasure", name := name, type := "treasure", roomId := none,
            items := items ++
              [{ name := "Gold Pieces", icon := some "🪙", rarity := some "common",
                 type := some "currency", value := toString goldAmount ++ " gp",
                 description := some "Standard gold currency of the realm" }] }, gold.2)

/-- The table `roomTypes` of `generateRoomLoot`: item count and bias. -/
def roomLootConfig : List (String × Nat × String) :=
  [("Treasury", 4, "valuable"), ("Armory", 3, "weapons"), ("Library", 2, "scrolls"),
   ("Kitchen", 2, "consumables"), ("Barracks", 3, "equipment"), ("Chapel", 2, "holy"),
   ("Laboratory", 3, "magical"), ("Throne Room", 4, "royal"), ("Chamber", 2, "general"),
   ("Hall", 1, "general")]

/-- `generateRoomLoot(rng, room, difficulty, biome, index)`. -/
def generateRoomLoot (rng : SeededRandom) (room : Room) (difficulty biome : String)
    (index : Nat) : Option (LootTable × SeededRandom) :=
  let roomConfig := (roomLootConfig.lookup (jsToString room.type)).getD (2, "general")
  match lootItemLoop biome difficulty roomConfig.2 roomConfig.1 [] rng with
  | none => none
  | some (items, rng) =>
    some ({ id := "room_" ++ toString index, name := jsToString room.type ++ " Loot",
            type := "room", roomId := some room.id, items := items }, rng)

/-- `generateEncounterLoot(rng, difficulty, biome)`. -/
def generateEncounterLoot (rng : SeededRandom) (difficulty biome : String) :
    Option (LootTable × SeededRandom) :=
  let itemCount := rng.nextInt 2 5
  match lootItemLoop biome difficulty "combat" itemCount.1.toNat [] itemCount.2 with
  | none => none
  | some (items, rng) =>
    some ({ id := "encounter_loot", name := "Combat Rewards", type := "encounter",
            roomId := none, items := items }, rng)

/-- The `rooms.forEach((room, index) => ...)` of `generateLoot`, from array
index `index` on. -/
def roomLootLoop (difficulty biome : String) :
    List Room → Nat → List LootTable → SeededRandom → Option (List LootTable × SeededRandom)
  | [], _, lootTables, rng => some (lootTables, rng)
  | room :: rest, index, lootTables, rng =>
    let gate := rng.next
    if gate.1 < 7 / 10 then
      match generateRoomLoot gate.2 room difficulty biome index with
      | none => none
      | some (roomTable, rng) =>
        if roomTable.items.length > 0 then
          roomLootLoop difficulty biome rest (index + 1) (lootTables ++ [roomTable]) rng
        else roomLootLoop difficulty biome rest (index + 1) lootTables rng
    else roomLootLoop difficulty biome rest (index + 1) lootTables gate.2

/-- The code units of the suffix in `seed + '_loot'`. -/
def lootSuffix : List Nat := [95, 108, 111, 111, 116]

/-- `generateLoot(dungeon, params)`. -/
def generateLoot (dungeon : GeneratedDungeon) (params : Params) : Option (List LootTable) :=
  let rng := SeededRandom.create (params.seed ++ lootSuffix)
  match generateTreasureTable rng "Main Treasure" dungeon.difficulty dungeon.biome with
  | none => none
  | some (mainTable, rng) =>
    match roomLootLoop dungeon.difficulty dungeon.biome dungeon.rooms 0 [mainTable] rng with
    | none => none
    | some (lootTables, rng) =>
      match generateEncounterLoot rng dungeon.difficulty dungeon.biome with
      | none => none
      | some (encounterTable, _) => some (lootTables ++ [encounterTable])

/-! ## Notions used to state the properties -/

/-- The weighted sum of the character codes `c_0 .. c_(n-1)`:
`c_0 * 31^(n-1) + c_1 * 31^(n-2) + ... + c_(n-1)`. -/
def weightedCodeSum (str : List Nat) : Int :=
  ((List.range str.length).map
    (fun i => ((str.getD i 0 : Nat) : Int) * 31 ^ (str.length - 1 - i))).sum

/-- Two rooms are separated by the 2-cell padding on some axis. -/
def Separated (a b : Room) : Prop :=
  a.x + a.width + 2 ≤ b.x ∨ b.x + b.width + 2 ≤ a.x ∨
  a.y + a.height + 2 ≤ b.y ∨ b.y + b.height + 2 ≤ a.y

/-- The cell `(x, y)` belongs to the rectangle of the room. -/
def Room.Covers (room : Room) (x y : Int) : Prop :=
  room.x ≤ x ∧ x < room.x + room.width ∧ room.y ≤ y ∧ y < room.y + room.height

/-- What the loop body of `generateRooms` knows about the candidate it builds
when `rooms` are the rooms accepted so far. -/
structure Candidate (width height : Int) (rooms : List Room) (newRoom : Room) : Prop where
  id_eq : newRoom.id = rooms.length
  centerX_eq : newRoom.centerX = none
  centerY_eq : newRoom.centerY = none
  width_ge : 4 ≤ newRoom.width
  width_le : newRoom.width ≤ 8
  height_ge : 4 ≤ newRoom.height
  height_le : newRoom.height ≤ 8
  x_range : 1 ≤ width - newRoom.width - 1 →
    1 ≤ newRoom.x ∧ newRoom.x ≤ width - newRoom.width - 1
  y_range : 1 ≤ height - newRoom.height - 1 →
    1 ≤ newRoom.y ∧ newRoom.y ≤ height - newRoom.height - 1


/-- The parameter record of the concrete scenario of the specification:
seed "test1", a 20 by 20 grid, 5 rooms, corridor width 1. -/
def testParams : Params :=
  { seed := [116, 101, 115, 116, 49], width := 20, height := 20, roomCount := 5,
    corridorWidth := 1, difficulty := "medium", biome := "dungeon", enableAI := true }

/-- A dungeon record without rooms, used as a concrete input. -/
def emptyDungeon : GeneratedDungeon :=
  { width := 20, height := 20, grid := [], rooms := [], corridors := [], encounters := [],
    biome := "dungeon", difficulty := "medium" }

/-- A cell that is not wall: its value is floor, door or room centre. -/
def Walkable (grid : Grid) (c : Int × Int) : Prop :=
  getCell grid c.1 c.2 = some 1 ∨ getCell grid c.1 c.2 = some 2 ∨ getCell grid c.1 c.2 = some 3

/-- Two cells are orthogonal neighbours. -/
def Adjacent (a b : Int × Int) : Prop :=
  (a.1 = b.1 ∧ |a.2 - b.2| = 1) ∨ (a.2 = b.2 ∧ |a.1 - b.1| = 1)

/-- One move between two neighbouring cells, both not wall. -/
def Step (grid : Grid) (a b : Int × Int) : Prop :=
  Walkable grid a ∧ Walkable grid b ∧ Adjacent a b

/-- The cell `b` is reached from `a` by a path of orthogonally adjacent cells
that are all not wall (both ends included). -/
def Reachable (grid : Grid) (a b : Int × Int) : Prop :=
  Walkable grid a ∧ Walkable grid b ∧ Relation.ReflTransGen (Step grid) a b

/-- Every cell inside the bounds exists in the grid and holds one of the four
cell values. -/
def GridOK (width height : Int) (grid : Grid) : Prop :=
  ∀ x y, inBounds width height x y = true → ∃ v, getCell grid x y = some v ∧ v ≤ 3

/-- No cell that is not wall in `g` is wall in `g2`. -/
def KeepsOpen (g g2 : Grid) : Prop :=
  ∀ c, Walkable g c → Walkable g2 c

/-- The floored geometric centre of the rectangle of a room. -/
def Room.middle (room : Room) : Int × Int :=
  (room.x + room.width / 2, room.y + room.height / 2)

/-- The room after `generateDungeon` recorded its centre on it. -/
def Room.withCenter (room : Room) : Room :=
  { room with centerX := some room.middle.1, centerY := some room.middle.2 }

/-- The corridor endpoint `generateCorridors` uses for a room:
`room.centerX || Math.floor(room.x + room.width / 2)` and the same for `y`. -/
def Room.anchor (room : Room) : Int × Int :=
  (orElse room.centerX (room.x + room.width / 2),
   orElse room.centerY (room.y + room.height / 2))

/-- The room has a side of 4 to 8 cells each way and lies inside the 1-cell
border of the grid. -/
def Room.Fits (width height : Int) (room : Room) : Prop :=
  4 ≤ room.width ∧ room.width ≤ 8 ∧ 4 ≤ room.height ∧ room.height ≤ 8 ∧
  1 ≤ room.x ∧ room.x + room.width ≤ width - 1 ∧
  1 ≤ room.y ∧ room.y + room.height ≤ height - 1

/-! ## NPCs -/

/-- The record `generateSingleNPC` builds in its `return` statement. -/
structure NPC where
  id : Nat
  name : String
  race : Option String
  npcClass : Option String
  level : Int
  ac : Int
  hp : Int
  cr : ℚ
  description : String
  avatar : String
  personality : Option String
  motivation : Option String
  secrets : Option String
  deriving DecidableEq, Repr

/-- The table `racesByBiome` of `getBiomeRaces`. -/
def racesByBiome : List (String × List String) :=
  [("dungeon", ["Human", "Dwarf", "Halfling", "Gnome", "Elf"]),
   ("cave", ["Dwarf", "Goblin", "Kobold", "Duergar", "Svirfneblin"]),
   ("forest", ["Elf", "Half-Elf", "Gnome", "Firbolg", "Centaur"]),
   ("crypt", ["Human", "Tiefling", "Aasimar", "Variant Human", "Dhampir"]),
   ("temple", ["Human", "Aasimar", "Dragonborn", "Tiefling", "Deva"]),
   ("tower", ["Human", "Elf", "Gnome", "Tiefling", "Githyanki"])]

/-- `getBiomeRaces(biome)`. -/
def getBiomeRaces (biome : String) : List String :=
  (racesByBiome.lookup biome).getD ["Human", "Dwarf", "Halfling", "Gnome", "Elf"]

/-- The table `classesByBiome` of `getBiomeClasses`. -/
def classesByBiome : List (String × List String) :=
  [("dungeon", ["Fighter", "Rogue", "Wizard", "Cleric", "Ranger"]),
   ("cave", ["Barbarian", "Ranger", "Druid", "Fighter", "Rogue"]),
   ("forest", ["Ranger", "Druid", "Bard", "Sorcerer", "Monk"]),
   ("crypt", ["Cleric", "Paladin", "Warlock", "Necromancer", "Death Knight"]),
   ("temple", ["Cleric", "Paladin", "Monk", "Divine Soul", "Celestial"]),
   ("tower", ["Wizard", "Sorcerer", "Warlock", "Artificer", "Arcane Trickster"])]

/-- `getBiomeClasses(biome)`. -/
def getBiomeClasses (biome : String) : List String :=
  (classesByBiome.lookup biome).getD ["Fighter", "Rogue", "Wizard", "Cleric", "Ranger"]

/-- `generateSingleNPC(rng, biome, difficulty, index)`.  After the two table
lookups its third statement is `const names = getNames(rng)`, and no
`getNames` is declared in the module or imported: the call raises a
`ReferenceError` (`none`) before any draw is made; the statements after it
are never reached. -/
def generateSingleNPC (_rng : SeededRandom) (biome _difficulty : String) (_index : Nat) :
    Option (NPC × SeededRandom) :=
  let _races := getBiomeRaces biome
  let _classes := getBiomeClasses biome
  none

/-- The loop `for (let i = 0; i < npcCount; i++)` of `generateNPCs` with `n`
passes left, entered with loop variable `i`. -/
def npcLoop (biome difficulty : String) :
    Nat → Nat → List NPC → SeededRandom → Option (List NPC × SeededRandom)
  | 0, _, npcs, rng => some (npcs, rng)
  | n + 1, i, npcs, rng =>
    match generateSingleNPC rng biome difficulty i with
    | none => none
    | some (npc, rng) => npcLoop biome difficulty n (i + 1) (npcs ++ [npc]) rng

/-- The code units of the suffix in `seed + '_npcs'`. -/
def npcSuffix : List Nat := [95, 110, 112, 99, 115]

/-- `generateNPCs(dungeon, params)`; `Math.floor(rooms.length * 0.4)` is
`⌊rooms.length * 2/5⌋`. -/
def generateNPCs (dungeon : GeneratedDungeon) (params : Params) : Option (List NPC) :=
  if !params.enableAI then some []
  else
    let rng := SeededRandom.create (params.seed ++ npcSuffix)
    let npcCount := ⌊(dungeon.rooms.length : ℚ) * (2 / 5)⌋
    match npcLoop dungeon.biome dungeon.difficulty npcCount.toNat 0 [] rng with
    | none => none
    | some (npcs, _) => some npcs

/-- A room record with the given id and type, at a fixed place. -/
def sampleRoom (id : Nat) (type : String) : Room :=
  { x := 1, y := 1, width := 4, height := 4, type := some type, id := id }

/-- A dungeon record with three rooms, used as a concrete input. -/
def threeRoomDungeon : GeneratedDungeon :=
  { width := 20, height := 20, grid := [],
    rooms := [sampleRoom 0 "Chamber", sampleRoom 1 "Hall", sampleRoom 2 "Treasury"],
    corridors := [], encounters := [], biome := "dungeon", difficulty := "medium" }

/-- The value drawn by the `n`-th call of `next()` on a generator (counting
from 0). -/
def nthDraw (rng : SeededRandom) (n : Nat) : ℚ :=
  ((fun r : SeededRandom => r.next.2)^[n] rng).next.1

/-- The gating draws of `generateEncounters`, one per room in room order: the
value of the first `next()` of each pass of `rooms.forEach`. -/
def encounterGates (creatures : List String) (baseCR : Option ℚ) (biome : String) :
    List Room → List Encounter × SeededRandom → List ℚ
  | [], _ => []
  | room :: rest, s =>
    s.2.next.1 ::
      (match encounterStep creatures baseCR biome s room with
       | some s2 => encounterGates creatures baseCR biome rest s2
       | none => [])

/-- The range `[lo, hi]` from which `calculateValue` draws the base value of
each rarity. -/
def rarityRange : List (String × Int × Int) :=
  [("common", 1, 50), ("uncommon", 51, 250), ("rare", 251, 1000), ("epic", 1001, 5000),
   ("legendary", 5001, 25000)]

/-- The largest challenge rating of each difficulty. -/
def maxChallengeRating : List (String × Int) :=
  [("easy", 1), ("medium", 3), ("hard", 4), ("deadly", 6)]

/-- The generator after one more call of `next()`. -/
def afterDraw (rng : SeededRandom) : SeededRandom := rng.next.2

/-- What a run of carving steps has done to the grid `g0` when it stands at
the grid `s.1` with the path `s.2`: a changed cell was wall and is floor, the
path holds exactly the changed cells, each once, all inside the bounds. -/
def Carved (width height : Int) (g0 : Grid) (s : Grid × List Point) : Prop :=
  (∀ x y, getCell s.1 x y = getCell g0 x y ∨
    (getCell g0 x y = some 0 ∧ getCell s.1 x y = some 1)) ∧
  (∀ p : Point, p ∈ s.2 ↔ getCell s.1 p.x p.y ≠ getCell g0 p.x p.y) ∧
  s.2.Nodup ∧
  (∀ p ∈ s.2, 0 ≤ p.x ∧ p.x < width ∧ 0 ≤ p.y ∧ p.y < height)

/-- The 20 by 20 grid of walls `generateDungeon` starts from in the scenario. -/
def wallGrid : Grid :=
  List.replicate (20 : Int).toNat (List.replicate (20 : Int).toNat 0)

/-- The Manhattan distance between the recorded centres of the rooms with
indices `i` and `j` (0 when a room or a centre is missing). -/
def roomDistance (rooms : List Room) (i j : Nat) : Int :=
  match rooms.get? i, rooms.get? j with
  | some room1, some room2 => (centerDistance room1 room2).getD 0
  | _, _ => 0

/-- The sum of the distances between the centres of the rooms joined by a
list of connections. -/
def totalLength (rooms : List Room) (edges : List Connection) : Int :=
  (edges.map (fun c => roomDistance rooms c.source c.target)).sum

/-- Two room ids are joined by one of the connections, in either direction. -/
def Linked (edges : List Connection) (a b : Nat) : Prop :=
  ∃ c ∈ edges, (c.source = a ∧ c.target = b) ∨ (c.source = b ∧ c.target = a)

/-- The connections join ids below `n` only and link every id below `n` to
room 0: a spanning tree over `n` rooms is such a list (with `n - 1` edges). -/
def Spanning (n : Nat) (edges : List Connection) : Prop :=
  (∀ c ∈ edges, c.source < n ∧ c.target < n) ∧
  ∀ i, i < n → Relation.ReflTransGen (Linked edges) 0 i

/-- The connected set once the connections `pre` are chosen, in insertion
order: room 0, then the `to` of each connection. -/
def connectedAfter (pre : List Connection) : List Nat :=
  0 :: pre.map Connection.target

/-- The unconnected set once the connections `pre` are chosen, in iteration
order: the ids `1 .. n - 1` that are not connected yet. -/
def unconnectedAfter (n : Nat) (pre : List Connection) : List Nat :=
  (List.range' 1 (n - 1)).filter (fun i => decide (i ∉ connectedAfter pre))

/-- The connection `c` is the shortest edge between the connected and the
unconnected set after `pre`, the first found in iteration order: every pair
visited before it is strictly longer, every pair visited after it is at least
as long. -/
def GreedyAt (rooms : List Room) (pre : List Connection) (c : Connection) : Prop :=
  ∃ before after,
    allPairs (connectedAfter pre) (unconnectedAfter rooms.length pre) =
      before ++ (c.source, c.target) :: after ∧
    (∀ q ∈ before, roomDistance rooms c.source c.target < roomDistance rooms q.1 q.2) ∧
    (∀ q ∈ after, roomDistance rooms c.source c.target ≤ roomDistance rooms q.1 q.2)

/-- Three rooms with their centres recorded, ids 0, 1, 2. -/
def centredRooms : List Room :=
  [{ x := 1, y := 1, width := 4, height := 4, type := some "Chamber", id := 0,
     centerX := some 3, centerY := some 3 },
   { x := 10, y := 2, width := 6, height := 4, type := some "Hall", id := 1,
     centerX := some 13, centerY := some 4 },
   { x := 3, y := 11, width := 4, height := 6, type := some "Treasury", id := 2,
     centerX := some 5, centerY := some 14 }]

/-- The calls of `createCorridor` made by the extra-connection loop in `n`
passes from the generator `rng`: the pairs `(room1, room2)` that pass both
tests, in order.  The loop drops what these calls return. -/
def extraCalls (rooms : List Room) (connections : List Connection) :
    Nat → SeededRandom → List (Room × Room)
  | 0, _ => []
  | n + 1, rng =>
    let i1 := rng.nextInt 0 ((rooms.length : Int) - 1)
    let i2 := i1.2.nextInt 0 ((rooms.length : Int) - 1)
    match jsIndex rooms i1.1, jsIndex rooms i2.1 with
    | some room1, some room2 =>
      if i1.1 ≠ i2.1 then
        if alreadyConnected connections room1 room2 then extraCalls rooms connections n i2.2
        else (room1, room2) :: extraCalls rooms connections n i2.2
      else extraCalls rooms connections n i2.2
    | none, none => extraCalls rooms connections n i2.2
    | _, _ => []

/-- The two tests `placeDoors` makes at a scanned cell before it draws: the
cell is floor, and `isRoomCorridorBoundary` holds. -/
def isDoorCandidate (grid : Grid) (rooms : List Room) (width height : Int) (c : Int × Int) :
    Bool :=
  decide (getCell grid c.1 c.2 = some 1) &&
    isRoomCorridorBoundary c.1 c.2 grid rooms width height

/-- The door candidates of a grid, in scan order. -/
def doorCandidates (grid : Grid) (rooms : List Room) (width height : Int) :
    List (Int × Int) :=
  (doorCells width height).filter (isDoorCandidate grid rooms width height)

/-- The candidates paired with the draws they consume: the first candidate
with the first value of `next()`, the second with the second, and so on. -/
def doorDraws : SeededRandom → List (Int × Int) → List ((Int × Int) × ℚ)
  | _, [] => []
  | rng, c :: cs => (c, rng.next.1) :: doorDraws (afterDraw rng) cs

/-- The cells that become doors: the candidates whose draw is below 0.7. -/
def doorsPlaced (rng : SeededRandom) (candidates : List (Int × Int)) : List (Int × Int) :=
  ((doorDraws rng candidates).filter (fun p => decide (p.2 < 7 / 10))).map Prod.fst

/-- The two endpoints `generateCorridors` passes to `createCorridor` for a
connection: the centres of `rooms[from]` and `rooms[to]` (`none` when one of
the two rooms does not exist). -/
def connectionEnds (rooms : List Room) (conn : Connection) : Option (Point × Point) :=
  match rooms.get? conn.source, rooms.get? conn.target with
  | some room1, some room2 =>
    some (⟨room1.anchor.1, room1.anchor.2⟩, ⟨room2.anchor.1, room2.anchor.2⟩)
  | _, _ => none

/-- The cell is not on the outer ring of the grid: `1 ≤ x ≤ width - 2` and
`1 ≤ y ≤ height - 2`. -/
def Interior (width height x y : Int) : Prop :=
  1 ≤ x ∧ x ≤ width - 2 ∧ 1 ≤ y ∧ y ≤ height - 2

/-- The point and its eight neighbours are not on the outer ring of the grid:
`2 ≤ x ≤ width - 3` and `2 ≤ y ≤ height - 3`. -/
def Deep (width height : Int) (c : Int × Int) : Prop :=
  2 ≤ c.1 ∧ c.1 ≤ width - 3 ∧ 2 ≤ c.2 ∧ c.2 ≤ height - 3

/-! # Properties -/

/-! ## The hash -/

theorem toInt32_modEq (x : Int) : toInt32 x ≡ x [ZMOD 2 ^ 32] := by
  unfold toInt32
  have h : (x + 2 ^ 31) % 2 ^ 32 ≡ x + 2 ^ 31 [ZMOD 2 ^ 32] := Int.mod_modEq _ _
  calc (x + 2 ^ 31) % 2 ^ 32 - 2 ^ 31 ≡ (x + 2 ^ 31) - 2 ^ 31 [ZMOD 2 ^ 32] := h.sub_right _
    _ = x := by ring

theorem toInt32_congr {a b : Int} (h : a ≡ b [ZMOD 2 ^ 32]) : toInt32 a = toInt32 b := by
  unfold toInt32
  have : (a + 2 ^ 31) % 2 ^ 32 = (b + 2 ^ 31) % 2 ^ 32 := (h.add_right _)
  rw [this]

theorem toInt32_range (x : Int) : -(2 ^ 31) ≤ toInt32 x ∧ toInt32 x < 2 ^ 31 := by
  unfold toInt32
  have h1 := Int.emod_nonneg (x + 2 ^ 31) (by norm_num : (2 ^ 32 : Int) ≠ 0)
  have h2 := Int.emod_lt_of_pos (x + 2 ^ 31) (by norm_num : (0 : Int) < 2 ^ 32)
  constructor <;> omega

theorem hashStep_eq (h : Int) (c : Nat) : hashStep h c = toInt32 (h * 31 + (c : Int)) := by
  unfold hashStep
  apply toInt32_congr
  have h1 : toInt32 (toInt32 h * 2 ^ 5) ≡ h * 2 ^ 5 [ZMOD 2 ^ 32] :=
    (toInt32_modEq _).trans ((toInt32_modEq h).mul_right _)
  calc toInt32 (toInt32 h * 2 ^ 5) - h + (c : Int) ≡ h * 2 ^ 5 - h + (c : Int) [ZMOD 2 ^ 32] :=
        (h1.sub_right _).add_right _
    _ = h * 31 + (c : Int) := by ring

theorem weightedCodeSum_append (str : List Nat) (c : Nat) :
    weightedCodeSum (str ++ [c]) = weightedCodeSum str * 31 + (c : Int) := by
  unfold weightedCodeSum
  simp only [List.length_append, List.length_singleton, List.range_succ, List.map_append,
    List.sum_append, List.map_cons, List.map_nil, List.sum_cons, List.sum_nil]
  have h1 : ((List.range str.length).map
      (fun i => (((str ++ [c]).getD i 0 : Nat) : Int) * 31 ^ (str.length + 1 - 1 - i))) =
      (List.range str.length).map
        (fun i => (((str.getD i 0 : Nat) : Int) * 31 ^ (str.length - 1 - i)) * 31) := by
    apply List.map_congr_left
    intro i hi
    have hi : i < str.length := List.mem_range.mp hi
    have e : str.length + 1 - 1 - i = (str.length - 1 - i) + 1 := by omega
    rw [e, pow_succ, List.getD_append _ _ _ _ hi]
    ring
  rw [h1, List.sum_map_mul_right]
  simp [List.getD_append_right]

theorem foldl_hashStep (str : List Nat) :
    str.foldl hashStep 0 = toInt32 (weightedCodeSum str) := by
  induction str using List.reverseRecOn with
  | nil => simp [weightedCodeSum, toInt32]
  | append_singleton str c ih =>
    rw [List.foldl_append, List.foldl_cons, List.foldl_nil, ih, hashStep_eq,
      weightedCodeSum_append]
    exact toInt32_congr (((toInt32_modEq _).mul_right _).add_right _)

/-- C4: `hashString` is the absolute value of the signed 32-bit wraparound of
the weighted code sum `c_0 * 31^(n-1) + ... + c_(n-1)`; one loop step is
`h * 31 + c` wrapped to 32 bits; the result lies in `[0, 2^31]`. -/
theorem hashString_weighted_sum (str : List Nat) :
    hashString str = (toInt32 (weightedCodeSum str)).natAbs ∧
    (∀ (h : Int) (c : Nat), hashStep h c = toInt32 (h * 31 + (c : Int))) ∧
    hashString str ≤ 2 ^ 31 := by
  refine ⟨by rw [hashString, foldl_hashStep], hashStep_eq, ?_⟩
  rw [hashString, foldl_hashStep]
  have := toInt32_range (weightedCodeSum str)
  omega

/-! ## The linear congruential step -/

theorem roundToDouble_of_lt {n : Nat} (h : n < 2 ^ 53) : roundToDouble n = n := by
  unfold roundToDouble
  rw [if_pos h]

theorem next_seed_lt (rng : SeededRandom) : rng.next.2.seed < 233280 := by
  unfold SeededRandom.next
  exact Nat.mod_lt _ (by norm_num)

theorem next_value (rng : SeededRandom) :
    rng.next.1 = (rng.next.2.seed : ℚ) / 233280 := rfl

theorem next_nonneg (rng : SeededRandom) : 0 ≤ rng.next.1 := by
  rw [next_value]
  positivity

theorem next_lt_one (rng : SeededRandom) : rng.next.1 < 1 := by
  rw [next_value, div_lt_one (by norm_num)]
  exact_mod_cast next_seed_lt rng

/-- C5: from a state `s ≤ 2^31`, the intermediate `s * 9301 + 49297` stays
below `2^53`, `next()` sets the state to `(s * 9301 + 49297) mod 233280`, and
returns the new state divided by 233280, a value in `[0, 1)`. -/
theorem next_exact_step (rng : SeededRandom) (h : rng.seed ≤ 2 ^ 31) :
    rng.seed * 9301 + 49297 < 2 ^ 53 ∧
    rng.next.2.seed = (rng.seed * 9301 + 49297) % 233280 ∧
    rng.next.1 = (rng.next.2.seed : ℚ) / 233280 ∧
    0 ≤ rng.next.1 ∧ rng.next.1 < 1 := by
  have h1 : rng.seed * 9301 < 2 ^ 53 := by
    have : (2 : Nat) ^ 31 * 9301 < 2 ^ 53 := by norm_num
    calc rng.seed * 9301 ≤ 2 ^ 31 * 9301 := Nat.mul_le_mul_right _ h
      _ < 2 ^ 53 := this
  have h2 : rng.seed * 9301 + 49297 < 2 ^ 53 := by
    have : (2 : Nat) ^ 31 * 9301 + 49297 < 2 ^ 53 := by norm_num
    have := Nat.mul_le_mul_right 9301 h
    omega
  refine ⟨h2, ?_, next_value rng, next_nonneg rng, next_lt_one rng⟩
  show roundToDouble (49297 + roundToDouble (rng.seed * 9301)) % 233280 = _
  rw [roundToDouble_of_lt h1, Nat.add_comm 49297, roundToDouble_of_lt h2]

/-- Witness for C5 at the state 2^31, the largest value `hashString` returns. -/
theorem next_exact_step_witness :
    (⟨2 ^ 31⟩ : SeededRandom).seed ≤ 2 ^ 31 ∧
    (⟨2 ^ 31⟩ : SeededRandom).next.2.seed = ((2 ^ 31) * 9301 + 49297) % 233280 :=
  ⟨le_refl _, (next_exact_step ⟨2 ^ 31⟩ (le_refl _)).2.1⟩

/-! ## nextInt and choice -/

theorem nextInt_rng (rng : SeededRandom) (min max : Int) :
    (rng.nextInt min max).2 = rng.next.2 := rfl

theorem nextInt_value (rng : SeededRandom) (min max : Int) :
    (rng.nextInt min max).1 = ⌊rng.next.1 * ((max - min + 1 : Int) : ℚ)⌋ + min := rfl

theorem nextInt_ge (rng : SeededRandom) {min max : Int} (h : min ≤ max) :
    min ≤ (rng.nextInt min max).1 := by
  rw [nextInt_value]
  have hn : (0 : ℚ) ≤ ((max - min + 1 : Int) : ℚ) := by exact_mod_cast (by omega : 0 ≤ max - min + 1)
  have : 0 ≤ ⌊rng.next.1 * ((max - min + 1 : Int) : ℚ)⌋ :=
    Int.floor_nonneg.mpr (mul_nonneg (next_nonneg rng) hn)
  omega

theorem nextInt_le (rng : SeededRandom) {min max : Int} (h : min ≤ max) :
    (rng.nextInt min max).1 ≤ max := by
  rw [nextInt_value]
  have hn : (0 : ℚ) < ((max - min + 1 : Int) : ℚ) := by exact_mod_cast (by omega : 0 < max - min + 1)
  have : ⌊rng.next.1 * ((max - min + 1 : Int) : ℚ)⌋ < max - min + 1 := by
    rw [Int.floor_lt]
    calc rng.next.1 * ((max - min + 1 : Int) : ℚ) < 1 * ((max - min + 1 : Int) : ℚ) :=
          mul_lt_mul_of_pos_right (next_lt_one rng) hn
      _ = ((max - min + 1 : Int) : ℚ) := one_mul _
  omega

theorem jsIndex_nil {α : Type} (i : Int) : jsIndex ([] : List α) i = none := by
  unfold jsIndex
  split <;> simp

/-- C7 (as amended): on an empty array `choice` raises nothing; it returns
`undefined` and leaves the generator one draw further. -/
theorem choice_empty_undefined {α : Type} (rng : SeededRandom) :
    rng.choice ([] : List α) = (none, rng.next.2) := by
  show (jsIndex ([] : List α) _, (rng.nextInt 0 _).2) = _
  rw [jsIndex_nil, nextInt_rng]

/-- C7, the claim as stated fails: from the state 0, `choice([])` returns the
value `undefined` (and the state 49297); no error is raised. -/
theorem choice_empty_returns_undefined :
    (⟨0⟩ : SeededRandom).choice ([] : List String) = (none, ⟨49297⟩) := by
  show (jsIndex ([] : List String) _, ((⟨0⟩ : SeededRandom).nextInt 0 _).2) = _
  rw [jsIndex_nil, nextInt_rng]
  rfl

/-! ## shuffle -/

theorem jsIndex_eq_some {α : Type} {array : List α} {i : Int} {a : α}
    (h : jsIndex array i = some a) :
    0 ≤ i ∧ ∃ hlt : i.toNat < array.length, array[i.toNat] = a := by
  unfold jsIndex at h
  split at h
  · simp at h
  · refine ⟨by omega, ?_⟩
    rw [List.get?_eq_some] at h
    obtain ⟨hlt, e⟩ := h
    exact ⟨hlt, by simpa using e⟩

theorem set_set_perm {α : Type} (a : List α) (i j : Nat) (hi : i < a.length)
    (hj : j < a.length) : ((a.set i a[j]).set j a[i]).Perm a := by
  classical
  rw [List.perm_iff_count]
  intro b
  have hj1 : j < (a.set i a[j]).length := by simpa using hj
  rw [List.count_set _ _ _ _ hj1, List.count_set _ _ _ _ hi]
  have e : (a.set i a[j])[j] = a[j] := by
    rw [List.getElem_set]
    split <;> rfl
  rw [e]
  have hpos : (a[i] == b) = true → 0 < List.count b a := by
    intro hb
    have : a[i] = b := by simpa using hb
    exact List.count_pos_iff.mpr (this ▸ List.getElem_mem hi)
  by_cases h1 : (a[i] == b) = true
  · have hp := hpos h1
    by_cases h2 : (a[j] == b) = true
    · rw [if_pos h1, if_pos h2]; omega
    · rw [if_pos h1, if_neg h2]; omega
  · by_cases h2 : (a[j] == b) = true
    · rw [if_neg h1, if_pos h2]; omega
    · rw [if_neg h1, if_neg h2]; omega

theorem swapAt_perm {α : Type} (a : List α) (i : Nat) (j : Int) : (swapAt a i j).Perm a := by
  unfold swapAt
  split
  · rename_i aj ai hj hi
    obtain ⟨_, hjlt, ej⟩ := jsIndex_eq_some hj
    rw [List.get?_eq_some] at hi
    obtain ⟨hilt, ei⟩ := hi
    have ei : a[i] = ai := by simpa using ei
    subst ej ei
    exact set_set_perm a i j.toNat hilt hjlt
  · exact List.Perm.refl _

theorem shuffleLoop_perm {α : Type} (i : Nat) (shuffled : List α) (rng : SeededRandom) :
    (shuffleLoop i shuffled rng).1.Perm shuffled := by
  induction i generalizing shuffled rng with
  | zero => exact List.Perm.refl _
  | succ i ih =>
    show (shuffleLoop i (swapAt shuffled (i + 1) _) _).1.Perm shuffled
    exact (ih _ _).trans (swapAt_perm _ _ _)

/-- C8: `shuffle` returns a permutation of its input (same multiset of
elements, same length) and leaves the caller's array as it was. -/
theorem shuffle_is_permutation {α : Type} (rng : SeededRandom) (array : List α) :
    (rng.shuffle array).shuffled.Perm array ∧
    ((rng.shuffle array).shuffled : Multiset α) = (array : Multiset α) ∧
    (rng.shuffle array).shuffled.length = array.length ∧
    (rng.shuffle array).array = array := by
  have h : (rng.shuffle array).shuffled.Perm array := shuffleLoop_perm _ _ _
  exact ⟨h, Multiset.coe_eq_coe.mpr h, h.length_eq, rfl⟩

/-! ## weightedChoice -/

theorem weightedLoop_least {α : Type} (weights : List ℚ) (x : ℚ) :
    ∀ (rest : List α) (i : Nat), i + rest.length ≤ weights.length →
      (∀ k, k < i → ¬ x ≤ (weights.take (k + 1)).sum) →
      (∃ j, i ≤ j ∧ j < i + rest.length ∧ x ≤ (weights.take (j + 1)).sum) →
      ∃ j, ∃ h : j < rest.length,
        x ≤ (weights.take (i + j + 1)).sum ∧
        (∀ k, k < i + j → ¬ x ≤ (weights.take (k + 1)).sum) ∧
        weightedLoop weights rest i (some (x - (weights.take i).sum)) = some rest[j] := by
  intro rest
  induction rest with
  | nil =>
    intro i _ _ hex
    obtain ⟨j, h1, h2, _⟩ := hex
    simp at h2
    omega
  | cons item rest ih =>
    intro i hlen hprev hex
    have hi : i < weights.length := by simp at hlen; omega
    have hsum : (weights.take (i + 1)).sum = (weights.take i).sum + weights[i] :=
      List.sum_take_succ weights i hi
    have hget : weights.get? i = some weights[i] := by simp [hi]
    unfold weightedLoop
    simp only [hget, subWeight, leZero]
    by_cases hle : x ≤ (weights.take (i + 1)).sum
    · refine ⟨0, by simp, by simpa using hle, by simpa using hprev, ?_⟩
      have : x - (weights.take i).sum - weights[i] ≤ 0 := by rw [hsum] at hle; linarith
      simp [this]
    · have hnot : ¬ x - (weights.take i).sum - weights[i] ≤ 0 := by
        rw [hsum] at hle; intro h; apply hle; linarith
      have hprev2 : ∀ k, k < i + 1 → ¬ x ≤ (weights.take (k + 1)).sum := by
        intro k hk
        rcases Nat.lt_succ_iff_lt_or_eq.mp hk with h | h
        · exact hprev k h
        · subst h; exact hle
      have hex2 : ∃ j, i + 1 ≤ j ∧ j < i + 1 + rest.length ∧
          x ≤ (weights.take (j + 1)).sum := by
        obtain ⟨j, h1, h2, h3⟩ := hex
        refine ⟨j, ?_, by simp at h2; omega, h3⟩
        rcases Nat.eq_or_lt_of_le h1 with h | h
        · subst h; exact absurd h3 hle
        · exact h
      obtain ⟨j, hj, h1, h2, h3⟩ := ih (i + 1) (by simp at hlen; omega) hprev2 hex2
      refine ⟨j + 1, by simpa using hj, ?_, ?_, ?_⟩
      · rw [show i + (j + 1) + 1 = i + 1 + j + 1 by omega]; exact h1
      · intro k hk; exact h2 k (by omega)
      · have e : x - (weights.take i).sum - weights[i] = x - (weights.take (i + 1)).sum := by
          rw [hsum]; ring
        rw [if_neg (by simpa using hnot), e, h3]
        simp

theorem foldl_add_eq_sum (weights : List ℚ) :
    weights.foldl (fun sum weight => sum + weight) 0 = weights.sum := by
  rw [List.sum_eq_foldl]

/-- Invariant rule for the loop of `generateRooms`: a property of the accepted
rooms that survives the push of a non-overlapping candidate holds at exit. -/
theorem generateRoomsLoop_invariant (P : List Room → Prop) (width height roomCount : Int)
    (step : ∀ rooms newRoom, P rooms → Candidate width height rooms newRoom →
      (rooms.length : Int) < roomCount →
      rooms.any (fun room => overlapsWith newRoom room) = false → P (rooms ++ [newRoom])) :
    ∀ (fuel : Nat) (rooms : List Room) (rng : SeededRandom), P rooms →
      P (generateRoomsLoop width height roomCount fuel rooms rng).1 := by
  intro fuel
  induction fuel with
  | zero => intro rooms rng h; exact h
  | succ fuel ih =>
    intro rooms rng h
    unfold generateRoomsLoop
    by_cases hc : (rooms.length : Int) < roomCount
    · rw [if_pos hc]
      simp only []
      split
      · exact ih _ _ h
      · rename_i hov
        apply ih
        apply step _ _ h _ hc (by simpa using hov)
        exact {
          id_eq := rfl
          centerX_eq := rfl
          centerY_eq := rfl
          width_ge := nextInt_ge _ (by decide)
          width_le := nextInt_le _ (by decide)
          height_ge := nextInt_ge _ (by decide)
          height_le := nextInt_le _ (by decide)
          x_range := fun hx => ⟨nextInt_ge _ hx, nextInt_le _ hx⟩
          y_range := fun hy => ⟨nextInt_ge _ hy, nextInt_le _ hy⟩ }
    · rw [if_neg hc]; exact h

theorem generateRooms_invariant (P : List Room → Prop) (width height roomCount : Int)
    (base : P [])
    (step : ∀ rooms newRoom, P rooms → Candidate width height rooms newRoom →
      (rooms.length : Int) < roomCount →
      rooms.any (fun room => overlapsWith newRoom room) = false → P (rooms ++ [newRoom]))
    (rng : SeededRandom) : P (generateRooms rng width height roomCount).1 :=
  generateRoomsLoop_invariant P width height roomCount step _ _ _ base

theorem generateRooms_ids (rng : SeededRandom) (width height roomCount : Int) :
    (generateRooms rng width height roomCount).1.map Room.id =
      List.range (generateRooms rng width height roomCount).1.length := by
  apply generateRooms_invariant (fun rooms => rooms.map Room.id = List.range rooms.length)
  · rfl
  · intro rooms newRoom h c _ _
    simp only [List.map_append, List.map_cons, List.map_nil, List.length_append,
      List.length_singleton, List.range_succ, h, c.id_eq]

/-- C10: in the list returned by `generateRooms` the room at index `i` has id
`i`: the ids, read in order, are `0, 1, ..., length - 1`. -/
theorem generateRooms_id_eq_index (rng : SeededRandom) (width height roomCount : Int) :
    (generateRooms rng width height roomCount).1.map Room.id =
      List.range (generateRooms rng width height roomCount).1.length :=
  generateRooms_ids rng width height roomCount

theorem separated_of_not_overlapsWith {newRoom room : Room}
    (h : overlapsWith newRoom room = false) : Separated room newRoom := by
  unfold overlapsWith at h
  unfold Separated
  simp only [Bool.and_eq_false_iff, decide_eq_false_iff_not, not_lt, gt_iff_lt] at h
  omega

theorem not_covers_of_separated {a b : Room} (h : Separated a b) (x y : Int) :
    ¬ (a.Covers x y ∧ b.Covers x y) := by
  unfold Separated at h
  unfold Room.Covers
  omega

/-- C2: the rooms returned by `generateRooms` are pairwise separated by the
2-cell padding on some axis (for every pair of positions `i < j`, and
`Separated` is symmetric), so no cell belongs to two of them. -/
theorem generateRooms_pairwise_separated (rng : SeededRandom) (width height roomCount : Int) :
    (generateRooms rng width height roomCount).1.Pairwise Separated ∧
    (∀ a b, Separated a b ↔ Separated b a) ∧
    (generateRooms rng width height roomCount).1.Pairwise
      (fun a b => ∀ x y, ¬ (a.Covers x y ∧ b.Covers x y)) := by
  have h : (generateRooms rng width height roomCount).1.Pairwise Separated := by
    apply generateRooms_invariant (fun rooms => rooms.Pairwise Separated)
    · exact List.Pairwise.nil
    · intro rooms newRoom h _ _ hov
      rw [List.pairwise_append]
      refine ⟨h, List.pairwise_singleton _ _, ?_⟩
      intro a ha b hb
      rw [List.mem_singleton] at hb
      subst hb
      rw [List.any_eq_false] at hov
      exact separated_of_not_overlapsWith (by simpa using hov a ha)
  refine ⟨h, ?_, h.imp (fun hab => not_covers_of_separated hab)⟩
  intro a b
  unfold Separated
  omega

/-! ## Determinism -/

theorem jsIndex_of_nonneg {α : Type} (l : List α) {i : Int} (h : 0 ≤ i) :
    jsIndex l i = l[i.toNat]? := by
  unfold jsIndex
  rw [if_neg (by omega)]
  simp

theorem jsIndex_of_neg {α : Type} (l : List α) {i : Int} (h : i < 0) :
    jsIndex l i = none := by
  unfold jsIndex
  rw [if_pos h]

theorem jsIndex_set {α : Type} (l : List α) (i j : Int) (a : α) (hi : 0 ≤ i) :
    jsIndex (l.set i.toNat a) j =
      if j = i ∧ i.toNat < l.length then some a else jsIndex l j := by
  by_cases hj : j < 0
  · rw [jsIndex_of_neg _ hj, jsIndex_of_neg _ hj, if_neg (by omega)]
  · have hj : 0 ≤ j := by omega
    rw [jsIndex_of_nonneg _ hj, jsIndex_of_nonneg _ hj, List.getElem?_set]
    by_cases e : j = i
    · subst e
      by_cases hl : j.toNat < l.length
      · simp [hl]
      · simp [hl]
        omega
    · have : i.toNat ≠ j.toNat := by omega
      simp [this, e]

theorem getCell_setCell (g : Grid) (x y : Int) (v : Nat) (x2 y2 : Int) :
    getCell (setCell g x y v) x2 y2 =
      if x2 = x ∧ y2 = y ∧ (getCell g x y).isSome then some v else getCell g x2 y2 := by
  unfold setCell
  cases hrow : jsIndex g y with
  | none =>
    have : getCell g x y = none := by simp [getCell, hrow]
    simp [this]
  | some row =>
    have hy : 0 ≤ y := by
      by_contra hneg
      rw [jsIndex_of_neg _ (by omega)] at hrow
      exact absurd hrow (by simp)
    have hylt : y.toNat < g.length := by
      rw [jsIndex_of_nonneg _ hy] at hrow
      exact (List.getElem?_eq_some.mp hrow).1
    simp only []
    by_cases hx : 0 ≤ x ∧ x < row.length
    · rw [if_pos hx]
      have hcell : (getCell g x y).isSome = true := by
        simp only [getCell, hrow, Option.some_bind]
        rw [jsIndex_of_nonneg _ hx.1]
        have : x.toNat < row.length := by omega
        simp [this]
      simp only [hcell, and_true]
      unfold getCell
      rw [jsIndex_set _ _ _ _ hy]
      by_cases e : y2 = y
      · subst e
        simp only [true_and, hylt, if_true, Option.some_bind, and_true, hrow]
        rw [jsIndex_set _ _ _ _ hx.1]
        have : x.toNat < row.length := by omega
        simp [this]
      · simp [e]
    · rw [if_neg hx]
      have hcell : getCell g x y = none := by
        simp only [getCell, hrow, Option.some_bind]
        by_cases hx0 : x < 0
        · exact jsIndex_of_neg _ hx0
        · rw [jsIndex_of_nonneg _ (by omega)]
          simp
          omega
      simp [hcell]

theorem getCell_replicate (width height x y : Int) (v : Nat)
    (h : inBounds width height x y = true) :
    getCell (List.replicate height.toNat (List.replicate width.toNat v)) x y = some v := by
  simp only [inBounds, Bool.and_eq_true, decide_eq_true_eq] at h
  obtain ⟨⟨⟨hx0, hx1⟩, hy0⟩, hy1⟩ := h
  unfold getCell
  rw [jsIndex_of_nonneg _ hy0]
  have hy : y.toNat < height.toNat := by omega
  have hx : x.toNat < width.toNat := by omega
  simp [hy, jsIndex_of_nonneg _ hx0, hx]

/-! ## Keeping cells open -/

theorem KeepsOpen.same (g : Grid) : KeepsOpen g g := fun _ h => h

theorem KeepsOpen.andThen {g1 g2 g3 : Grid} (h1 : KeepsOpen g1 g2) (h2 : KeepsOpen g2 g3) :
    KeepsOpen g1 g3 := fun c h => h2 c (h1 c h)

theorem walkable_setCell_self {g : Grid} {x y : Int} {v : Nat}
    (hc : (getCell g x y).isSome = true) (hv : v = 1 ∨ v = 2 ∨ v = 3) :
    Walkable (setCell g x y v) (x, y) := by
  unfold Walkable
  simp only [getCell_setCell, hc, and_self, if_true]
  rcases hv with h | h | h <;> simp [h]

theorem keepsOpen_setCell (g : Grid) (x y : Int) {v : Nat} (hv : v = 1 ∨ v = 2 ∨ v = 3) :
    KeepsOpen g (setCell g x y v) := by
  intro c hc
  by_cases e : c.1 = x ∧ c.2 = y ∧ (getCell g x y).isSome = true
  · obtain ⟨e1, e2, e3⟩ := e
    have : c = (x, y) := Prod.ext e1 e2
    rw [this]
    exact walkable_setCell_self e3 hv
  · unfold Walkable at hc ⊢
    rw [getCell_setCell, if_neg e]
    exact hc

theorem gridOK_setCell {width height : Int} {g : Grid} (h : GridOK width height g)
    (x y : Int) {v : Nat} (hv : v ≤ 3) : GridOK width height (setCell g x y v) := by
  intro x2 y2 hb
  rw [getCell_setCell]
  split
  · exact ⟨v, rfl, hv⟩
  · exact h x2 y2 hb

theorem gridOK_replicate (width height : Int) :
    GridOK width height (List.replicate height.toNat (List.replicate width.toNat 0)) := by
  intro x y hb
  exact ⟨0, getCell_replicate width height x y 0 hb, by omega⟩

theorem GridOK.isSome {width height : Int} {g : Grid} (h : GridOK width height g) {x y : Int}
    (hb : inBounds width height x y = true) : (getCell g x y).isSome = true := by
  obtain ⟨v, hv, _⟩ := h x y hb
  simp [hv]

/-! ## Paths -/

theorem Adjacent.flip {a b : Int × Int} (h : Adjacent a b) : Adjacent b a := by
  unfold Adjacent at h ⊢
  rcases h with ⟨h1, h2⟩ | ⟨h1, h2⟩
  · exact Or.inl ⟨h1.symm, by rw [abs_sub_comm]; exact h2⟩
  · exact Or.inr ⟨h1.symm, by rw [abs_sub_comm]; exact h2⟩

theorem Step.back {g : Grid} {a b : Int × Int} (h : Step g a b) : Step g b a :=
  ⟨h.2.1, h.1, h.2.2.flip⟩

theorem Step.persist {g g2 : Grid} (hk : KeepsOpen g g2) {a b : Int × Int} (h : Step g a b) :
    Step g2 a b :=
  ⟨hk a h.1, hk b h.2.1, h.2.2⟩

theorem Reachable.self {g : Grid} {a : Int × Int} (h : Walkable g a) : Reachable g a a :=
  ⟨h, h, Relation.ReflTransGen.refl⟩

theorem Reachable.reverse {g : Grid} {a b : Int × Int} (h : Reachable g a b) : Reachable g b a :=
  ⟨h.2.1, h.1, Relation.ReflTransGen.symmetric (fun _ _ hs => Step.back hs) h.2.2⟩

theorem Reachable.join {g : Grid} {a b c : Int × Int} (h1 : Reachable g a b)
    (h2 : Reachable g b c) : Reachable g a c :=
  ⟨h1.1, h2.2.1, h1.2.2.trans h2.2.2⟩

theorem Reachable.lift {g g2 : Grid} (hk : KeepsOpen g g2) {a b : Int × Int}
    (h : Reachable g a b) : Reachable g2 a b :=
  ⟨hk a h.1, hk b h.2.1, Relation.ReflTransGen.mono (fun _ _ hs => Step.persist hk hs) h.2.2⟩

theorem row_path (g : Grid) (y : Int) :
    ∀ (n : Nat) (a : Int), (∀ x, a ≤ x → x ≤ a + n → Walkable g (x, y)) →
      Relation.ReflTransGen (Step g) (a, y) (a + n, y) := by
  intro n
  induction n with
  | zero => intro a _; simp only [Nat.cast_zero, add_zero]; exact Relation.ReflTransGen.refl
  | succ n ih =>
    intro a h
    have h1 := ih a (fun x hx1 hx2 => h x hx1 (by push_cast; omega))
    refine Relation.ReflTransGen.tail h1 ⟨h _ (by omega) (by push_cast; omega),
      h _ (by push_cast; omega) (by push_cast; omega), Or.inr ⟨rfl, ?_⟩⟩
    show |a + (n : Int) - (a + ((n + 1 : Nat) : Int))| = 1
    rw [show a + (n : Int) - (a + ((n + 1 : Nat) : Int)) = -1 by push_cast; ring]
    rfl

theorem column_path (g : Grid) (x : Int) :
    ∀ (n : Nat) (a : Int), (∀ y, a ≤ y → y ≤ a + n → Walkable g (x, y)) →
      Relation.ReflTransGen (Step g) (x, a) (x, a + n) := by
  intro n
  induction n with
  | zero => intro a _; simp only [Nat.cast_zero, add_zero]; exact Relation.ReflTransGen.refl
  | succ n ih =>
    intro a h
    have h1 := ih a (fun y hy1 hy2 => h y hy1 (by push_cast; omega))
    refine Relation.ReflTransGen.tail h1 ⟨h _ (by omega) (by push_cast; omega),
      h _ (by push_cast; omega) (by push_cast; omega), Or.inl ⟨rfl, ?_⟩⟩
    show |a + (n : Int) - (a + ((n + 1 : Nat) : Int))| = 1
    rw [show a + (n : Int) - (a + ((n + 1 : Nat) : Int)) = -1 by push_cast; ring]
    rfl

theorem reachable_row {g : Grid} {y a b : Int}
    (h : ∀ x, min a b ≤ x → x ≤ max a b → Walkable g (x, y)) : Reachable g (a, y) (b, y) := by
  rcases le_total a b with hab | hab
  · have hp := row_path g y (b - a).toNat a (fun x hx1 hx2 =>
      h x (by rw [min_eq_left hab]; exact hx1) (by rw [max_eq_right hab]; omega))
    rw [show a + ((b - a).toNat : Int) = b by omega] at hp
    exact ⟨h a (by rw [min_eq_left hab]) (by rw [max_eq_right hab]; exact hab),
      h b (by rw [min_eq_left hab]; exact hab) (by rw [max_eq_right hab]), hp⟩
  · have hp := row_path g y (a - b).toNat b (fun x hx1 hx2 =>
      h x (by rw [min_eq_right hab]; exact hx1) (by rw [max_eq_left hab]; omega))
    rw [show b + ((a - b).toNat : Int) = a by omega] at hp
    exact Reachable.reverse ⟨h b (by rw [min_eq_right hab]) (by rw [max_eq_left hab]; exact hab),
      h a (by rw [min_eq_right hab]; exact hab) (by rw [max_eq_left hab]), hp⟩

theorem reachable_column {g : Grid} {x a b : Int}
    (h : ∀ y, min a b ≤ y → y ≤ max a b → Walkable g (x, y)) : Reachable g (x, a) (x, b) := by
  rcases le_total a b with hab | hab
  · have hp := column_path g x (b - a).toNat a (fun y hy1 hy2 =>
      h y (by rw [min_eq_left hab]; exact hy1) (by rw [max_eq_right hab]; omega))
    rw [show a + ((b - a).toNat : Int) = b by omega] at hp
    exact ⟨h a (by rw [min_eq_left hab]) (by rw [max_eq_right hab]; exact hab),
      h b (by rw [min_eq_left hab]; exact hab) (by rw [max_eq_right hab]), hp⟩
  · have hp := column_path g x (a - b).toNat b (fun y hy1 hy2 =>
      h y (by rw [min_eq_right hab]; exact hy1) (by rw [max_eq_left hab]; omega))
    rw [show b + ((a - b).toNat : Int) = a by omega] at hp
    exact Reachable.reverse ⟨h b (by rw [min_eq_right hab]) (by rw [max_eq_left hab]; exact hab),
      h a (by rw [min_eq_right hab]; exact hab) (by rw [max_eq_left hab]), hp⟩

/-! ## Carving -/

theorem mem_loopRange {start stop v : Int} : v ∈ loopRange start stop ↔ start ≤ v ∧ v < stop := by
  unfold loopRange
  simp only [List.mem_map, List.mem_range]
  constructor
  · rintro ⟨k, hk, rfl⟩
    omega
  · rintro ⟨h1, h2⟩
    exact ⟨(v - start).toNat, by omega, by omega⟩

theorem mem_horizontalCells {x1 x2 y corridorWidth x : Int} (hw : 1 ≤ corridorWidth)
    (h1 : min x1 x2 ≤ x) (h2 : x ≤ max x1 x2) :
    (x, y) ∈ horizontalCells x1 x2 y corridorWidth := by
  unfold horizontalCells
  simp only [List.mem_flatMap, List.mem_map, mem_loopRange]
  exact ⟨x, ⟨h1, by omega⟩, corridorWidth / 2, ⟨by omega, by omega⟩, by simp⟩

theorem mem_verticalCells {y1 y2 x corridorWidth y : Int} (hw : 1 ≤ corridorWidth)
    (h1 : min y1 y2 ≤ y) (h2 : y ≤ max y1 y2) :
    (x, y) ∈ verticalCells y1 y2 x corridorWidth := by
  unfold verticalCells
  simp only [List.mem_flatMap, List.mem_map, mem_loopRange]
  exact ⟨y, ⟨h1, by omega⟩, corridorWidth / 2, ⟨by omega, by omega⟩, by simp⟩

theorem carveCell_spec (width height : Int) (s : Grid × List Point) (c : Int × Int)
    (hok : GridOK width height s.1) :
    GridOK width height (carveCell width height s c).1 ∧
    KeepsOpen s.1 (carveCell width height s c).1 ∧
    (inBounds width height c.1 c.2 = true → Walkable (carveCell width height s c).1 c) := by
  unfold carveCell
  by_cases hb : inBounds width height c.1 c.2 = true
  · rw [if_pos hb]
    by_cases h0 : getCell s.1 c.1 c.2 = some 0
    · rw [if_pos h0]
      exact ⟨gridOK_setCell hok _ _ (by omega), keepsOpen_setCell _ _ _ (Or.inl rfl),
        fun _ => walkable_setCell_self (hok.isSome hb) (Or.inl rfl)⟩
    · rw [if_neg h0]
      refine ⟨hok, KeepsOpen.same _, fun _ => ?_⟩
      obtain ⟨v, hv, hle⟩ := hok c.1 c.2 hb
      unfold Walkable
      rw [hv] at h0 ⊢
      have : v ≠ 0 := fun e => h0 (by rw [e])
      have : v = 1 ∨ v = 2 ∨ v = 3 := by omega
      rcases this with e | e | e <;> simp [e]
  · rw [if_neg hb]
    exact ⟨hok, KeepsOpen.same _, fun h => absurd h hb⟩

theorem carve_spec (width height : Int) (cells : List (Int × Int)) :
    ∀ s : Grid × List Point, GridOK width height s.1 →
      GridOK width height (cells.foldl (carveCell width height) s).1 ∧
      KeepsOpen s.1 (cells.foldl (carveCell width height) s).1 ∧
      (∀ c ∈ cells, inBounds width height c.1 c.2 = true →
        Walkable (cells.foldl (carveCell width height) s).1 c) := by
  induction cells with
  | nil => intro s h; exact ⟨h, KeepsOpen.same _, by simp⟩
  | cons c cells ih =>
    intro s h
    obtain ⟨a1, a2, a3⟩ := carveCell_spec width height s c h
    obtain ⟨b1, b2, b3⟩ := ih (carveCell width height s c) a1
    refine ⟨b1, a2.andThen b2, ?_⟩
    intro d hd hb
    rcases List.mem_cons.mp hd with e | e
    · subst e; exact b2 _ (a3 hb)
    · exact b3 d e hb

theorem inBounds_iff {width height x y : Int} :
    inBounds width height x y = true ↔ 0 ≤ x ∧ x < width ∧ 0 ≤ y ∧ y < height := by
  simp only [inBounds, Bool.and_eq_true, decide_eq_true_eq, ge_iff_le]
  tauto

theorem createCorridor_grid (x1 y1 x2 y2 : Int) (grid : Grid) (width height corridorWidth : Int) :
    (createCorridor x1 y1 x2 y2 grid width height corridorWidth).2 =
      ((corridorCells x1 y1 x2 y2 corridorWidth).foldl (carveCell width height) (grid, [])).1 :=
  rfl

/-- After `createCorridor` between two cells inside the bounds, with a
corridor width of at least 1, the second cell is reached from the first. -/
theorem createCorridor_reachable {x1 y1 x2 y2 : Int} {grid : Grid}
    {width height corridorWidth : Int} (hok : GridOK width height grid)
    (h1 : inBounds width height x1 y1 = true) (h2 : inBounds width height x2 y2 = true)
    (hw : 1 ≤ corridorWidth) :
    GridOK width height (createCorridor x1 y1 x2 y2 grid width height corridorWidth).2 ∧
    KeepsOpen grid (createCorridor x1 y1 x2 y2 grid width height corridorWidth).2 ∧
    Reachable (createCorridor x1 y1 x2 y2 grid width height corridorWidth).2 (x1, y1) (x2, y2) := by
  rw [createCorridor_grid]
  obtain ⟨a1, a2, a3⟩ := carve_spec width height (corridorCells x1 y1 x2 y2 corridorWidth)
    (grid, []) hok
  refine ⟨a1, a2, ?_⟩
  rw [inBounds_iff] at h1 h2
  unfold corridorCells at a3 ⊢
  by_cases hf : horizontalFirst x1 y1 x2 y2 = true
  · rw [if_pos hf] at a3 ⊢
    have r1 : Reachable _ (x1, y1) (x2, y1) := reachable_row (fun x hx1 hx2 =>
      a3 (x, y1) (List.mem_append_left _ (mem_horizontalCells hw hx1 hx2))
        (inBounds_iff.mpr ⟨by omega, by omega, h1.2.2.1, h1.2.2.2⟩))
    have r2 : Reachable _ (x2, y1) (x2, y2) := reachable_column (fun y hy1 hy2 =>
      a3 (x2, y) (List.mem_append_right _ (mem_verticalCells hw hy1 hy2))
        (inBounds_iff.mpr ⟨h2.1, h2.2.1, by omega, by omega⟩))
    exact r1.join r2
  · rw [if_neg hf] at a3 ⊢
    have r1 : Reachable _ (x1, y1) (x1, y2) := reachable_column (fun y hy1 hy2 =>
      a3 (x1, y) (List.mem_append_left _ (mem_verticalCells hw hy1 hy2))
        (inBounds_iff.mpr ⟨h1.1, h1.2.1, by omega, by omega⟩))
    have r2 : Reachable _ (x1, y2) (x2, y2) := reachable_row (fun x hx1 hx2 =>
      a3 (x, y2) (List.mem_append_right _ (mem_horizontalCells hw hx1 hx2))
        (inBounds_iff.mpr ⟨by omega, by omega, h2.2.2.1, h2.2.2.2⟩))
    exact r1.join r2

/-! ## Stamping the rooms -/

theorem stampCells_spec (width height : Int) (cells : List (Int × Int)) :
    ∀ g : Grid, GridOK width height g →
      GridOK width height (cells.foldl (stampCell width height) g) ∧
      KeepsOpen g (cells.foldl (stampCell width height) g) := by
  induction cells with
  | nil => intro g h; exact ⟨h, KeepsOpen.same _⟩
  | cons c cells ih =>
    intro g h
    have h1 : GridOK width height (stampCell width height g c) ∧
        KeepsOpen g (stampCell width height g c) := by
      unfold stampCell
      split
      · exact ⟨gridOK_setCell h _ _ (by omega), keepsOpen_setCell _ _ _ (Or.inl rfl)⟩
      · exact ⟨h, KeepsOpen.same _⟩
    obtain ⟨h2, h3⟩ := ih _ h1.1
    exact ⟨h2, h1.2.andThen h3⟩

theorem stampRoom_spec {width height : Int} {g : Grid} (room : Room)
    (hok : GridOK width height g)
    (hb : inBounds width height room.middle.1 room.middle.2 = true) :
    (stampRoom width height g room).2 = room.withCenter ∧
    GridOK width height (stampRoom width height g room).1 ∧
    KeepsOpen g (stampRoom width height g room).1 ∧
    Walkable (stampRoom width height g room).1 room.middle := by
  obtain ⟨h1, h2⟩ := stampCells_spec width height (roomCells room) g hok
  have hb2 : inBounds width height (room.x + room.width / 2) (room.y + room.height / 2) = true := hb
  unfold stampRoom
  simp only [hb2, if_true]
  exact ⟨rfl, gridOK_setCell h1 _ _ (by omega),
    h2.andThen (keepsOpen_setCell _ _ _ (Or.inr (Or.inr rfl))),
    walkable_setCell_self (h1.isSome hb2) (Or.inr (Or.inr rfl))⟩

theorem stampRooms_spec (width height : Int) (rooms : List Room) :
    ∀ g : Grid, GridOK width height g →
      (∀ room ∈ rooms, inBounds width height room.middle.1 room.middle.2 = true) →
      (stampRooms width height g rooms).2 = rooms.map Room.withCenter ∧
      GridOK width height (stampRooms width height g rooms).1 ∧
      KeepsOpen g (stampRooms width height g rooms).1 ∧
      (∀ room ∈ rooms, Walkable (stampRooms width height g rooms).1 room.middle) := by
  induction rooms with
  | nil => intro g h _; exact ⟨rfl, h, KeepsOpen.same _, by simp⟩
  | cons room rooms ih =>
    intro g h hb
    obtain ⟨a1, a2, a3, a4⟩ := stampRoom_spec room h (hb room (List.mem_cons_self _ _))
    obtain ⟨b1, b2, b3, b4⟩ := ih _ a2 (fun r hr => hb r (List.mem_cons_of_mem _ hr))
    unfold stampRooms
    simp only [List.map_cons]
    refine ⟨by rw [a1, b1], b2, a3.andThen b3, ?_⟩
    intro r hr
    rcases List.mem_cons.mp hr with e | e
    · subst e; exact b3 _ a4
    · exact b4 r e

/-! ## Rooms fit the grid -/

theorem generateRooms_fits (rng : SeededRandom) {width height : Int} (roomCount : Int)
    (hw : 10 ≤ width) (hh : 10 ≤ height) :
    ∀ room ∈ (generateRooms rng width height roomCount).1,
      room.Fits width height ∧ room.centerX = none ∧ room.centerY = none := by
  apply generateRooms_invariant
    (fun rooms => ∀ room ∈ rooms, room.Fits width height ∧ room.centerX = none ∧
      room.centerY = none)
  · simp
  · intro rooms newRoom h c _ _ room hr
    rcases List.mem_append.mp hr with e | e
    · exact h room e
    · rw [List.mem_singleton] at e
      subst e
      have hx := c.x_range (by have := c.width_le; omega)
      have hy := c.y_range (by have := c.height_le; omega)
      exact ⟨⟨c.width_ge, c.width_le, c.height_ge, c.height_le, hx.1, by omega, hy.1, by omega⟩,
        c.centerX_eq, c.centerY_eq⟩

theorem Room.Fits.middle_inBounds {width height : Int} {room : Room}
    (h : room.Fits width height) :
    inBounds width height room.middle.1 room.middle.2 = true := by
  obtain ⟨h1, h2, h3, h4, h5, h6, h7, h8⟩ := h
  rw [inBounds_iff]
  unfold Room.middle
  simp only []
  omega

theorem Room.Fits.anchor_withCenter {width height : Int} {room : Room}
    (h : room.Fits width height) : room.withCenter.anchor = room.middle := by
  obtain ⟨h1, h2, h3, h4, h5, h6, h7, h8⟩ := h
  unfold Room.anchor Room.withCenter Room.middle orElse
  simp only []
  rw [if_neg (by omega), if_neg (by omega)]

/-! ## The spanning tree -/

theorem jsIndex_some_of_lt {α : Type} (l : List α) {i : Int} (h0 : 0 ≤ i)
    (h1 : i < l.length) : ∃ a, a ∈ l ∧ jsIndex l i = some a := by
  have hlt : i.toNat < l.length := by omega
  refine ⟨l[i.toNat], List.getElem_mem hlt, ?_⟩
  rw [jsIndex_of_nonneg _ h0]
  exact List.getElem?_eq_getElem hlt

theorem mem_setAdd {s : List Nat} {x y : Nat} : y ∈ setAdd s x ↔ y ∈ s ∨ y = x := by
  unfold setAdd
  split
  · constructor
    · exact Or.inl
    · rintro (h | h)
      · exact h
      · subst h; assumption
  · simp

theorem mem_foldl_setAdd (values : List Nat) :
    ∀ (s : List Nat) (y : Nat), y ∈ values.foldl setAdd s ↔ y ∈ s ∨ y ∈ values := by
  induction values with
  | nil => simp
  | cons v values ih =>
    intro s y
    rw [List.foldl_cons, ih, mem_setAdd, List.mem_cons]
    tauto

theorem mem_setOfList {values : List Nat} {y : Nat} : y ∈ setOfList values ↔ y ∈ values := by
  unfold setOfList
  rw [mem_foldl_setAdd]
  simp

theorem mem_allPairs {connected unconnected : List Nat} {p : Nat × Nat} :
    p ∈ allPairs connected unconnected ↔ p.1 ∈ connected ∧ p.2 ∈ unconnected := by
  unfold allPairs
  simp only [List.mem_flatMap, List.mem_map]
  constructor
  · rintro ⟨c, hc, u, hu, rfl⟩
    exact ⟨hc, hu⟩
  · rintro ⟨h1, h2⟩
    exact ⟨p.1, h1, p.2, h2, rfl⟩

theorem scanPair_spec (rooms : List Room) (best : Option (Connection × Int)) (p : Nat × Nat)
    (h1 : p.1 < rooms.length) (h2 : p.2 < rooms.length) :
    ∃ b, scanPair rooms best p = some b ∧
      (b = best ∨ ∃ d, b = some (⟨p.1, p.2⟩, d)) := by
  unfold scanPair
  have e1 : rooms.get? p.1 = some rooms[p.1] := by simp [h1]
  have e2 : rooms.get? p.2 = some rooms[p.2] := by simp [h2]
  rw [e1, e2]
  simp only []
  split
  · split
    · split
      · exact ⟨_, rfl, Or.inr ⟨_, rfl⟩⟩
      · exact ⟨_, rfl, Or.inl rfl⟩
    · exact ⟨_, rfl, Or.inr ⟨_, rfl⟩⟩
  · exact ⟨_, rfl, Or.inl rfl⟩

theorem scanPairs_spec (rooms : List Room) (pairs : List (Nat × Nat)) :
    ∀ best : Option (Connection × Int),
      (∀ p ∈ pairs, p.1 < rooms.length ∧ p.2 < rooms.length) →
      ∃ b, scanPairs rooms pairs best = some b ∧
        (b = best ∨ ∃ p ∈ pairs, ∃ d, b = some (⟨p.1, p.2⟩, d)) := by
  induction pairs with
  | nil => intro best _; exact ⟨best, rfl, Or.inl rfl⟩
  | cons p pairs ih =>
    intro best h
    obtain ⟨b1, e1, hb1⟩ := scanPair_spec rooms best p (h p (List.mem_cons_self _ _)).1
      (h p (List.mem_cons_self _ _)).2
    obtain ⟨b2, e2, hb2⟩ := ih b1 (fun q hq => h q (List.mem_cons_of_mem _ hq))
    refine ⟨b2, ?_, ?_⟩
    · unfold scanPairs
      rw [e1]
      exact e2
    · rcases hb2 with e | ⟨q, hq, d, e⟩
      · rcases hb1 with e3 | ⟨d, e3⟩
        · exact Or.inl (e.trans e3)
        · exact Or.inr ⟨p, List.mem_cons_self _ _, d, e.trans e3⟩
      · exact Or.inr ⟨q, List.mem_cons_of_mem _ hq, d, e⟩

/-- What the loop of `createMinimumSpanningTree` returns from a state whose
ids all index `rooms`: it finishes, it keeps the connections it already had,
every new connection joins two ids that index `rooms`, and every id still
unconnected ends up linked to the connected ones. -/
theorem mstLoop_spec (rooms : List Room) :
    ∀ (fuel : Nat) (connected unconnected : List Nat) (connections : List Connection)
      (rng : SeededRandom),
      unconnected.length ≤ fuel → connected ≠ [] →
      (∀ c ∈ connected, c < rooms.length) → (∀ u ∈ unconnected, u < rooms.length) →
      ∃ result rng2, mstLoop rooms fuel connected unconnected connections rng =
          some (result, rng2) ∧
        (∀ conn ∈ connections, conn ∈ result) ∧
        (∀ conn ∈ result, conn ∈ connections ∨
          (conn.source < rooms.length ∧ conn.target < rooms.length)) ∧
        (∀ R : Nat → Nat → Prop, (∀ a b c, R a b → R b c → R a c) →
          (∀ conn ∈ result, R conn.source conn.target) →
          ∀ r, (∀ c ∈ connected, R r c) → ∀ u ∈ unconnected, R r u) := by
  intro fuel
  induction fuel with
  | zero =>
    intro connected unconnected connections rng hlen _ _ _
    have : unconnected = [] := List.length_eq_zero.mp (by omega)
    subst this
    exact ⟨connections, rng, rfl, fun _ h => h, fun _ h => Or.inl h, by simp⟩
  | succ fuel ih =>
    intro connected unconnected connections rng hlen hne hc hu
    cases unconnected with
    | nil => exact ⟨connections, rng, rfl, fun _ h => h, fun _ h => Or.inl h, by simp⟩
    | cons first rest =>
      have key : ∀ (source target : Nat) (rng1 : SeededRandom), source ∈ connected →
          target ∈ first :: rest →
          ∃ result rng2, mstLoop rooms fuel (setAdd connected target)
              ((first :: rest).erase target) (connections ++ [⟨source, target⟩]) rng1 =
              some (result, rng2) ∧
            (∀ conn ∈ connections, conn ∈ result) ∧
            (∀ conn ∈ result, conn ∈ connections ∨
              (conn.source < rooms.length ∧ conn.target < rooms.length)) ∧
            (∀ R : Nat → Nat → Prop, (∀ a b c, R a b → R b c → R a c) →
              (∀ conn ∈ result, R conn.source conn.target) →
              ∀ r, (∀ c ∈ connected, R r c) → ∀ u ∈ first :: rest, R r u) := by
        intro source target rng1 hs ht
        have hlen2 : ((first :: rest).erase target).length ≤ fuel := by
          rw [List.length_erase_of_mem ht]
          simp at hlen ⊢
          omega
        obtain ⟨result, rng2, e, p1, p2, p3⟩ := ih (setAdd connected target)
          ((first :: rest).erase target) (connections ++ [⟨source, target⟩]) rng1 hlen2
          (by
            intro h
            have : target ∈ setAdd connected target := mem_setAdd.mpr (Or.inr rfl)
            rw [h] at this
            simp at this)
          (by
            intro c hcm
            rcases mem_setAdd.mp hcm with h | h
            · exact hc c h
            · subst h; exact hu _ ht)
          (fun u hum => hu u (List.mem_of_mem_erase hum))
        refine ⟨result, rng2, e, fun conn h => p1 conn (List.mem_append_left _ h), ?_, ?_⟩
        · intro conn h
          rcases p2 conn h with h2 | h2
          · rcases List.mem_append.mp h2 with h3 | h3
            · exact Or.inl h3
            · rw [List.mem_singleton] at h3
              subst h3
              exact Or.inr ⟨hc _ hs, hu _ ht⟩
          · exact Or.inr h2
        · intro R htrans hedge r hroot u hum
          have hedge1 : R source target :=
            hedge ⟨source, target⟩ (p1 _ (List.mem_append_right _ (List.mem_singleton.mpr rfl)))
          have hroot2 : ∀ c ∈ setAdd connected target, R r c := by
            intro c hcm
            rcases mem_setAdd.mp hcm with h | h
            · exact hroot c h
            · subst h; exact htrans _ _ _ (hroot _ hs) hedge1
          by_cases hut : u = target
          · subst hut; exact hroot2 _ (mem_setAdd.mpr (Or.inr rfl))
          · exact p3 R htrans hedge r hroot2 u ((List.mem_erase_of_ne hut).mpr hum)
      obtain ⟨b, eb, hb⟩ := scanPairs_spec rooms (allPairs connected (first :: rest)) none
        (fun p hp => ⟨hc _ (mem_allPairs.mp hp).1, hu _ (mem_allPairs.mp hp).2⟩)
      unfold mstLoop
      simp only [eb]
      rcases hb with e | ⟨p, hp, d, e⟩
      · subst e
        simp only []
        have hpos : 0 < connected.length := List.length_pos.mpr hne
        obtain ⟨c, hcm, ec⟩ := jsIndex_some_of_lt connected
          (nextInt_ge rng (by omega : (0 : Int) ≤ (connected.length : Int) - 1))
          (by
            have := nextInt_le rng (by omega : (0 : Int) ≤ (connected.length : Int) - 1)
            omega)
        rw [ec]
        exact key c first _ hcm (List.mem_cons_self _ _)
      · subst e
        exact key p.1 p.2 rng (mem_allPairs.mp hp).1 (mem_allPairs.mp hp).2

theorem mem_drop_one_ids {rooms : List Room}
    (hid : rooms.map Room.id = List.range rooms.length) {i : Nat} :
    i ∈ (rooms.drop 1).map (fun room => room.id) ↔ 1 ≤ i ∧ i < rooms.length := by
  have e : (rooms.drop 1).map (fun room => room.id) = (List.range rooms.length).drop 1 := by
    rw [← hid, List.map_drop]
  rw [e, List.mem_iff_getElem]
  simp only [List.length_drop, List.length_range, List.getElem_drop, List.getElem_range]
  constructor
  · rintro ⟨k, hk, rfl⟩
    omega
  · rintro ⟨h1, h2⟩
    exact ⟨i - 1, by omega, by omega⟩

/-- On rooms whose ids are their indices `createMinimumSpanningTree` returns,
its connections join ids that index `rooms`, and every room is linked to
room 0 along them. -/
theorem createMinimumSpanningTree_spans {rooms : List Room} (rng : SeededRandom)
    (hid : rooms.map Room.id = List.range rooms.length) (hpos : 0 < rooms.length) :
    ∃ connections rng2, createMinimumSpanningTree rooms rng = some (connections, rng2) ∧
      (∀ conn ∈ connections, conn.source < rooms.length ∧ conn.target < rooms.length) ∧
      (∀ R : Nat → Nat → Prop, (∀ a b c, R a b → R b c → R a c) →
        (∀ conn ∈ connections, R conn.source conn.target) → R 0 0 →
        ∀ i, i < rooms.length → R 0 i) := by
  have hconn : setOfList [0] = [0] := rfl
  obtain ⟨result, rng2, e, _, p2, p3⟩ := mstLoop_spec rooms
    (setOfList ((rooms.drop 1).map (fun room => room.id))).length (setOfList [0])
    (setOfList ((rooms.drop 1).map (fun room => room.id))) [] rng (le_refl _)
    (by rw [hconn]; simp)
    (by rw [hconn]; intro c hcm; rw [List.mem_singleton] at hcm; omega)
    (by intro u hum; exact ((mem_drop_one_ids hid).mp (mem_setOfList.mp hum)).2)
  refine ⟨result, rng2, e, ?_, ?_⟩
  · intro conn h
    rcases p2 conn h with h2 | h2
    · simp at h2
    · exact h2
  · intro R htrans hedge h00 i hi
    by_cases h0 : i = 0
    · subst h0; exact h00
    · apply p3 R htrans hedge 0
      · rw [hconn]; intro c hcm; rw [List.mem_singleton] at hcm; subst hcm; exact h00
      · exact mem_setOfList.mpr ((mem_drop_one_ids hid).mpr ⟨by omega, hi⟩)

/-! ## Corridors along the connections -/

theorem corridorBetween_eq (room1 room2 : Room) (grid : Grid)
    (width height corridorWidth : Int) :
    corridorBetween room1 room2 grid width height corridorWidth =
      createCorridor room1.anchor.1 room1.anchor.2 room2.anchor.1 room2.anchor.2 grid
        width height corridorWidth := rfl

theorem corridorBetween_keeps (room1 room2 : Room) {grid : Grid}
    {width height : Int} (corridorWidth : Int) (hok : GridOK width height grid) :
    GridOK width height (corridorBetween room1 room2 grid width height corridorWidth).2 ∧
    KeepsOpen grid (corridorBetween room1 room2 grid width height corridorWidth).2 := by
  rw [corridorBetween_eq, createCorridor_grid]
  obtain ⟨a1, a2, _⟩ := carve_spec width height
    (corridorCells room1.anchor.1 room1.anchor.2 room2.anchor.1 room2.anchor.2 corridorWidth)
    (grid, []) hok
  exact ⟨a1, a2⟩

/-- The `connections.forEach` of `generateCorridors` finishes when the
connections join ids that index `rooms`; afterwards the two corridor
endpoints of every connection reach each other. -/
theorem carveConnections_spec (rooms : List Room) {width height corridorWidth : Int}
    (hanchor : ∀ room ∈ rooms, inBounds width height room.anchor.1 room.anchor.2 = true)
    (hw : 1 ≤ corridorWidth) (connections : List Connection) :
    ∀ (grid : Grid) (corridors : List Corridor), GridOK width height grid →
      (∀ conn ∈ connections, conn.source < rooms.length ∧ conn.target < rooms.length) →
      ∃ result grid2,
        carveConnections rooms width height corridorWidth connections grid corridors =
          some (result, grid2) ∧
        GridOK width height grid2 ∧ KeepsOpen grid grid2 ∧
        (∀ conn ∈ connections, ∃ room1 room2, rooms[conn.source]? = some room1 ∧
          rooms[conn.target]? = some room2 ∧ Reachable grid2 room1.anchor room2.anchor) := by
  induction connections with
  | nil =>
    intro grid corridors hok _
    exact ⟨corridors, grid, rfl, hok, KeepsOpen.same _, by simp⟩
  | cons conn connections ih =>
    intro grid corridors hok hvalid
    obtain ⟨h1, h2⟩ := hvalid conn (List.mem_cons_self _ _)
    have e1 : rooms.get? conn.source = some rooms[conn.source] := by simp [h1]
    have e2 : rooms.get? conn.target = some rooms[conn.target] := by simp [h2]
    have b1 := hanchor _ (List.getElem_mem h1)
    have b2 := hanchor _ (List.getElem_mem h2)
    obtain ⟨a1, a2, a3⟩ := createCorridor_reachable hok b1 b2 hw
    rw [← corridorBetween_eq] at a1 a2 a3
    obtain ⟨result, grid2, e, c1, c2, c3⟩ := ih
      (corridorBetween rooms[conn.source] rooms[conn.target] grid width height corridorWidth).2
      (corridors ++
        [(corridorBetween rooms[conn.source] rooms[conn.target] grid width height
          corridorWidth).1])
      a1 (fun c hc => hvalid c (List.mem_cons_of_mem _ hc))
    refine ⟨result, grid2, ?_, c1, a2.andThen c2, ?_⟩
    · unfold carveConnections
      rw [e1, e2]
      exact e
    · intro c hc
      rcases List.mem_cons.mp hc with h | h
      · subst h
        exact ⟨_, _, List.getElem?_eq_getElem h1, List.getElem?_eq_getElem h2, a3.lift c2⟩
      · exact c3 c h

/-- The extra-connection loop finishes on a non-empty room list and never
turns an open cell into wall. -/
theorem extraLoop_spec (rooms : List Room) (connections : List Connection)
    {width height : Int} (corridorWidth : Int) (hne : rooms ≠ []) :
    ∀ (n : Nat) (grid : Grid) (rng : SeededRandom), GridOK width height grid →
      ∃ grid2 rng2,
        extraLoop rooms connections width height corridorWidth n grid rng =
          some (grid2, rng2) ∧
        GridOK width height grid2 ∧ KeepsOpen grid grid2 := by
  intro n
  induction n with
  | zero => intro grid rng hok; exact ⟨grid, rng, rfl, hok, KeepsOpen.same _⟩
  | succ n ih =>
    intro grid rng hok
    have hpos : 0 < rooms.length := List.length_pos.mpr hne
    have hle : (0 : Int) ≤ (rooms.length : Int) - 1 := by omega
    obtain ⟨room1, _, e1⟩ := jsIndex_some_of_lt rooms (nextInt_ge rng hle)
      (by have := nextInt_le rng hle; omega)
    obtain ⟨room2, _, e2⟩ := jsIndex_some_of_lt rooms
      (nextInt_ge (rng.nextInt 0 ((rooms.length : Int) - 1)).2 hle)
      (by have := nextInt_le (rng.nextInt 0 ((rooms.length : Int) - 1)).2 hle; omega)
    unfold extraLoop
    simp only [e1, e2]
    split
    · split
      · exact ih _ _ hok
      · obtain ⟨a1, a2⟩ := corridorBetween_keeps room1 room2 corridorWidth hok
        obtain ⟨grid2, rng2, e, b1, b2⟩ := ih
          (corridorBetween room1 room2 grid width height corridorWidth).2
          ((rng.nextInt 0 ((rooms.length : Int) - 1)).2.nextInt 0
            ((rooms.length : Int) - 1)).2 a1
        exact ⟨grid2, rng2, e, b1, a2.andThen b2⟩
    · exact ih _ _ hok

/-! ## Doors -/

theorem placeDoorAt_keeps (rooms : List Room) (width height : Int) (s : Grid × SeededRandom)
    (c : Int × Int) : KeepsOpen s.1 (placeDoorAt rooms width height s c).1 := by
  unfold placeDoorAt
  split
  · split
    · simp only []
      split
      · exact keepsOpen_setCell _ _ _ (Or.inr (Or.inl rfl))
      · exact KeepsOpen.same _
    · exact KeepsOpen.same _
  · exact KeepsOpen.same _

theorem placeDoors_foldl_keeps (rooms : List Room) (width height : Int)
    (cells : List (Int × Int)) :
    ∀ s : Grid × SeededRandom,
      KeepsOpen s.1 (cells.foldl (placeDoorAt rooms width height) s).1 := by
  induction cells with
  | nil => intro s; exact KeepsOpen.same _
  | cons c cells ih =>
    intro s
    exact (placeDoorAt_keeps rooms width height s c).andThen (ih _)

theorem placeDoors_keeps (rng : SeededRandom) (grid : Grid) (rooms : List Room)
    (width height : Int) : KeepsOpen grid (placeDoors rng grid rooms width height).1 :=
  placeDoors_foldl_keeps rooms width height (doorCells width height) (grid, rng)

/-! ## Encounters are produced -/

theorem choice_some {α : Type} (rng : SeededRandom) {array : List α} (hne : array ≠ []) :
    ∃ a, a ∈ array ∧ (rng.choice array).1 = some a := by
  have hpos : 0 < array.length := List.length_pos.mpr hne
  have hle : (0 : Int) ≤ (array.length : Int) - 1 := by omega
  exact jsIndex_some_of_lt array (nextInt_ge rng hle) (by have := nextInt_le rng hle; omega)

theorem creatureLoop_names (creatures : List String) (baseCR : Option ℚ)
    (hne : creatures ≠ []) :
    ∀ (n : Nat) (acc : List Creature) (rng : SeededRandom),
      (∀ c ∈ acc, c.name.isSome = true) →
      ∀ c ∈ (creatureLoop creatures baseCR n acc rng).1, c.name.isSome = true := by
  intro n
  induction n with
  | zero => intro acc rng h; exact h
  | succ n ih =>
    intro acc rng h
    unfold creatureLoop
    apply ih
    intro c hc
    rcases List.mem_append.mp hc with e | e
    · exact h c e
    · rw [List.mem_singleton] at e
      subst e
      obtain ⟨a, _, ea⟩ := choice_some rng hne
      simp [ea]

theorem mapM_isSome {α β : Type} (f : α → Option β) (l : List α)
    (h : ∀ a ∈ l, (f a).isSome = true) : ∃ r, l.mapM f = some r := by
  induction l with
  | nil => exact ⟨[], by rw [List.mapM_nil]; rfl⟩
  | cons a l ih =>
    obtain ⟨r, hr⟩ := ih (fun b hb => h b (List.mem_cons_of_mem _ hb))
    obtain ⟨b, hb⟩ := Option.isSome_iff_exists.mp (h a (List.mem_cons_self _ _))
    exact ⟨b :: r, by rw [List.mapM_cons, hb, hr]; rfl⟩

theorem generateEncounterDescription_some (roomType : Option String)
    (creatures : List Creature) (biome : String)
    (h : ∀ c ∈ creatures, c.name.isSome = true) :
    ∃ d, generateEncounterDescription roomType creatures biome = some d := by
  obtain ⟨r, hr⟩ := mapM_isSome (fun c : Creature => c.name.map String.toLower) creatures
    (fun c hc => by
      obtain ⟨a, ha⟩ := Option.isSome_iff_exists.mp (h c hc)
      simp [ha])
  unfold generateEncounterDescription
  simp only [hr]
  exact ⟨_, rfl⟩

theorem encounterStep_some (creatures : List String) (baseCR : Option ℚ) (biome : String)
    (hne : creatures ≠ []) (s : List Encounter × SeededRandom) (room : Room) :
    ∃ s2, encounterStep creatures baseCR biome s room = some s2 := by
  unfold encounterStep
  simp only []
  split
  · obtain ⟨d, hd⟩ := generateEncounterDescription_some room.type
      (creatureLoop creatures baseCR (s.2.next.2.nextInt 1 3).1.toNat []
        (s.2.next.2.nextInt 1 3).2).1 biome
      (creatureLoop_names creatures baseCR hne _ _ _ (by simp))
    rw [hd]
    exact ⟨_, rfl⟩
  · exact ⟨_, rfl⟩

theorem encounterLoop_some (creatures : List String) (baseCR : Option ℚ) (biome : String)
    (hne : creatures ≠ []) (rooms : List Room) :
    ∀ s : List Encounter × SeededRandom,
      ∃ s2, encounterLoop creatures baseCR biome rooms s = some s2 := by
  induction rooms with
  | nil => intro s; exact ⟨s, rfl⟩
  | cons room rooms ih =>
    intro s
    obtain ⟨s1, h1⟩ := encounterStep_some creatures baseCR biome hne s room
    obtain ⟨s2, h2⟩ := ih s1
    refine ⟨s2, ?_⟩
    unfold encounterLoop
    rw [h1]
    exact h2

theorem lookup_mem {β : Type} (key : String) (table : List (String × β)) {v : β}
    (h : table.lookup key = some v) : v ∈ table.map Prod.snd := by
  induction table with
  | nil => simp at h
  | cons e table ih =>
    obtain ⟨k, w⟩ := e
    rw [List.lookup_cons] at h
    split at h
    · simp only [Option.some.injEq] at h
      subst h
      simp
    · simp only [List.map_cons, List.mem_cons]
      exact Or.inr (ih h)

theorem creatures_ne_nil (biome : String) :
    (biomeCreatures.lookup biome).getD dungeonCreatures ≠ [] := by
  cases h : biomeCreatures.lookup biome with
  | none => simp [dungeonCreatures]
  | some v =>
    have hv := lookup_mem biome biomeCreatures h
    simp only [biomeCreatures, List.map_cons, List.map_nil, List.mem_cons, List.mem_singleton,
      List.not_mem_nil, or_false] at hv
    simp only [Option.getD_some]
    rcases hv with e | e | e | e | e | e <;> rw [e] <;> simp

/-- `generateEncounters` returns for every room list, difficulty and biome: each
creature name is drawn from a non-empty vocabulary. -/
theorem generateEncounters_some (rng : SeededRandom) (rooms : List Room)
    (difficulty biome : String) :
    ∃ r, generateEncounters rng rooms difficulty biome = some r :=
  encounterLoop_some _ _ biome (creatures_ne_nil biome) rooms ([], rng)

/-! ## Connectivity of the dungeon -/

/-- On rooms whose ids are their indices, whose corridor endpoints lie inside
the bounds and are open cells, `generateCorridors` returns, keeps every open
cell open, and leaves the endpoints of all rooms mutually reachable. -/
theorem generateCorridors_connects (rng : SeededRandom) {rooms : List Room} {grid : Grid}
    {width height corridorWidth : Int}
    (hid : rooms.map Room.id = List.range rooms.length)
    (hanchor : ∀ room ∈ rooms, inBounds width height room.anchor.1 room.anchor.2 = true)
    (hopen : ∀ room ∈ rooms, Walkable grid room.anchor)
    (hok : GridOK width height grid) (hw : 1 ≤ corridorWidth) :
    ∃ corridors grid2 rng2,
      generateCorridors rng rooms grid width height corridorWidth =
        some (corridors, grid2, rng2) ∧
      KeepsOpen grid grid2 ∧
      (∀ a ∈ rooms, ∀ b ∈ rooms, Reachable grid2 a.anchor b.anchor) := by
  unfold generateCorridors
  by_cases hlen : rooms.length < 2
  · rw [if_pos hlen]
    refine ⟨[], grid, rng, rfl, KeepsOpen.same _, ?_⟩
    intro a ha b hb
    obtain ⟨i, hi, ea⟩ := List.mem_iff_getElem.mp ha
    obtain ⟨j, hj, eb⟩ := List.mem_iff_getElem.mp hb
    have hij : i = j := by omega
    subst hij
    rw [← ea, ← eb]
    exact Reachable.self (hopen _ (List.getElem_mem hi))
  · rw [if_neg hlen]
    have hpos : 0 < rooms.length := by omega
    obtain ⟨connections, rng1, e1, hvalid, hspan⟩ :=
      createMinimumSpanningTree_spans rng hid hpos
    obtain ⟨corridors, grid1, e2, ok1, keep1, hreach⟩ :=
      carveConnections_spec rooms hanchor hw connections grid [] hok hvalid
    obtain ⟨grid2, rng2, e3, _, keep2⟩ :=
      extraLoop_spec rooms connections corridorWidth (List.length_pos.mp hpos)
        (min 2 (rooms.length / 3)) grid1 rng1 ok1
    refine ⟨corridors, grid2, rng2, ?_, keep1.andThen keep2, ?_⟩
    · simp only [e1, e2, e3]
    · have hall := hspan
        (fun i j => ∃ a b, rooms[i]? = some a ∧ rooms[j]? = some b ∧
          Reachable grid2 a.anchor b.anchor)
        (by
          rintro i j k ⟨a, b, ha, hb, hab⟩ ⟨b2, c, hb2, hc, hbc⟩
          have : b = b2 := by rw [hb] at hb2; exact Option.some.inj hb2
          subst this
          exact ⟨a, c, ha, hc, hab.join hbc⟩)
        (by
          intro conn hconn
          obtain ⟨a, b, ha, hb, hab⟩ := hreach conn hconn
          exact ⟨a, b, ha, hb, hab.lift keep2⟩)
        ⟨rooms[0], rooms[0], List.getElem?_eq_getElem hpos, List.getElem?_eq_getElem hpos,
          Reachable.self ((keep1.andThen keep2) _ (hopen _ (List.getElem_mem hpos)))⟩
      intro a ha b hb
      obtain ⟨i, hi, ea⟩ := List.mem_iff_getElem.mp ha
      obtain ⟨j, hj, eb⟩ := List.mem_iff_getElem.mp hb
      obtain ⟨r0, a2, h0, ha2, hra⟩ := hall i hi
      obtain ⟨r02, b2, h02, hb2, hrb⟩ := hall j hj
      have e0 : r0 = r02 := by rw [h0] at h02; exact Option.some.inj h02
      have ea2 : a2 = a := by
        rw [List.getElem?_eq_getElem hi, ea] at ha2; exact (Option.some.inj ha2).symm
      have eb2 : b2 = b := by
        rw [List.getElem?_eq_getElem hj, eb] at hb2; exact (Option.some.inj hb2).symm
      subst e0 ea2 eb2
      exact hra.reverse.join hrb

/-- The record `generateDungeon` returns once its corridor and encounter stages
have returned. -/
theorem generateDungeon_some_of (params : Params)
    (hguard : ¬ (params.height < 0 ∨ (0 < params.height ∧ params.width < 0)))
    {corridors : List Corridor} {grid2 : Grid} {rng2 : SeededRandom}
    {enc : List Encounter × SeededRandom}
    (e1 : generateCorridors
      (generateRooms (SeededRandom.create params.seed) params.width params.height
        params.roomCount).2
      (stampRooms params.width params.height
        (List.replicate params.height.toNat (List.replicate params.width.toNat 0))
        (generateRooms (SeededRandom.create params.seed) params.width params.height
          params.roomCount).1).2
      (stampRooms params.width params.height
        (List.replicate params.height.toNat (List.replicate params.width.toNat 0))
        (generateRooms (SeededRandom.create params.seed) params.width params.height
          params.roomCount).1).1
      params.width params.height params.corridorWidth = some (corridors, grid2, rng2))
    (e2 : generateEncounters
      (placeDoors rng2 grid2 (stampRooms params.width params.height
        (List.replicate params.height.toNat (List.replicate params.width.toNat 0))
        (generateRooms (SeededRandom.create params.seed) params.width params.height
          params.roomCount).1).2 params.width params.height).2
      (stampRooms params.width params.height
        (List.replicate params.height.toNat (List.replicate params.width.toNat 0))
        (generateRooms (SeededRandom.create params.seed) params.width params.height
          params.roomCount).1).2 params.difficulty params.biome = some enc) :
    generateDungeon params =
      some { width := params.width, height := params.height,
             grid := (placeDoors rng2 grid2 (stampRooms params.width params.height
               (List.replicate params.height.toNat (List.replicate params.width.toNat 0))
               (generateRooms (SeededRandom.create params.seed) params.width params.height
                 params.roomCount).1).2 params.width params.height).1,
             rooms := (stampRooms params.width params.height
               (List.replicate params.height.toNat (List.replicate params.width.toNat 0))
               (generateRooms (SeededRandom.create params.seed) params.width params.height
                 params.roomCount).1).2,
             corridors := corridors, encounters := enc.1,
             biome := params.biome, difficulty := params.difficulty } := by
  unfold generateDungeon
  simp only [if_neg hguard, e1, e2]

/-- C1: for valid parameters `generateDungeon` returns a dungeon in whose grid
the centre cell of every room is reached from the centre cell of every other
room by a path of orthogonally adjacent cells holding 1, 2 or 3. -/
theorem generateDungeon_centres_connected (params : Params)
    (hw1 : 10 ≤ params.width) (hw2 : params.width ≤ 50)
    (hh1 : 10 ≤ params.height) (hh2 : params.height ≤ 50)
    (_hr : 1 ≤ params.roomCount)
    (hc : params.corridorWidth = 1 ∨ params.corridorWidth = 2 ∨ params.corridorWidth = 3) :
    ∃ dungeon, generateDungeon params = some dungeon ∧
      ∀ a ∈ dungeon.rooms, ∀ b ∈ dungeon.rooms,
        ∃ ax ay bx bz, a.centerX = some ax ∧ a.centerY = some ay ∧
          b.centerX = some bx ∧ b.centerY = some bz ∧
          Reachable dungeon.grid (ax, ay) (bx, bz) := by
  have hcw : 1 ≤ params.corridorWidth := by omega
  have hfit := generateRooms_fits (SeededRandom.create params.seed) params.roomCount hw1 hh1
  have hid := generateRooms_ids (SeededRandom.create params.seed) params.width
    params.height params.roomCount
  obtain ⟨s1, s2, s3, s4⟩ := stampRooms_spec params.width params.height
    (generateRooms (SeededRandom.create params.seed) params.width params.height
      params.roomCount).1
    (List.replicate params.height.toNat (List.replicate params.width.toNat 0))
    (gridOK_replicate params.width params.height)
    (fun room hroom => (hfit room hroom).1.middle_inBounds)
  have hid2 : (stampRooms params.width params.height
      (List.replicate params.height.toNat (List.replicate params.width.toNat 0))
      (generateRooms (SeededRandom.create params.seed) params.width params.height
        params.roomCount).1).2.map Room.id =
      List.range (stampRooms params.width params.height
        (List.replicate params.height.toNat (List.replicate params.width.toNat 0))
        (generateRooms (SeededRandom.create params.seed) params.width params.height
          params.roomCount).1).2.length := by
    rw [s1, List.map_map, List.length_map, ← hid]
    rfl
  have hrooms : ∀ room ∈ (stampRooms params.width params.height
      (List.replicate params.height.toNat (List.replicate params.width.toNat 0))
      (generateRooms (SeededRandom.create params.seed) params.width params.height
        params.roomCount).1).2,
      ∃ room0, room0 ∈ (generateRooms (SeededRandom.create params.seed) params.width
        params.height params.roomCount).1 ∧ room = room0.withCenter := by
    intro room hroom
    rw [s1, List.mem_map] at hroom
    obtain ⟨room0, h0, e0⟩ := hroom
    exact ⟨room0, h0, e0.symm⟩
  obtain ⟨corridors, grid2, rng2, e1, keep1, hreach⟩ :=
    generateCorridors_connects
      (generateRooms (SeededRandom.create params.seed) params.width params.height
        params.roomCount).2 hid2
      (by
        intro room hroom
        obtain ⟨room0, h0, e0⟩ := hrooms room hroom
        rw [e0, (hfit room0 h0).1.anchor_withCenter]
        exact (hfit room0 h0).1.middle_inBounds)
      (by
        intro room hroom
        obtain ⟨room0, h0, e0⟩ := hrooms room hroom
        rw [e0, (hfit room0 h0).1.anchor_withCenter]
        exact s4 room0 h0)
      s2 hcw
  obtain ⟨enc, e2⟩ := generateEncounters_some
    (placeDoors rng2 grid2 (stampRooms params.width params.height
      (List.replicate params.height.toNat (List.replicate params.width.toNat 0))
      (generateRooms (SeededRandom.create params.seed) params.width params.height
        params.roomCount).1).2 params.width params.height).2
    (stampRooms params.width params.height
      (List.replicate params.height.toNat (List.replicate params.width.toNat 0))
      (generateRooms (SeededRandom.create params.seed) params.width params.height
        params.roomCount).1).2 params.difficulty params.biome
  have hguard : ¬ (params.height < 0 ∨ (0 < params.height ∧ params.width < 0)) := by omega
  refine ⟨_, generateDungeon_some_of params hguard e1 e2, ?_⟩
  intro a ha b hb
  obtain ⟨a0, ha0, ea⟩ := hrooms a ha
  obtain ⟨b0, hb0, eb⟩ := hrooms b hb
  refine ⟨a0.middle.1, a0.middle.2, b0.middle.1, b0.middle.2, by rw [ea]; rfl,
    by rw [ea]; rfl, by rw [eb]; rfl, by rw [eb]; rfl, ?_⟩
  have h := (hreach a ha b hb).lift
    (placeDoors_keeps rng2 grid2 (stampRooms params.width params.height
      (List.replicate params.height.toNat (List.replicate params.width.toNat 0))
      (generateRooms (SeededRandom.create params.seed) params.width params.height
        params.roomCount).1).2 params.width params.height)
  rw [ea, eb, (hfit a0 ha0).1.anchor_withCenter, (hfit b0 hb0).1.anchor_withCenter] at h
  exact h

/-- Witness for C1 at the concrete scenario of the specification. -/
theorem generateDungeon_centres_connected_witness :
    (10 ≤ testParams.width ∧ testParams.width ≤ 50 ∧ 10 ≤ testParams.height ∧
      testParams.height ≤ 50 ∧ 1 ≤ testParams.roomCount ∧ testParams.corridorWidth = 1) ∧
    ∃ dungeon, generateDungeon testParams = some dungeon ∧
      ∀ a ∈ dungeon.rooms, ∀ b ∈ dungeon.rooms,
        ∃ ax ay bx bz, a.centerX = some ax ∧ a.centerY = some ay ∧
          b.centerX = some bx ∧ b.centerY = some bz ∧
          Reachable dungeon.grid (ax, ay) (bx, bz) :=
  ⟨by decide,
    generateDungeon_centres_connected testParams (by decide) (by decide) (by decide)
      (by decide) (by decide) (Or.inl rfl)⟩

/-! ## NPCs -/

/-- C23: with `enableAI` false `generateNPCs` returns the empty list, whatever
the dungeon, the seed and the other parameters. -/
theorem generateNPCs_disabled (dungeon : GeneratedDungeon) (params : Params)
    (h : params.enableAI = false) : generateNPCs dungeon params = some [] := by
  unfold generateNPCs
  simp [h]

/-- Witness for C23: the scenario parameters with `enableAI` switched off. -/
theorem generateNPCs_disabled_witness :
    ({ testParams with enableAI := false } : Params).enableAI = false ∧
    generateNPCs threeRoomDungeon { testParams with enableAI := false } = some [] :=
  ⟨rfl, generateNPCs_disabled threeRoomDungeon { testParams with enableAI := false } rfl⟩

theorem npcLoop_succ_raises (biome difficulty : String) (n i : Nat) (npcs : List NPC)
    (rng : SeededRandom) : npcLoop biome difficulty (n + 1) i npcs rng = none := rfl

/-- With `enableAI` true and at least three rooms `generateNPCs` raises: the
first call of `generateSingleNPC` reads the undeclared `getNames`. -/
theorem generateNPCs_raises (dungeon : GeneratedDungeon) (params : Params)
    (h : params.enableAI = true) (hn : 3 ≤ dungeon.rooms.length) :
    generateNPCs dungeon params = none := by
  have hcount : 1 ≤ ⌊(dungeon.rooms.length : ℚ) * (2 / 5)⌋ := by
    rw [Int.le_floor]
    have : (3 : ℚ) ≤ (dungeon.rooms.length : ℚ) := by exact_mod_cast hn
    push_cast
    linarith
  obtain ⟨k, hk⟩ : ∃ k, ⌊(dungeon.rooms.length : ℚ) * (2 / 5)⌋.toNat = k + 1 :=
    ⟨⌊(dungeon.rooms.length : ℚ) * (2 / 5)⌋.toNat - 1, by omega⟩
  unfold generateNPCs
  simp only [h, Bool.not_true, Bool.false_eq_true, if_false, hk, npcLoop_succ_raises]

/-- C24, the code at the failing input: on a dungeon with three rooms and
`enableAI` true, where the claim promises one NPC record, `generateNPCs`
raises a `ReferenceError` and returns nothing. -/
theorem generateNPCs_three_rooms_raises : generateNPCs threeRoomDungeon testParams = none :=
  generateNPCs_raises threeRoomDungeon testParams rfl (by decide)

/-! ## Loot -/

theorem lookup_mem_pair {β : Type} (key : String) (table : List (String × β)) {v : β}
    (h : table.lookup key = some v) : (key, v) ∈ table := by
  induction table with
  | nil => simp at h
  | cons e table ih =>
    obtain ⟨k, w⟩ := e
    rw [List.lookup_cons] at h
    split at h
    · rename_i hk
      simp only [Option.some.injEq] at h
      subst h
      have : key = k := by simpa using hk
      subst this
      exact List.mem_cons_self _ _
    · exact List.mem_cons_of_mem _ (ih h)

theorem generateLootItem_raises (rng : SeededRandom) (biome difficulty bias : String) :
    generateLootItem rng biome difficulty bias = none := rfl

theorem lootItemLoop_succ_raises (biome difficulty bias : String) (n : Nat)
    (items : List LootItem) (rng : SeededRandom) :
    lootItemLoop biome difficulty bias (n + 1) items rng = none := rfl

theorem treasure_modifier_ge (difficulty : String) :
    (1 / 2 : ℚ) ≤ treasureModifier difficulty := by
  unfold treasureModifier
  cases h : difficultyModifier.lookup difficulty with
  | none => norm_num
  | some m =>
    have hm := lookup_mem difficulty difficultyModifier h
    simp only [difficultyModifier, List.map_cons, List.map_nil, List.mem_cons,
      List.mem_singleton, List.not_mem_nil, or_false] at hm
    rcases hm with e | e | e | e <;> subst e <;> norm_num

/-- Every call of `generateTreasureTable` raises: the table asks for at least
one generated item, and `generateLootItem` fails in `getItemIcon`. -/
theorem generateTreasureTable_raises (rng : SeededRandom) (name difficulty biome : String) :
    generateTreasureTable rng name difficulty biome = none := by
  have hm := treasure_modifier_ge difficulty
  have hc : (3 : ℚ) ≤ ((rng.nextInt 3 8).1 : ℚ) := by
    exact_mod_cast nextInt_ge rng (by decide : (3 : Int) ≤ 8)
  unfold generateTreasureTable
  simp only []
  generalize treasureModifier difficulty = m at hm ⊢
  have hcount : 1 ≤ ⌊((rng.nextInt 3 8).1 : ℚ) * m⌋ := by
    rw [Int.le_floor]
    push_cast
    nlinarith
  obtain ⟨k, hk⟩ : ∃ k, ⌊((rng.nextInt 3 8).1 : ℚ) * m⌋.toNat = k + 1 :=
    ⟨⌊((rng.nextInt 3 8).1 : ℚ) * m⌋.toNat - 1, by omega⟩
  rw [hk, lootItemLoop_succ_raises]

theorem roomLootConfig_count_pos (type : Option String) :
    ∃ k, ((roomLootConfig.lookup (jsToString type)).getD (2, "general")).1 = k + 1 := by
  cases h : roomLootConfig.lookup (jsToString type) with
  | none => exact ⟨1, rfl⟩
  | some v =>
    have hv := lookup_mem _ roomLootConfig h
    simp only [roomLootConfig, List.map_cons, List.map_nil, List.mem_cons,
      List.mem_singleton, List.not_mem_nil, or_false] at hv
    simp only [Option.getD_some]
    rcases hv with e | e | e | e | e | e | e | e | e | e <;> subst e <;> exact ⟨_, rfl⟩

/-- Every call of `generateRoomLoot` raises: each room type asks for at least
one item, and `generateLootItem` fails in `getItemIcon`. -/
theorem generateRoomLoot_raises (rng : SeededRandom) (room : Room)
    (difficulty biome : String) (index : Nat) :
    generateRoomLoot rng room difficulty biome index = none := by
  obtain ⟨k, hk⟩ := roomLootConfig_count_pos room.type
  unfold generateRoomLoot
  simp only [hk, lootItemLoop_succ_raises]

/-- Every call of `generateLoot` raises, in its first stage. -/
theorem generateLoot_raises (dungeon : GeneratedDungeon) (params : Params) :
    generateLoot dungeon params = none := by
  unfold generateLoot
  simp only [generateTreasureTable_raises]

/-- C25, the code at the failing input: on the dungeon with three rooms and the
scenario parameters, where the claim promises a list of 2 to 5 tables,
`generateLoot` raises a `ReferenceError` and returns nothing. -/
theorem generateLoot_three_rooms_raises : generateLoot threeRoomDungeon testParams = none :=
  generateLoot_raises threeRoomDungeon testParams

/-- C26, the code at the failing input: the call `generateTreasureTable(rng,
'Main Treasure', 'medium', 'dungeon')` that `generateLoot` makes for the
scenario seed raises and returns no table. -/
theorem generateTreasureTable_scenario_raises :
    generateTreasureTable (SeededRandom.create (testParams.seed ++ lootSuffix))
      "Main Treasure" "medium" "dungeon" = none :=
  generateTreasureTable_raises _ _ _ _

/-- C27, the code at the failing input: `generateRoomLoot` on a Treasury room,
where the claim promises a table of 4 items, raises and returns no table. -/
theorem generateRoomLoot_treasury_raises :
    generateRoomLoot ⟨0⟩ (sampleRoom 2 "Treasury") "medium" "dungeon" 2 = none :=
  generateRoomLoot_raises _ _ _ _ _

/-! ## Item values -/

theorem typeMultiplier_nonneg (key : String) :
    (0 : ℚ) ≤ (typeMultiplier.lookup key).getD 1 := by
  cases h : typeMultiplier.lookup key with
  | none => norm_num
  | some m =>
    have hm := lookup_mem key typeMultiplier h
    simp only [typeMultiplier, List.map_cons, List.map_nil, List.mem_cons,
      List.mem_singleton, List.not_mem_nil, or_false] at hm
    simp only [Option.getD_some]
    rcases hm with e | e | e | e | e | e | e | e <;> subst e <;> norm_num

theorem floor_mul_bounds {lo base hi : Int} {m : ℚ} (hm : 0 ≤ m) (h1 : lo ≤ base)
    (h2 : base ≤ hi) :
    ⌊(lo : ℚ) * m⌋ ≤ ⌊(base : ℚ) * m⌋ ∧ ⌊(base : ℚ) * m⌋ ≤ ⌊(hi : ℚ) * m⌋ :=
  ⟨Int.floor_mono (mul_le_mul_of_nonneg_right (by exact_mod_cast h1) hm),
    Int.floor_mono (mul_le_mul_of_nonneg_right (by exact_mod_cast h2) hm)⟩

/-- C28: for each of the five rarities, with `[lo, hi]` its base range and
`mult` the multiplier of the item type (1 when the type is unlisted),
`calculateValue` returns `"<v> gp"` with `v = floor(base * mult)` for a drawn
integer `base` in `[lo, hi]`, so `floor(lo * mult) ≤ v ≤ floor(hi * mult)`. -/
theorem calculateValue_in_range (rng : SeededRandom) (rarity : String)
    (itemType : Option String) (lo hi : Int)
    (h : rarityRange.lookup rarity = some (lo, hi)) :
    ∃ base : Int, lo ≤ base ∧ base ≤ hi ∧
      (calculateValue rng (some rarity) itemType).1 =
        toString ⌊(base : ℚ) * (typeMultiplier.lookup (jsToString itemType)).getD 1⌋ ++ " gp" ∧
      ⌊(lo : ℚ) * (typeMultiplier.lookup (jsToString itemType)).getD 1⌋ ≤
        ⌊(base : ℚ) * (typeMultiplier.lookup (jsToString itemType)).getD 1⌋ ∧
      ⌊(base : ℚ) * (typeMultiplier.lookup (jsToString itemType)).getD 1⌋ ≤
        ⌊(hi : ℚ) * (typeMultiplier.lookup (jsToString itemType)).getD 1⌋ := by
  have hm := typeMultiplier_nonneg (jsToString itemType)
  have hp := lookup_mem_pair rarity rarityRange h
  simp only [rarityRange, List.mem_cons, List.mem_singleton, List.not_mem_nil, or_false,
    Prod.mk.injEq] at hp
  have c1 := nextInt_ge rng (by decide : (1 : Int) ≤ 50)
  have c2 := nextInt_le rng (by decide : (1 : Int) ≤ 50)
  have u1 := nextInt_ge (rng.nextInt 1 50).2 (by decide : (51 : Int) ≤ 250)
  have u2 := nextInt_le (rng.nextInt 1 50).2 (by decide : (51 : Int) ≤ 250)
  have r1 := nextInt_ge ((rng.nextInt 1 50).2.nextInt 51 250).2 (by decide : (251 : Int) ≤ 1000)
  have r2 := nextInt_le ((rng.nextInt 1 50).2.nextInt 51 250).2 (by decide : (251 : Int) ≤ 1000)
  have e1 := nextInt_ge (((rng.nextInt 1 50).2.nextInt 51 250).2.nextInt 251 1000).2
    (by decide : (1001 : Int) ≤ 5000)
  have e2 := nextInt_le (((rng.nextInt 1 50).2.nextInt 51 250).2.nextInt 251 1000).2
    (by decide : (1001 : Int) ≤ 5000)
  have l1 := nextInt_ge
    ((((rng.nextInt 1 50).2.nextInt 51 250).2.nextInt 251 1000).2.nextInt 1001 5000).2
    (by decide : (5001 : Int) ≤ 25000)
  have l2 := nextInt_le
    ((((rng.nextInt 1 50).2.nextInt 51 250).2.nextInt 251 1000).2.nextInt 1001 5000).2
    (by decide : (5001 : Int) ≤ 25000)
  rcases hp with ⟨hr, hlo, hhi⟩ | ⟨hr, hlo, hhi⟩ | ⟨hr, hlo, hhi⟩ | ⟨hr, hlo, hhi⟩ |
    ⟨hr, hlo, hhi⟩ <;> subst hr hlo hhi
  · refine ⟨(rng.nextInt 1 50).1, c1, c2, ?_, floor_mul_bounds hm c1 c2⟩
    simp [calculateValue, jsToString, List.lookup]
  · refine ⟨((rng.nextInt 1 50).2.nextInt 51 250).1, u1, u2, ?_, floor_mul_bounds hm u1 u2⟩
    have : ((rng.nextInt 1 50).2.nextInt 51 250).1 ≠ 0 := by omega
    simp [calculateValue, jsToString, List.lookup, this]
  · refine ⟨(((rng.nextInt 1 50).2.nextInt 51 250).2.nextInt 251 1000).1, r1, r2, ?_,
      floor_mul_bounds hm r1 r2⟩
    have : (((rng.nextInt 1 50).2.nextInt 51 250).2.nextInt 251 1000).1 ≠ 0 := by omega
    simp [calculateValue, jsToString, List.lookup, this]
  · refine ⟨((((rng.nextInt 1 50).2.nextInt 51 250).2.nextInt 251 1000).2.nextInt 1001
      5000).1, e1, e2, ?_, floor_mul_bounds hm e1 e2⟩
    have : ((((rng.nextInt 1 50).2.nextInt 51 250).2.nextInt 251 1000).2.nextInt 1001
      5000).1 ≠ 0 := by omega
    simp [calculateValue, jsToString, List.lookup, this]
  · refine ⟨(((((rng.nextInt 1 50).2.nextInt 51 250).2.nextInt 251 1000).2.nextInt 1001
      5000).2.nextInt 5001 25000).1, l1, l2, ?_, floor_mul_bounds hm l1 l2⟩
    have : (((((rng.nextInt 1 50).2.nextInt 51 250).2.nextInt 251 1000).2.nextInt 1001
      5000).2.nextInt 5001 25000).1 ≠ 0 := by omega
    simp [calculateValue, jsToString, List.lookup, this]

/-- Witness for C28: a rare gem, from the state 0. -/
theorem calculateValue_in_range_witness :
    rarityRange.lookup "rare" = some (251, 1000) ∧
    ∃ base : Int, 251 ≤ base ∧ base ≤ 1000 ∧
      (calculateValue ⟨0⟩ (some "rare") (some "gem")).1 =
        toString ⌊(base : ℚ) * (typeMultiplier.lookup (jsToString (some "gem"))).getD 1⌋ ++
          " gp" ∧
      ⌊((251 : Int) : ℚ) * (typeMultiplier.lookup (jsToString (some "gem"))).getD 1⌋ ≤
        ⌊(base : ℚ) * (typeMultiplier.lookup (jsToString (some "gem"))).getD 1⌋ ∧
      ⌊(base : ℚ) * (typeMultiplier.lookup (jsToString (some "gem"))).getD 1⌋ ≤
        ⌊((1000 : Int) : ℚ) * (typeMultiplier.lookup (jsToString (some "gem"))).getD 1⌋ :=
  ⟨by decide, calculateValue_in_range ⟨0⟩ "rare" (some "gem") 251 1000 (by decide)⟩

/-! ## What the loot depends on -/

theorem hashString_le (str : List Nat) : hashString str ≤ 2 ^ 31 := by
  rw [hashString, foldl_hashStep]
  have := toInt32_range (weightedCodeSum str)
  omega

theorem next_seed_of_le {rng : SeededRandom} (h : rng.seed ≤ 2 ^ 31) :
    rng.next.2.seed = (rng.seed * 9301 + 49297) % 233280 := by
  have h0 := Nat.mul_le_mul_right 9301 h
  have h1 : rng.seed * 9301 < 2 ^ 53 := by
    have : (2 : Nat) ^ 31 * 9301 < 2 ^ 53 := by norm_num
    omega
  have h2 : rng.seed * 9301 + 49297 < 2 ^ 53 := by
    have : (2 : Nat) ^ 31 * 9301 + 49297 < 2 ^ 53 := by norm_num
    omega
  show roundToDouble (49297 + roundToDouble (rng.seed * 9301)) % 233280 = _
  rw [roundToDouble_of_lt h1, Nat.add_comm 49297, roundToDouble_of_lt h2]

theorem lcg_step_mod_iff (a b : Nat) :
    (a * 9301 + 49297) % 233280 = (b * 9301 + 49297) % 233280 ↔ a % 233280 = b % 233280 := by
  constructor
  · intro h
    have h1 : a * 9301 + 49297 ≡ b * 9301 + 49297 [MOD 233280] := h
    have h2 : a * 9301 ≡ b * 9301 [MOD 233280] := Nat.ModEq.add_right_cancel' 49297 h1
    exact Nat.ModEq.cancel_right_of_coprime (by norm_num) h2
  · intro h
    have h1 : a ≡ b [MOD 233280] := h
    exact (h1.mul_right 9301).add_right 49297

theorem next_eq_of_seed_eq {rng1 rng2 : SeededRandom}
    (h : rng1.next.2.seed = rng2.next.2.seed) : rng1.next = rng2.next := by
  have e : rng1.next.2 = rng2.next.2 := by
    cases h1 : rng1.next.2
    cases h2 : rng2.next.2
    rw [h1, h2] at h
    simp only at h
    rw [h]
  exact Prod.ext (by rw [next_value, next_value, h]) e

theorem nthDraw_congr {rng1 rng2 : SeededRandom} (h : rng1.next = rng2.next) (n : Nat) :
    nthDraw rng1 n = nthDraw rng2 n := by
  cases n with
  | zero =>
    unfold nthDraw
    rw [Function.iterate_zero, id_eq, id_eq, h]
  | succ n =>
    unfold nthDraw
    rw [Function.iterate_succ_apply, Function.iterate_succ_apply, h]

/-- C29 (as amended): the draw sequences of two seeds differ at some position
exactly when their hashes are not congruent modulo 233280, and then they
differ at the first draw. -/
theorem draws_differ_iff_hash_mod (seed1 seed2 : List Nat) :
    ((∃ n, nthDraw (SeededRandom.create seed1) n ≠ nthDraw (SeededRandom.create seed2) n) ↔
      hashString seed1 % 233280 ≠ hashString seed2 % 233280) ∧
    ((∃ n, nthDraw (SeededRandom.create seed1) n ≠ nthDraw (SeededRandom.create seed2) n) ↔
      nthDraw (SeededRandom.create seed1) 0 ≠ nthDraw (SeededRandom.create seed2) 0) := by
  have s1 : (SeededRandom.create seed1).next.2.seed =
      (hashString seed1 * 9301 + 49297) % 233280 :=
    next_seed_of_le (hashString_le seed1)
  have s2 : (SeededRandom.create seed2).next.2.seed =
      (hashString seed2 * 9301 + 49297) % 233280 :=
    next_seed_of_le (hashString_le seed2)
  have key : nthDraw (SeededRandom.create seed1) 0 ≠ nthDraw (SeededRandom.create seed2) 0 ↔
      hashString seed1 % 233280 ≠ hashString seed2 % 233280 := by
    rw [not_iff_not, ← lcg_step_mod_iff, ← s1, ← s2]
    unfold nthDraw
    rw [Function.iterate_zero, id_eq, id_eq, next_value, next_value]
    constructor
    · intro h
      have h3 : (((SeededRandom.create seed1).next.2.seed : ℚ)) =
          ((SeededRandom.create seed2).next.2.seed : ℚ) := by
        exact (div_left_inj' (by norm_num : (233280 : ℚ) ≠ 0)).mp h
      exact_mod_cast h3
    · intro h
      rw [h]
  have all : (∃ n, nthDraw (SeededRandom.create seed1) n ≠
      nthDraw (SeededRandom.create seed2) n) ↔
      nthDraw (SeededRandom.create seed1) 0 ≠ nthDraw (SeededRandom.create seed2) 0 := by
    constructor
    · rintro ⟨n, hn⟩ h0
      apply hn
      apply nthDraw_congr
      apply next_eq_of_seed_eq
      have := (not_iff_not.mp key).mp h0
      rw [s1, s2]
      exact (lcg_step_mod_iff _ _).mpr this
    · intro h
      exact ⟨0, h⟩
  exact ⟨all.trans key, all⟩

/-- C29, the claim as stated fails: the distinct seeds "Aa" and "BB" (code
units 65, 97 and 66, 66) hash to the same state, so every draw of the two
generators is the same. -/
theorem distinct_seeds_same_draws :
    ([65, 97] : List Nat) ≠ [66, 66] ∧
    ∀ n, nthDraw (SeededRandom.create [65, 97]) n = nthDraw (SeededRandom.create [66, 66]) n := by
  refine ⟨by decide, fun n => ?_⟩
  have e : SeededRandom.create [65, 97] = SeededRandom.create [66, 66] := by decide
  rw [e]

/-! ## Encounters per room -/

theorem encounterStep_spec (creatures : List String) (baseCR : Option ℚ) (biome : String)
    (hne : creatures ≠ []) (s : List Encounter × SeededRandom) (room : Room) :
    ∃ s2, encounterStep creatures baseCR biome s room = some s2 ∧
      ((s.2.next.1 < 6 / 10 ∧ ∃ e rngc, s2.1 = s.1 ++ [e] ∧ e.roomId = room.id ∧
          e.id = s.1.length ∧ e.challengeRating = (drawChallengeRating baseCR rngc).1) ∨
       (¬ s.2.next.1 < 6 / 10 ∧ s2.1 = s.1)) := by
  unfold encounterStep
  simp only []
  by_cases hg : s.2.next.1 < 6 / 10
  · rw [if_pos hg]
    obtain ⟨d, hd⟩ := generateEncounterDescription_some room.type
      (creatureLoop creatures baseCR (s.2.next.2.nextInt 1 3).1.toNat []
        (s.2.next.2.nextInt 1 3).2).1 biome
      (creatureLoop_names creatures baseCR hne _ _ _ (by simp))
    rw [hd]
    exact ⟨_, rfl, Or.inl ⟨hg, _, _, rfl, rfl, rfl, rfl⟩⟩
  · rw [if_neg hg]
    exact ⟨_, rfl, Or.inr ⟨hg, rfl⟩⟩

theorem encounterLoop_spec (creatures : List String) (baseCR : Option ℚ) (biome : String)
    (hne : creatures ≠ []) (rooms : List Room) :
    ∀ s : List Encounter × SeededRandom,
      ∃ s2 new, encounterLoop creatures baseCR biome rooms s = some s2 ∧
        s2.1 = s.1 ++ new ∧
        (encounterGates creatures baseCR biome rooms s).length = rooms.length ∧
        new.map Encounter.roomId =
          ((rooms.zip (encounterGates creatures baseCR biome rooms s)).filter
            (fun p => decide (p.2 < 6 / 10))).map (fun p => p.1.id) ∧
        (new.map Encounter.roomId).Sublist (rooms.map Room.id) ∧
        new.map Encounter.id = List.range' s.1.length new.length ∧
        (∀ e ∈ new, ∃ rngc, e.challengeRating = (drawChallengeRating baseCR rngc).1) := by
  induction rooms with
  | nil =>
    intro s
    exact ⟨s, [], rfl, by simp, rfl, rfl, List.Sublist.slnil, rfl, by simp⟩
  | cons room rooms ih =>
    intro s
    obtain ⟨s1, hstep, hcase⟩ := encounterStep_spec creatures baseCR biome hne s room
    obtain ⟨s2, new, hloop, hs2, hlen, hroom, hsub, hid, hcr⟩ := ih s1
    have hgates : encounterGates creatures baseCR biome (room :: rooms) s =
        s.2.next.1 :: encounterGates creatures baseCR biome rooms s1 := by
      rw [encounterGates, hstep]
    have hrun : encounterLoop creatures baseCR biome (room :: rooms) s = some s2 := by
      rw [encounterLoop, hstep]
      exact hloop
    rcases hcase with ⟨hg, e, rngc, he, heroom, heid, hecr⟩ | ⟨hg, he⟩
    · refine ⟨s2, e :: new, hrun, ?_, ?_, ?_, ?_, ?_, ?_⟩
      · rw [hs2, he, List.append_assoc, List.singleton_append]
      · rw [hgates, List.length_cons, List.length_cons, hlen]
      · rw [hgates, List.zip_cons_cons, List.filter_cons_of_pos (by simpa using hg),
          List.map_cons, List.map_cons, heroom, hroom]
      · rw [List.map_cons, List.map_cons, heroom]
        exact hsub.cons₂ _
      · rw [List.map_cons, List.length_cons, List.range'_succ, heid, hid, he]
        simp
      · intro e2 he2
        rcases List.mem_cons.mp he2 with h | h
        · subst h; exact ⟨rngc, hecr⟩
        · exact hcr e2 h
    · refine ⟨s2, new, hrun, by rw [hs2, he], ?_, ?_, ?_, by rw [hid, he], hcr⟩
      · rw [hgates, List.length_cons, List.length_cons, hlen]
      · rw [hgates, List.zip_cons_cons, List.filter_cons_of_neg (by simpa using hg), hroom]
      · rw [List.map_cons]
        exact hsub.cons _

/-- C21: on a room list whose ids are the indices, `generateEncounters`
returns; its encounters are, in room order, one for each room whose gating
draw is below 0.6 and none for the others; their room ids are strictly
increasing, and the k-th encounter has id k. -/
theorem generateEncounters_one_per_room (rng : SeededRandom) (rooms : List Room)
    (difficulty biome : String) (hid : rooms.map Room.id = List.range rooms.length) :
    ∃ encounters rng2,
      generateEncounters rng rooms difficulty biome = some (encounters, rng2) ∧
      (encounterGates ((biomeCreatures.lookup biome).getD dungeonCreatures)
        (difficultyMultiplier.lookup difficulty) biome rooms ([], rng)).length = rooms.length ∧
      encounters.map Encounter.roomId =
        ((rooms.zip (encounterGates ((biomeCreatures.lookup biome).getD dungeonCreatures)
            (difficultyMultiplier.lookup difficulty) biome rooms ([], rng))).filter
          (fun p => decide (p.2 < 6 / 10))).map (fun p => p.1.id) ∧
      (encounters.map Encounter.roomId).Sublist (rooms.map Room.id) ∧
      (encounters.map Encounter.roomId).Pairwise (fun a b => a < b) ∧
      encounters.map Encounter.id = List.range encounters.length := by
  obtain ⟨s2, new, hloop, hs2, hlen, hroom, hsub, hids, _⟩ :=
    encounterLoop_spec ((biomeCreatures.lookup biome).getD dungeonCreatures)
      (difficultyMultiplier.lookup difficulty) biome (creatures_ne_nil biome) rooms ([], rng)
  have e : s2.1 = new := by rw [hs2]; rfl
  refine ⟨s2.1, s2.2, hloop, hlen, by rw [e]; exact hroom, by rw [e]; exact hsub, ?_, ?_⟩
  · rw [e]
    have hp : (rooms.map Room.id).Pairwise (fun a b => a < b) := by
      rw [hid]; exact List.pairwise_lt_range _
    exact hp.sublist hsub
  · rw [e, hids, List.range_eq_range']
    rfl

/-- Witness for C21: the three rooms with ids 0, 1, 2, from the state 0. -/
theorem generateEncounters_one_per_room_witness :
    threeRoomDungeon.rooms.map Room.id = List.range threeRoomDungeon.rooms.length ∧
    ∃ encounters rng2,
      generateEncounters ⟨0⟩ threeRoomDungeon.rooms "medium" "dungeon" =
        some (encounters, rng2) ∧
      (encounters.map Encounter.roomId).Pairwise (fun a b => a < b) ∧
      encounters.map Encounter.id = List.range encounters.length := by
  refine ⟨by decide, ?_⟩
  obtain ⟨encounters, rng2, h1, _, _, _, h5, h6⟩ :=
    generateEncounters_one_per_room ⟨0⟩ threeRoomDungeon.rooms "medium" "dungeon" (by decide)
  exact ⟨encounters, rng2, h1, h5, h6⟩

/-! ## Challenge ratings -/

theorem drawChallengeRating_bounds {b : ℚ} {bound : Int} (hb : 0 < b)
    (hbound : b * 3 + 1 / 2 ≤ (bound : ℚ) + 1) (rngc : SeededRandom) :
    (drawChallengeRating (some b) rngc).1 = some (max 1 ⌊b * rngc.next.1 * 3 + 1 / 2⌋) ∧
    1 ≤ max 1 ⌊b * rngc.next.1 * 3 + 1 / 2⌋ ∧
    (1 ≤ bound → max 1 ⌊b * rngc.next.1 * 3 + 1 / 2⌋ ≤ bound) := by
  refine ⟨rfl, le_max_left _ _, fun h1 => max_le h1 ?_⟩
  have hlt : ⌊b * rngc.next.1 * 3 + 1 / 2⌋ < bound + 1 := by
    rw [Int.floor_lt]
    push_cast
    have h0 := next_nonneg rngc
    have h2 := next_lt_one rngc
    have : b * rngc.next.1 < b * 1 := mul_lt_mul_of_pos_left h2 hb
    linarith
  omega

/-- C22: for each of the four difficulties, with `baseCR` its multiplier and
`bound` 1, 3, 4 or 6, every draw of the challenge rating is the integer
`max(1, round(baseCR * r * 3))` of its draw `r`, between 1 and `bound`, and
so is the challenge rating of every encounter `generateEncounters` returns. -/
theorem challengeRating_bounds (difficulty : String)
    (hd : difficulty = "easy" ∨ difficulty = "medium" ∨ difficulty = "hard" ∨
      difficulty = "deadly")
    (rng : SeededRandom) (rooms : List Room) (biome : String) :
    ∃ (baseCR : ℚ) (bound : Int),
      difficultyMultiplier.lookup difficulty = some baseCR ∧
      maxChallengeRating.lookup difficulty = some bound ∧
      (∀ rngc : SeededRandom,
        (drawChallengeRating (some baseCR) rngc).1 =
          some (max 1 ⌊baseCR * rngc.next.1 * 3 + 1 / 2⌋) ∧
        1 ≤ max 1 ⌊baseCR * rngc.next.1 * 3 + 1 / 2⌋ ∧
        max 1 ⌊baseCR * rngc.next.1 * 3 + 1 / 2⌋ ≤ bound) ∧
      ∃ encounters rng2,
        generateEncounters rng rooms difficulty biome = some (encounters, rng2) ∧
        ∀ e ∈ encounters, ∃ rngc : SeededRandom,
          e.challengeRating = some (max 1 ⌊baseCR * rngc.next.1 * 3 + 1 / 2⌋) ∧
          1 ≤ max 1 ⌊baseCR * rngc.next.1 * 3 + 1 / 2⌋ ∧
          max 1 ⌊baseCR * rngc.next.1 * 3 + 1 / 2⌋ ≤ bound := by
  have main : ∀ (baseCR : ℚ) (bound : Int),
      difficultyMultiplier.lookup difficulty = some baseCR →
      maxChallengeRating.lookup difficulty = some bound → 0 < baseCR → 1 ≤ bound →
      baseCR * 3 + 1 / 2 ≤ (bound : ℚ) + 1 →
      ∃ (baseCR : ℚ) (bound : Int),
        difficultyMultiplier.lookup difficulty = some baseCR ∧
        maxChallengeRating.lookup difficulty = some bound ∧
        (∀ rngc : SeededRandom,
          (drawChallengeRating (some baseCR) rngc).1 =
            some (max 1 ⌊baseCR * rngc.next.1 * 3 + 1 / 2⌋) ∧
          1 ≤ max 1 ⌊baseCR * rngc.next.1 * 3 + 1 / 2⌋ ∧
          max 1 ⌊baseCR * rngc.next.1 * 3 + 1 / 2⌋ ≤ bound) ∧
        ∃ encounters rng2,
          generateEncounters rng rooms difficulty biome = some (encounters, rng2) ∧
          ∀ e ∈ encounters, ∃ rngc : SeededRandom,
            e.challengeRating = some (max 1 ⌊baseCR * rngc.next.1 * 3 + 1 / 2⌋) ∧
            1 ≤ max 1 ⌊baseCR * rngc.next.1 * 3 + 1 / 2⌋ ∧
            max 1 ⌊baseCR * rngc.next.1 * 3 + 1 / 2⌋ ≤ bound := by
    intro baseCR bound h1 h2 h3 h4 h5
    have hdraw : ∀ rngc : SeededRandom,
        (drawChallengeRating (some baseCR) rngc).1 =
          some (max 1 ⌊baseCR * rngc.next.1 * 3 + 1 / 2⌋) ∧
        1 ≤ max 1 ⌊baseCR * rngc.next.1 * 3 + 1 / 2⌋ ∧
        max 1 ⌊baseCR * rngc.next.1 * 3 + 1 / 2⌋ ≤ bound := fun rngc =>
      ⟨(drawChallengeRating_bounds h3 h5 rngc).1, (drawChallengeRating_bounds h3 h5 rngc).2.1,
        (drawChallengeRating_bounds h3 h5 rngc).2.2 h4⟩
    refine ⟨baseCR, bound, h1, h2, hdraw, ?_⟩
    obtain ⟨s2, new, hloop, hs2, _, _, _, _, hcr⟩ :=
      encounterLoop_spec ((biomeCreatures.lookup biome).getD dungeonCreatures)
        (difficultyMultiplier.lookup difficulty) biome (creatures_ne_nil biome) rooms ([], rng)
    have e : s2.1 = new := by rw [hs2]; rfl
    refine ⟨s2.1, s2.2, hloop, ?_⟩
    intro enc henc
    rw [e] at henc
    obtain ⟨rngc, hr⟩ := hcr enc henc
    rw [h1] at hr
    exact ⟨rngc, by rw [hr]; exact (hdraw rngc).1, (hdraw rngc).2⟩
  rcases hd with h | h | h | h <;> subst h
  · exact main (1 / 2) 1 (by simp [difficultyMultiplier, List.lookup])
      (by simp [maxChallengeRating, List.lookup]) (by norm_num) (by norm_num) (by norm_num)
  · exact main 1 3 (by simp [difficultyMultiplier, List.lookup])
      (by simp [maxChallengeRating, List.lookup]) (by norm_num) (by norm_num) (by norm_num)
  · exact main (3 / 2) 4 (by simp [difficultyMultiplier, List.lookup])
      (by simp [maxChallengeRating, List.lookup]) (by norm_num) (by norm_num) (by norm_num)
  · exact main 2 6 (by simp [difficultyMultiplier, List.lookup])
      (by simp [maxChallengeRating, List.lookup]) (by norm_num) (by norm_num) (by norm_num)

/-- Witness for C22: difficulty easy, where every challenge rating is 1. -/
theorem challengeRating_bounds_witness :
    ("easy" = "easy" ∨ "easy" = "medium" ∨ "easy" = "hard" ∨ "easy" = "deadly") ∧
    ∃ (baseCR : ℚ) (bound : Int),
      difficultyMultiplier.lookup "easy" = some baseCR ∧
      maxChallengeRating.lookup "easy" = some bound ∧
      (∀ rngc : SeededRandom,
        (drawChallengeRating (some baseCR) rngc).1 =
          some (max 1 ⌊baseCR * rngc.next.1 * 3 + 1 / 2⌋) ∧
        1 ≤ max 1 ⌊baseCR * rngc.next.1 * 3 + 1 / 2⌋ ∧
        max 1 ⌊baseCR * rngc.next.1 * 3 + 1 / 2⌋ ≤ bound) ∧
      ∃ encounters rng2,
        generateEncounters ⟨0⟩ threeRoomDungeon.rooms "easy" "dungeon" =
          some (encounters, rng2) ∧
        ∀ e ∈ encounters, ∃ rngc : SeededRandom,
          e.challengeRating = some (max 1 ⌊baseCR * rngc.next.1 * 3 + 1 / 2⌋) ∧
          1 ≤ max 1 ⌊baseCR * rngc.next.1 * 3 + 1 / 2⌋ ∧
          max 1 ⌊baseCR * rngc.next.1 * 3 + 1 / 2⌋ ≤ bound :=
  ⟨Or.inl rfl, challengeRating_bounds "easy" (Or.inl rfl) ⟨0⟩ threeRoomDungeon.rooms "dungeon"⟩

/-! ## How many rooms, how many attempts -/

theorem choice_rng {α : Type} (rng : SeededRandom) (array : List α) :
    (rng.choice array).2 = rng.next.2 := rfl

theorem attempt_rng (rng : SeededRandom) (a b c d e f g h : Int) :
    (getRoomType ((((rng.nextInt a b).2.nextInt c d).2.nextInt e f).2.nextInt g h).2).2 =
      afterDraw^[5] rng := by
  unfold getRoomType
  rw [choice_rng]
  simp only [nextInt_rng, Function.iterate_succ, Function.iterate_zero, Function.comp_apply,
    id_eq, afterDraw]

theorem generateRoomsLoop_count (width height roomCount : Int) :
    ∀ (fuel : Nat) (rooms : List Room) (rng : SeededRandom),
      rooms.length ≤ (generateRoomsLoop width height roomCount fuel rooms rng).1.length ∧
      ((generateRoomsLoop width height roomCount fuel rooms rng).1.length : Int) ≤
        max roomCount rooms.length ∧
      ∃ k, k ≤ fuel ∧
        (generateRoomsLoop width height roomCount fuel rooms rng).2 = afterDraw^[5 * k] rng := by
  intro fuel
  induction fuel with
  | zero =>
    intro rooms rng
    exact ⟨le_refl _, le_max_right _ _, 0, le_refl _, rfl⟩
  | succ fuel ih =>
    intro rooms rng
    unfold generateRoomsLoop
    by_cases hc : (rooms.length : Int) < roomCount
    · rw [if_pos hc]
      simp only []
      rw [attempt_rng]
      split
      · obtain ⟨h1, h2, k, hk, hr⟩ := ih rooms (afterDraw^[5] rng)
        refine ⟨h1, h2, k + 1, by omega, ?_⟩
        rw [hr, ← Function.iterate_add_apply, Nat.mul_succ]
      · obtain ⟨h1, h2, k, hk, hr⟩ := ih
          (rooms ++
            [{ x := (((rng.nextInt 4 8).2.nextInt 4 8).2.nextInt 1
                  (width - (rng.nextInt 4 8).1 - 1)).1,
               y := ((((rng.nextInt 4 8).2.nextInt 4 8).2.nextInt 1
                  (width - (rng.nextInt 4 8).1 - 1)).2.nextInt 1
                  (height - ((rng.nextInt 4 8).2.nextInt 4 8).1 - 1)).1,
               width := (rng.nextInt 4 8).1, height := ((rng.nextInt 4 8).2.nextInt 4 8).1,
               type := (getRoomType
                 ((((rng.nextInt 4 8).2.nextInt 4 8).2.nextInt 1
                  (width - (rng.nextInt 4 8).1 - 1)).2.nextInt 1
                  (height - ((rng.nextInt 4 8).2.nextInt 4 8).1 - 1)).2).1,
               id := rooms.length }]) (afterDraw^[5] rng)
        simp only [List.length_append, List.length_singleton] at h1 h2
        refine ⟨by omega, ?_, k + 1, by omega, ?_⟩
        · refine le_trans h2 (max_le (le_max_left _ _) ?_)
          exact le_trans (by push_cast; omega) (le_max_left _ _)
        · rw [hr, ← Function.iterate_add_apply, Nat.mul_succ]
    · rw [if_neg hc]
      exact ⟨le_refl _, le_max_right _ _, 0, Nat.zero_le _, rfl⟩

theorem generateRoomsLoop_first (width height roomCount : Int) (fuel : Nat)
    (rng : SeededRandom) (h : 1 ≤ roomCount) :
    1 ≤ (generateRoomsLoop width height roomCount (fuel + 1) [] rng).1.length := by
  unfold generateRoomsLoop
  rw [if_pos (by simpa using h)]
  simp only [List.any_nil, Bool.false_eq_true, if_false, List.nil_append]
  exact le_trans (by simp) (generateRoomsLoop_count width height roomCount fuel _ _).1

/-- C11: `generateRooms` makes at most `roomCount * 10` attempts (each attempt
is five draws, and the generator comes back `5 * k` draws further for some
`k ≤ roomCount * 10`), never returns more than `roomCount` rooms, and returns
no room exactly when `roomCount ≤ 0`: for `roomCount ≥ 1` the first candidate
is accepted, so there are between 1 and `roomCount` rooms. -/
theorem generateRooms_count (rng : SeededRandom) (width height roomCount : Int) :
    ((generateRooms rng width height roomCount).1.length : Int) ≤ max roomCount 0 ∧
    ((generateRooms rng width height roomCount).1 = [] ↔ roomCount ≤ 0) ∧
    (1 ≤ roomCount ↔ 1 ≤ (generateRooms rng width height roomCount).1.length) ∧
    ∃ k : Nat, (k : Int) ≤ max (roomCount * 10) 0 ∧
      (generateRooms rng width height roomCount).2 = afterDraw^[5 * k] rng := by
  obtain ⟨_, h2, k, hk, hr⟩ :=
    generateRoomsLoop_count width height roomCount (roomCount * 10).toNat [] rng
  have hempty : (generateRooms rng width height roomCount).1 = [] ↔ roomCount ≤ 0 := by
    constructor
    · intro he
      by_contra hpos
      obtain ⟨f, hf⟩ : ∃ f, (roomCount * 10).toNat = f + 1 :=
        ⟨(roomCount * 10).toNat - 1, by omega⟩
      have h1 := generateRoomsLoop_first width height roomCount f rng (by omega)
      unfold generateRooms at he
      simp only [hf] at he
      rw [he] at h1
      simp at h1
    · intro hle
      have hz : (roomCount * 10).toNat = 0 := by omega
      unfold generateRooms
      simp only [hz]
      rfl
  refine ⟨by simpa using h2, hempty, ?_, k, by omega, hr⟩
  constructor
  · intro h
    have : (generateRooms rng width height roomCount).1 ≠ [] := fun e => by
      have := hempty.mp e; omega
    exact List.length_pos.mpr this
  · intro h
    by_contra hneg
    have := hempty.mpr (by omega)
    rw [this] at h
    simp at h

/-- C12: on a grid at least 10 wide and 10 high every room `generateRooms`
returns has sides of 4 to 8 cells and lies inside the 1-cell border. -/
theorem generateRooms_inside_border (rng : SeededRandom) (width height roomCount : Int)
    (hw : 10 ≤ width) (hh : 10 ≤ height) :
    ∀ room ∈ (generateRooms rng width height roomCount).1,
      4 ≤ room.width ∧ room.width ≤ 8 ∧ 4 ≤ room.height ∧ room.height ≤ 8 ∧
      1 ≤ room.x ∧ room.x + room.width ≤ width - 1 ∧
      1 ≤ room.y ∧ room.y + room.height ≤ height - 1 :=
  fun room hroom => (generateRooms_fits rng roomCount hw hh room hroom).1

/-- Witness for C12: the 20 by 20 grid of the scenario. -/
theorem generateRooms_inside_border_witness :
    (10 : Int) ≤ 20 ∧
    ∀ room ∈ (generateRooms (SeededRandom.create testParams.seed) 20 20 5).1,
      4 ≤ room.width ∧ room.width ≤ 8 ∧ 4 ≤ room.height ∧ room.height ≤ 8 ∧
      1 ≤ room.x ∧ room.x + room.width ≤ 20 - 1 ∧
      1 ≤ room.y ∧ room.y + room.height ≤ 20 - 1 :=
  ⟨by decide, generateRooms_inside_border _ 20 20 5 (by decide) (by decide)⟩

/-! ## Which leg is carved first -/

theorem createCorridor_type (x1 y1 x2 y2 : Int) (grid : Grid)
    (width height corridorWidth : Int) :
    (createCorridor x1 y1 x2 y2 grid width height corridorWidth).1.type =
      if horizontalFirst x1 y1 x2 y2 then "horizontal-first" else "vertical-first" := rfl

/-- C15 (as amended): the corridor is horizontal-first exactly when the x
delta is strictly larger than the y delta, and vertical-first otherwise, ties
included; a horizontal-first corridor visits the row of the start and then the
column of the end, a vertical-first one the column of the start and then the
row of the end. -/
theorem createCorridor_horizontal_iff (x1 y1 x2 y2 : Int) (grid : Grid)
    (width height corridorWidth : Int) :
    ((createCorridor x1 y1 x2 y2 grid width height corridorWidth).1.type = "horizontal-first" ↔
      |x2 - x1| > |y2 - y1|) ∧
    ((createCorridor x1 y1 x2 y2 grid width height corridorWidth).1.type = "vertical-first" ↔
      |x2 - x1| ≤ |y2 - y1|) ∧
    (|x2 - x1| > |y2 - y1| → corridorCells x1 y1 x2 y2 corridorWidth =
      horizontalCells x1 x2 y1 corridorWidth ++ verticalCells y1 y2 x2 corridorWidth) ∧
    (|x2 - x1| ≤ |y2 - y1| → corridorCells x1 y1 x2 y2 corridorWidth =
      verticalCells y1 y2 x1 corridorWidth ++ horizontalCells x1 x2 y2 corridorWidth) := by
  rw [createCorridor_type]
  by_cases h : |x2 - x1| > |y2 - y1|
  · have hf : horizontalFirst x1 y1 x2 y2 = true := by simp [horizontalFirst, h]
    refine ⟨?_, ?_, ?_, ?_⟩
    · simp [hf, h]
    · simp only [hf, if_true]
      constructor
      · intro e; exact absurd e (by decide)
      · intro e; omega
    · intro _; simp [corridorCells, hf]
    · intro e; omega
  · have hf : horizontalFirst x1 y1 x2 y2 = false := by simp [horizontalFirst, h]
    refine ⟨?_, ?_, ?_, ?_⟩
    · simp only [hf, Bool.false_eq_true, if_false]
      constructor
      · intro e; exact absurd e (by decide)
      · intro e; exact absurd e h
    · simp only [hf, Bool.false_eq_true, if_false, true_iff]
      omega
    · intro e; exact absurd e h
    · intro _; simp [corridorCells, hf]

/-- Counterexample to C15 as stated: from (0, 0) to (1, 1) on a 2 by 2 grid of
walls the two deltas are equal, and the corridor is vertical-first: it carves
(0, 0), then (0, 1) down the column of the start, then (1, 1). -/
theorem createCorridor_tie_vertical_first :
    |(1 : Int) - 0| ≥ |(1 : Int) - 0| ∧
    (createCorridor 0 0 1 1 [[0, 0], [0, 0]] 2 2 1).1.type = "vertical-first" ∧
    (createCorridor 0 0 1 1 [[0, 0], [0, 0]] 2 2 1).1.path = [⟨0, 0⟩, ⟨0, 1⟩, ⟨1, 1⟩] ∧
    (createCorridor 0 0 1 1 [[0, 0], [0, 0]] 2 2 1).2 = [[1, 0], [1, 1]] := by
  refine ⟨by decide, by decide, by decide, by decide⟩

/-! ## What carving changes -/

theorem carveCell_carved (width height : Int) (g0 : Grid) (s : Grid × List Point)
    (c : Int × Int) (h : Carved width height g0 s) :
    Carved width height g0 (carveCell width height s c) := by
  obtain ⟨ha, hb, hc, hd⟩ := h
  unfold carveCell
  by_cases hin : inBounds width height c.1 c.2 = true
  · rw [if_pos hin]
    by_cases h0 : getCell s.1 c.1 c.2 = some 0
    · rw [if_pos h0]
      have hg0 : getCell g0 c.1 c.2 = some 0 := by
        rcases ha c.1 c.2 with e | ⟨_, e⟩
        · rw [← e]; exact h0
        · rw [h0] at e; exact absurd e (by decide)
      have hsome : (getCell s.1 c.1 c.2).isSome = true := by rw [h0]; rfl
      have hnot : (⟨c.1, c.2⟩ : Point) ∉ s.2 := by
        intro hm
        exact (hb ⟨c.1, c.2⟩).mp hm (by rw [h0, hg0])
      refine ⟨?_, ?_, ?_, ?_⟩
      · intro x y
        show getCell (setCell s.1 c.1 c.2 1) x y = _ ∨ _
        rw [getCell_setCell]
        by_cases hxy : x = c.1 ∧ y = c.2 ∧ (getCell s.1 c.1 c.2).isSome = true
        · rw [if_pos hxy]
          obtain ⟨rfl, rfl, _⟩ := hxy
          exact Or.inr ⟨hg0, rfl⟩
        · rw [if_neg hxy]
          exact ha x y
      · intro p
        show p ∈ s.2 ++ [⟨c.1, c.2⟩] ↔ getCell (setCell s.1 c.1 c.2 1) p.x p.y ≠ _
        rw [getCell_setCell, List.mem_append, List.mem_singleton]
        by_cases hxy : p.x = c.1 ∧ p.y = c.2 ∧ (getCell s.1 c.1 c.2).isSome = true
        · rw [if_pos hxy]
          have hp : p = ⟨c.1, c.2⟩ := by
            cases p
            simp only [Point.mk.injEq]
            exact ⟨hxy.1, hxy.2.1⟩
          subst hp
          simp only [or_true, true_iff]
          rw [hg0]
          decide
        · rw [if_neg hxy]
          have hp : p ≠ ⟨c.1, c.2⟩ := by
            intro e
            subst e
            exact hxy ⟨rfl, rfl, hsome⟩
          simp only [hp, or_false]
          exact hb p
      · exact List.Nodup.append hc (List.nodup_singleton _) (by
          intro a h1 h2
          rw [List.mem_singleton] at h2
          subst h2
          exact hnot h1)
      · intro p hp
        rcases List.mem_append.mp hp with h1 | h1
        · exact hd p h1
        · rw [List.mem_singleton] at h1
          subst h1
          exact inBounds_iff.mp hin
    · rw [if_neg h0]
      exact ⟨ha, hb, hc, hd⟩
  · rw [if_neg hin]
    exact ⟨ha, hb, hc, hd⟩

theorem carve_carved (width height : Int) (g0 : Grid) (cells : List (Int × Int)) :
    ∀ s : Grid × List Point, Carved width height g0 s →
      Carved width height g0 (cells.foldl (carveCell width height) s) := by
  induction cells with
  | nil => intro s h; exact h
  | cons c cells ih =>
    intro s h
    exact ih _ (carveCell_carved width height g0 s c h)

theorem carved_start (width height : Int) (g0 : Grid) : Carved width height g0 (g0, []) :=
  ⟨fun _ _ => Or.inl rfl, fun p => by simp, List.nodup_nil, fun p hp => by simp at hp⟩

theorem createCorridor_path (x1 y1 x2 y2 : Int) (grid : Grid)
    (width height corridorWidth : Int) :
    (createCorridor x1 y1 x2 y2 grid width height corridorWidth).1.path =
      ((corridorCells x1 y1 x2 y2 corridorWidth).foldl (carveCell width height) (grid, [])).2 :=
  rfl

/-- C16: on a grid of `width` by `height` cells `createCorridor` changes only
cells that were wall, and changes them to floor; a floor, door or room-centre
cell keeps its value; the returned path lists exactly the cells that changed,
each once, all inside `[0, width) × [0, height)`. -/
theorem createCorridor_only_walls_to_floor (x1 y1 x2 y2 : Int) (grid : Grid)
    (width height corridorWidth : Int) (_hok : GridOK width height grid) :
    (∀ x y, getCell (createCorridor x1 y1 x2 y2 grid width height corridorWidth).2 x y ≠
        getCell grid x y →
      getCell grid x y = some 0 ∧
      getCell (createCorridor x1 y1 x2 y2 grid width height corridorWidth).2 x y = some 1) ∧
    (∀ x y v, getCell grid x y = some v → v ≠ 0 →
      getCell (createCorridor x1 y1 x2 y2 grid width height corridorWidth).2 x y = some v) ∧
    (∀ p : Point, p ∈ (createCorridor x1 y1 x2 y2 grid width height corridorWidth).1.path ↔
      (getCell grid p.x p.y = some 0 ∧
       getCell (createCorridor x1 y1 x2 y2 grid width height corridorWidth).2 p.x p.y =
         some 1)) ∧
    (createCorridor x1 y1 x2 y2 grid width height corridorWidth).1.path.Nodup ∧
    (∀ p ∈ (createCorridor x1 y1 x2 y2 grid width height corridorWidth).1.path,
      0 ≤ p.x ∧ p.x < width ∧ 0 ≤ p.y ∧ p.y < height) := by
  rw [createCorridor_grid, createCorridor_path]
  obtain ⟨ha, hb, hc, hd⟩ := carve_carved width height grid
    (corridorCells x1 y1 x2 y2 corridorWidth) (grid, []) (carved_start width height grid)
  refine ⟨?_, ?_, ?_, hc, hd⟩
  · intro x y hne
    rcases ha x y with e | e
    · exact absurd e hne
    · exact e
  · intro x y v hv hv0
    rcases ha x y with e | ⟨e, _⟩
    · rw [e, hv]
    · rw [hv] at e
      exact absurd (Option.some.inj e) hv0
  · intro p
    rw [hb p]
    constructor
    · intro hne
      rcases ha p.x p.y with e | e
      · exact absurd e hne
      · exact e
    · rintro ⟨e1, e2⟩
      rw [e1, e2]
      decide

/-- Witness for C16: a corridor of width 2 on the 20 by 20 grid of walls. -/
theorem createCorridor_only_walls_to_floor_witness :
    GridOK 20 20 wallGrid ∧
    (∀ x y, getCell (createCorridor 3 4 12 9 wallGrid 20 20 2).2 x y ≠ getCell wallGrid x y →
      getCell wallGrid x y = some 0 ∧
      getCell (createCorridor 3 4 12 9 wallGrid 20 20 2).2 x y = some 1) ∧
    (∀ x y v, getCell wallGrid x y = some v → v ≠ 0 →
      getCell (createCorridor 3 4 12 9 wallGrid 20 20 2).2 x y = some v) ∧
    (∀ p : Point, p ∈ (createCorridor 3 4 12 9 wallGrid 20 20 2).1.path ↔
      (getCell wallGrid p.x p.y = some 0 ∧
       getCell (createCorridor 3 4 12 9 wallGrid 20 20 2).2 p.x p.y = some 1)) ∧
    (createCorridor 3 4 12 9 wallGrid 20 20 2).1.path.Nodup ∧
    (∀ p ∈ (createCorridor 3 4 12 9 wallGrid 20 20 2).1.path,
      0 ≤ p.x ∧ p.x < 20 ∧ 0 ≤ p.y ∧ p.y < 20) :=
  ⟨gridOK_replicate 20 20,
    createCorridor_only_walls_to_floor 3 4 12 9 wallGrid 20 20 2 (gridOK_replicate 20 20)⟩

/-! ## Carving twice -/

theorem carveCell_no_wall (width height : Int) (s : Grid × List Point) (c : Int × Int) :
    (∀ x y, getCell s.1 x y ≠ some 0 → getCell (carveCell width height s c).1 x y ≠ some 0) ∧
    (inBounds width height c.1 c.2 = true →
      getCell (carveCell width height s c).1 c.1 c.2 ≠ some 0) := by
  unfold carveCell
  by_cases hin : inBounds width height c.1 c.2 = true
  · rw [if_pos hin]
    by_cases h0 : getCell s.1 c.1 c.2 = some 0
    · rw [if_pos h0]
      have hsome : (getCell s.1 c.1 c.2).isSome = true := by rw [h0]; rfl
      constructor
      · intro x y hxy
        show getCell (setCell s.1 c.1 c.2 1) x y ≠ _
        rw [getCell_setCell]
        split
        · decide
        · exact hxy
      · intro _
        show getCell (setCell s.1 c.1 c.2 1) c.1 c.2 ≠ _
        rw [getCell_setCell, if_pos ⟨rfl, rfl, hsome⟩]
        decide
    · rw [if_neg h0]
      exact ⟨fun _ _ h => h, fun _ => h0⟩
  · rw [if_neg hin]
    exact ⟨fun _ _ h => h, fun h => absurd h hin⟩

theorem carve_no_wall (width height : Int) (cells : List (Int × Int)) :
    ∀ s : Grid × List Point,
      (∀ x y, getCell s.1 x y ≠ some 0 →
        getCell (cells.foldl (carveCell width height) s).1 x y ≠ some 0) ∧
      (∀ c ∈ cells, inBounds width height c.1 c.2 = true →
        getCell (cells.foldl (carveCell width height) s).1 c.1 c.2 ≠ some 0) := by
  induction cells with
  | nil => intro s; exact ⟨fun _ _ h => h, by simp⟩
  | cons c cells ih =>
    intro s
    obtain ⟨a1, a2⟩ := carveCell_no_wall width height s c
    obtain ⟨b1, b2⟩ := ih (carveCell width height s c)
    refine ⟨fun x y h => b1 x y (a1 x y h), ?_⟩
    intro d hd hin
    rcases List.mem_cons.mp hd with e | e
    · subst e
      exact b1 _ _ (a2 hin)
    · exact b2 d e hin

theorem carve_fixed (width height : Int) (cells : List (Int × Int)) :
    ∀ s : Grid × List Point,
      (∀ c ∈ cells, inBounds width height c.1 c.2 = true → getCell s.1 c.1 c.2 ≠ some 0) →
      cells.foldl (carveCell width height) s = s := by
  induction cells with
  | nil => intro s _; rfl
  | cons c cells ih =>
    intro s h
    have e : carveCell width height s c = s := by
      unfold carveCell
      by_cases hin : inBounds width height c.1 c.2 = true
      · rw [if_pos hin, if_neg (h c (List.mem_cons_self _ _) hin)]
      · rw [if_neg hin]
    rw [List.foldl_cons, e]
    exact ih s (fun d hd => h d (List.mem_cons_of_mem _ hd))

/-- C17: carving is idempotent: on a grid of `width` by `height` cells a
second call of `createCorridor` with the same arguments on the grid the first
call produced leaves that grid unchanged and returns an empty path. -/
theorem createCorridor_idempotent (x1 y1 x2 y2 : Int) (grid : Grid)
    (width height corridorWidth : Int) (_hok : GridOK width height grid) :
    (createCorridor x1 y1 x2 y2
      (createCorridor x1 y1 x2 y2 grid width height corridorWidth).2
      width height corridorWidth).2 =
      (createCorridor x1 y1 x2 y2 grid width height corridorWidth).2 ∧
    (createCorridor x1 y1 x2 y2
      (createCorridor x1 y1 x2 y2 grid width height corridorWidth).2
      width height corridorWidth).1.path = [] := by
  have h := carve_fixed width height (corridorCells x1 y1 x2 y2 corridorWidth)
    ((createCorridor x1 y1 x2 y2 grid width height corridorWidth).2, [])
    (by
      rw [createCorridor_grid]
      exact (carve_no_wall width height _ (grid, [])).2)
  rw [createCorridor_grid x1 y1 x2 y2 (createCorridor x1 y1 x2 y2 grid width height
    corridorWidth).2, createCorridor_path x1 y1 x2 y2 (createCorridor x1 y1 x2 y2 grid width
    height corridorWidth).2, h]
  exact ⟨rfl, rfl⟩

/-- Witness for C17: a corridor of width 3 on the 20 by 20 grid of walls. -/
theorem createCorridor_idempotent_witness :
    GridOK 20 20 wallGrid ∧
    (createCorridor 3 4 12 9 (createCorridor 3 4 12 9 wallGrid 20 20 3).2 20 20 3).2 =
      (createCorridor 3 4 12 9 wallGrid 20 20 3).2 ∧
    (createCorridor 3 4 12 9 (createCorridor 3 4 12 9 wallGrid 20 20 3).2 20 20 3).1.path =
      [] :=
  ⟨gridOK_replicate 20 20,
    createCorridor_idempotent 3 4 12 9 wallGrid 20 20 3 (gridOK_replicate 20 20)⟩

/-! ## The spanning tree is built greedily -/

theorem foldl_setAdd_of_nodup (l : List Nat) :
    ∀ acc : List Nat, l.Nodup → (∀ x ∈ l, x ∉ acc) → l.foldl setAdd acc = acc ++ l := by
  induction l with
  | nil => intro acc _ _; simp
  | cons a l ih =>
    intro acc hnd hdis
    rw [List.nodup_cons] at hnd
    have ha : a ∉ acc := hdis a (List.mem_cons_self _ _)
    have e : setAdd acc a = acc ++ [a] := by
      unfold setAdd
      rw [if_neg ha]
    rw [List.foldl_cons, e, ih (acc ++ [a]) hnd.2]
    · simp
    · intro x hx hm
      rcases List.mem_append.mp hm with h | h
      · exact hdis x (List.mem_cons_of_mem _ hx) h
      · rw [List.mem_singleton] at h
        subst h
        exact hnd.1 hx

theorem setOfList_of_nodup {l : List Nat} (h : l.Nodup) : setOfList l = l := by
  unfold setOfList
  rw [foldl_setAdd_of_nodup l [] h (fun _ _ => List.not_mem_nil _)]
  rfl

theorem scanPairs_append (rooms : List Room) (l1 l2 : List (Nat × Nat)) :
    ∀ best, scanPairs rooms (l1 ++ l2) best =
      (scanPairs rooms l1 best).bind (scanPairs rooms l2) := by
  induction l1 with
  | nil => intro best; rfl
  | cons p l1 ih =>
    intro best
    rw [List.cons_append]
    simp only [scanPairs]
    cases scanPair rooms best p with
    | none => rfl
    | some b => exact ih b

theorem roomDistance_eq {rooms : List Room} {i j : Nat} {room1 room2 : Room}
    (h1 : rooms.get? i = some room1) (h2 : rooms.get? j = some room2) {x1 y1 x2 y2 : Int}
    (hx1 : room1.centerX = some x1) (hy1 : room1.centerY = some y1)
    (hx2 : room2.centerX = some x2) (hy2 : room2.centerY = some y2) :
    centerDistance room1 room2 = some (|x1 - x2| + |y1 - y2|) ∧
    roomDistance rooms i j = |x1 - x2| + |y1 - y2| := by
  have e : centerDistance room1 room2 = some (|x1 - x2| + |y1 - y2|) := by
    unfold centerDistance
    rw [hx1, hy1, hx2, hy2]
  refine ⟨e, ?_⟩
  unfold roomDistance
  rw [h1, h2]
  simp only [e, Option.getD_some]

theorem scanPair_eq {rooms : List Room}
    (hcen : ∀ room ∈ rooms, ∃ cx cy, room.centerX = some cx ∧ room.centerY = some cy)
    (best : Option (Connection × Int)) (p : Nat × Nat)
    (h1 : p.1 < rooms.length) (h2 : p.2 < rooms.length) :
    scanPair rooms best p = some (
      match best with
      | some b =>
        if roomDistance rooms p.1 p.2 < b.2 then
          some (⟨p.1, p.2⟩, roomDistance rooms p.1 p.2)
        else some b
      | none => some (⟨p.1, p.2⟩, roomDistance rooms p.1 p.2)) := by
  have e1 : rooms.get? p.1 = some rooms[p.1] := by simp [h1]
  have e2 : rooms.get? p.2 = some rooms[p.2] := by simp [h2]
  obtain ⟨x1, y1, hx1, hy1⟩ := hcen _ (List.getElem_mem h1)
  obtain ⟨x2, y2, hx2, hy2⟩ := hcen _ (List.getElem_mem h2)
  obtain ⟨ec, ed⟩ := roomDistance_eq e1 e2 hx1 hy1 hx2 hy2
  unfold scanPair
  rw [e1, e2]
  simp only [ec, ed]
  cases best with
  | none => rfl
  | some b =>
    by_cases hlt : |x1 - x2| + |y1 - y2| < b.2
    · simp only [hlt, if_true]
    · simp only [hlt, if_false]

/-- The scan over a non-empty list of pairs returns the first pair of least
distance. -/
theorem scanPairs_first_min {rooms : List Room}
    (hcen : ∀ room ∈ rooms, ∃ cx cy, room.centerX = some cx ∧ room.centerY = some cy)
    (pairs : List (Nat × Nat)) :
    (∀ p ∈ pairs, p.1 < rooms.length ∧ p.2 < rooms.length) → pairs ≠ [] →
    ∃ before p after, pairs = before ++ p :: after ∧
      scanPairs rooms pairs none = some (some (⟨p.1, p.2⟩, roomDistance rooms p.1 p.2)) ∧
      (∀ q ∈ before, roomDistance rooms p.1 p.2 < roomDistance rooms q.1 q.2) ∧
      (∀ q ∈ after, roomDistance rooms p.1 p.2 ≤ roomDistance rooms q.1 q.2) := by
  induction pairs using List.reverseRecOn with
  | nil => intro _ h; exact absurd rfl h
  | append_singleton l a ih =>
    intro hv _
    have ha := hv a (List.mem_append_right _ (List.mem_singleton.mpr rfl))
    rw [scanPairs_append]
    by_cases hl : l = []
    · subst hl
      refine ⟨[], a, [], rfl, ?_, by simp, by simp⟩
      show (some none : Option (Option (Connection × Int))).bind (scanPairs rooms [a]) = _
      rw [Option.some_bind]
      unfold scanPairs
      rw [scanPair_eq hcen none a ha.1 ha.2]
      rfl
    · obtain ⟨before, p, after, e, hs, hb, haf⟩ :=
        ih (fun q hq => hv q (List.mem_append_left _ hq)) hl
      rw [hs, Option.some_bind]
      unfold scanPairs
      rw [scanPair_eq hcen _ a ha.1 ha.2]
      simp only []
      by_cases hlt : roomDistance rooms a.1 a.2 < roomDistance rooms p.1 p.2
      · rw [if_pos hlt]
        refine ⟨l, a, [], rfl, rfl, ?_, by simp⟩
        intro q hq
        rw [e] at hq
        rcases List.mem_append.mp hq with h | h
        · exact lt_trans hlt (hb q h)
        · rcases List.mem_cons.mp h with h | h
          · subst h; exact hlt
          · exact lt_of_lt_of_le hlt (haf q h)
      · rw [if_neg hlt]
        refine ⟨before, p, after ++ [a], by rw [e]; simp, rfl, hb, ?_⟩
        intro q hq
        rcases List.mem_append.mp hq with h | h
        · exact haf q h
        · rw [List.mem_singleton] at h
          subst h
          exact not_lt.mp hlt

theorem connectedAfter_append (pre : List Connection) (c : Connection) :
    connectedAfter (pre ++ [c]) = connectedAfter pre ++ [c.target] := by
  simp [connectedAfter]

theorem mem_unconnectedAfter {n : Nat} {pre : List Connection} {i : Nat} :
    i ∈ unconnectedAfter n pre ↔ (1 ≤ i ∧ i < n) ∧ i ∉ connectedAfter pre := by
  unfold unconnectedAfter
  rw [List.mem_filter, List.mem_range']
  simp only [decide_eq_true_eq]
  constructor
  · rintro ⟨⟨k, hk, rfl⟩, h2⟩
    exact ⟨⟨by omega, by omega⟩, h2⟩
  · rintro ⟨⟨h1, h2⟩, h3⟩
    exact ⟨⟨i - 1, by omega, by omega⟩, h3⟩

theorem unconnectedAfter_append (n : Nat) (pre : List Connection) (c : Connection) :
    unconnectedAfter n (pre ++ [c]) = (unconnectedAfter n pre).erase c.target := by
  have hnd : (unconnectedAfter n pre).Nodup :=
    List.Nodup.filter _ (List.nodup_range' 1 (n - 1))
  rw [List.Nodup.erase_eq_filter hnd]
  unfold unconnectedAfter
  rw [List.filter_filter, connectedAfter_append]
  apply List.filter_congr
  intro x _
  simp only [List.mem_append, List.mem_singleton, not_or, bne_iff_ne, ne_eq,
    Bool.decide_and, Bool.and_eq_true, decide_eq_true_eq, Bool.decide_eq_true]
  by_cases h1 : x = c.target <;> by_cases h2 : x ∈ connectedAfter pre <;> simp [h1, h2]

/-- The loop of `createMinimumSpanningTree` on rooms with integer centres,
from the state reached after the connections `chosen`: it returns, draws
nothing, adds one connection per unconnected id, and every connection it adds
is the first shortest edge across the cut at the time it is chosen. -/
theorem mstLoop_greedy {rooms : List Room}
    (hcen : ∀ room ∈ rooms, ∃ cx cy, room.centerX = some cx ∧ room.centerY = some cy) :
    ∀ (fuel : Nat) (chosen : List Connection) (rng : SeededRandom),
      (unconnectedAfter rooms.length chosen).length ≤ fuel →
      (∀ s ∈ connectedAfter chosen, s < rooms.length) →
      ∃ added, mstLoop rooms fuel (connectedAfter chosen)
          (unconnectedAfter rooms.length chosen) chosen rng = some (chosen ++ added, rng) ∧
        added.length = (unconnectedAfter rooms.length chosen).length ∧
        ∀ pre c post, added = pre ++ c :: post → GreedyAt rooms (chosen ++ pre) c := by
  intro fuel
  induction fuel with
  | zero =>
    intro chosen rng hlen _
    have hnil : unconnectedAfter rooms.length chosen = [] := List.length_eq_zero.mp (by omega)
    refine ⟨[], ?_, by rw [hnil]; rfl, ?_⟩
    · rw [List.append_nil]; rfl
    · intro pre c post h
      exact absurd h (by simp)
  | succ fuel ih =>
    intro chosen rng hlen hS
    cases hU : unconnectedAfter rooms.length chosen with
    | nil =>
      refine ⟨[], ?_, rfl, ?_⟩
      · rw [List.append_nil]; rfl
      · intro pre c post h
        exact absurd h (by simp)
    | cons first rest =>
      have hpairs : ∀ p ∈ allPairs (connectedAfter chosen) (first :: rest),
          p.1 < rooms.length ∧ p.2 < rooms.length := by
        intro p hp
        obtain ⟨h1, h2⟩ := mem_allPairs.mp hp
        rw [← hU] at h2
        exact ⟨hS _ h1, (mem_unconnectedAfter.mp h2).1.2⟩
      have hne : allPairs (connectedAfter chosen) (first :: rest) ≠ [] := by
        intro h
        have : ((0 : Nat), first) ∈ allPairs (connectedAfter chosen) (first :: rest) :=
          mem_allPairs.mpr ⟨List.mem_cons_self _ _, List.mem_cons_self _ _⟩
        rw [h] at this
        simp at this
      obtain ⟨before, p, after, e, hs, hb, haf⟩ := scanPairs_first_min hcen _ hpairs hne
      have hp : p ∈ allPairs (connectedAfter chosen) (first :: rest) := by
        rw [e]; simp
      obtain ⟨hp1, hp2⟩ := mem_allPairs.mp hp
      rw [← hU] at hp2
      have hnot : p.2 ∉ connectedAfter chosen := (mem_unconnectedAfter.mp hp2).2
      have eS : setAdd (connectedAfter chosen) p.2 = connectedAfter (chosen ++ [⟨p.1, p.2⟩]) := by
        rw [connectedAfter_append]
        unfold setAdd
        rw [if_neg hnot]
      have eU : (first :: rest).erase p.2 =
          unconnectedAfter rooms.length (chosen ++ [⟨p.1, p.2⟩]) := by
        rw [unconnectedAfter_append, hU]
      have hlen2 : (unconnectedAfter rooms.length (chosen ++ [⟨p.1, p.2⟩])).length ≤ fuel := by
        rw [unconnectedAfter_append, List.length_erase_of_mem hp2]
        omega
      obtain ⟨added, hrun, hlenA, hgreedy⟩ := ih (chosen ++ [⟨p.1, p.2⟩]) rng hlen2 (by
        intro s hs2
        rw [connectedAfter_append] at hs2
        rcases List.mem_append.mp hs2 with h | h
        · exact hS s h
        · rw [List.mem_singleton] at h
          subst h
          exact (mem_unconnectedAfter.mp hp2).1.2)
      refine ⟨⟨p.1, p.2⟩ :: added, ?_, ?_, ?_⟩
      · unfold mstLoop
        simp only [hs]
        rw [eS, eU, hrun]
        simp
      · rw [List.length_cons, hlenA, unconnectedAfter_append, List.length_erase_of_mem hp2,
          hU]
        simp
      · intro pre c post h
        cases pre with
        | nil =>
          rw [List.nil_append, List.cons.injEq] at h
          rw [← h.1, List.append_nil]
          exact ⟨before, after, by rw [hU]; exact e, hb, haf⟩
        | cons d pre =>
          rw [List.cons_append, List.cons.injEq] at h
          have := hgreedy pre c post h.2
          rw [← h.1]
          rw [List.append_assoc] at this
          exact this

theorem range_eq_range'_one (n : Nat) (h : 0 < n) :
    (List.range n).drop 1 = List.range' 1 (n - 1) := by
  rw [List.range_eq_range']
  obtain ⟨m, rfl⟩ : ∃ m, n = m + 1 := ⟨n - 1, by omega⟩
  simp [List.range'_succ]

/-- On rooms whose ids are their indices and whose centres are integers
`createMinimumSpanningTree` returns `n - 1` connections without drawing, each
the first shortest edge across the cut at the time it is chosen. -/
theorem createMinimumSpanningTree_greedy {rooms : List Room} (rng : SeededRandom)
    (hid : rooms.map Room.id = List.range rooms.length) (hpos : 0 < rooms.length)
    (hcen : ∀ room ∈ rooms, ∃ cx cy, room.centerX = some cx ∧ room.centerY = some cy) :
    ∃ connections, createMinimumSpanningTree rooms rng = some (connections, rng) ∧
      connections.length = rooms.length - 1 ∧
      ∀ pre c post, connections = pre ++ c :: post → GreedyAt rooms pre c := by
  have hU : setOfList ((rooms.drop 1).map (fun room => room.id)) =
      unconnectedAfter rooms.length [] := by
    have e : (rooms.drop 1).map (fun room => room.id) = List.range' 1 (rooms.length - 1) := by
      rw [← range_eq_range'_one _ hpos, ← hid, List.map_drop]
    rw [e, setOfList_of_nodup (List.nodup_range' 1 _)]
    unfold unconnectedAfter
    symm
    rw [List.filter_eq_self]
    intro a ha
    rw [List.mem_range'] at ha
    obtain ⟨k, _, rfl⟩ := ha
    simp [connectedAfter]
  have hS : setOfList [0] = connectedAfter [] := rfl
  obtain ⟨added, hrun, hlen, hgreedy⟩ := mstLoop_greedy hcen
    (unconnectedAfter rooms.length []).length [] rng (le_refl _) (by
      intro s hs
      simp [connectedAfter] at hs
      omega)
  refine ⟨added, ?_, ?_, ?_⟩
  · unfold createMinimumSpanningTree
    simp only [hU, hS]
    rw [hrun]
    simp
  · rw [hlen]
    unfold unconnectedAfter
    rw [List.filter_eq_self.mpr, List.length_range']
    intro a ha
    rw [List.mem_range'] at ha
    obtain ⟨k, _, rfl⟩ := ha
    simp [connectedAfter]
  · intro pre c post h
    have := hgreedy pre c post h
    rw [List.nil_append] at this
    exact this

/-! ## Consequences of the greedy choice -/

theorem GreedyAt.mem {rooms : List Room} {pre : List Connection} {c : Connection}
    (h : GreedyAt rooms pre c) :
    c.source ∈ connectedAfter pre ∧ c.target ∈ unconnectedAfter rooms.length pre ∧
    ∀ a ∈ connectedAfter pre, ∀ b ∈ unconnectedAfter rooms.length pre,
      roomDistance rooms c.source c.target ≤ roomDistance rooms a b := by
  obtain ⟨before, after, e, hb, ha⟩ := h
  have hm : (c.source, c.target) ∈
      allPairs (connectedAfter pre) (unconnectedAfter rooms.length pre) := by
    rw [e]; simp
  refine ⟨(mem_allPairs.mp hm).1, (mem_allPairs.mp hm).2, ?_⟩
  intro a ha1 b hb1
  have hab : (a, b) ∈ allPairs (connectedAfter pre) (unconnectedAfter rooms.length pre) :=
    mem_allPairs.mpr ⟨ha1, hb1⟩
  rw [e] at hab
  rcases List.mem_append.mp hab with h1 | h1
  · exact le_of_lt (hb _ h1)
  · rcases List.mem_cons.mp h1 with h2 | h2
    · rw [Prod.mk.injEq] at h2
      rw [h2.1, h2.2]
    · exact ha _ h2

theorem Linked.mono {E1 E2 : List Connection} (h : ∀ c ∈ E1, c ∈ E2) {a b : Nat}
    (hl : Linked E1 a b) : Linked E2 a b := by
  obtain ⟨c, hc, hj⟩ := hl
  exact ⟨c, h c hc, hj⟩

theorem Linked.swap {E : List Connection} {a b : Nat} (hl : Linked E a b) : Linked E b a := by
  obtain ⟨c, hc, hj⟩ := hl
  exact ⟨c, hc, hj.symm⟩

theorem linked_path_mono {E1 E2 : List Connection} (h : ∀ c ∈ E1, c ∈ E2) {a b : Nat}
    (hp : Relation.ReflTransGen (Linked E1) a b) : Relation.ReflTransGen (Linked E2) a b :=
  Relation.ReflTransGen.mono (fun _ _ hl => Linked.mono h hl) hp

theorem linked_path_swap {E : List Connection} {a b : Nat}
    (hp : Relation.ReflTransGen (Linked E) a b) : Relation.ReflTransGen (Linked E) b a :=
  Relation.ReflTransGen.symmetric (fun _ _ hl => Linked.swap hl) hp

/-- The structure of every prefix of a greedily built list: the connected set
has no repetition, holds ids below `n`, contains both ends of every chosen
connection, and each of its ids is linked to room 0. -/
theorem greedy_prefix {rooms : List Room} {connections : List Connection}
    (hpos : 0 < rooms.length)
    (hg : ∀ pre c post, connections = pre ++ c :: post → GreedyAt rooms pre c) :
    ∀ pre post, connections = pre ++ post →
      (connectedAfter pre).Nodup ∧
      (∀ a ∈ connectedAfter pre, a < rooms.length) ∧
      (∀ c ∈ pre, c.source ∈ connectedAfter pre ∧ c.target ∈ connectedAfter pre) ∧
      (∀ a ∈ connectedAfter pre, Relation.ReflTransGen (Linked pre) 0 a) := by
  intro pre
  induction pre using List.reverseRecOn with
  | nil =>
    intro post _
    refine ⟨by simp [connectedAfter], ?_, by simp, ?_⟩
    · intro a ha
      simp [connectedAfter] at ha
      omega
    · intro a ha
      simp [connectedAfter] at ha
      subst ha
      exact Relation.ReflTransGen.refl
  | append_singleton pre c ih =>
    intro post e
    rw [List.append_assoc, List.singleton_append] at e
    obtain ⟨h1, h2, h3, h4⟩ := ih (c :: post) e
    obtain ⟨g1, g2, _⟩ := (hg pre c post e).mem
    obtain ⟨⟨_, g3⟩, g4⟩ := mem_unconnectedAfter.mp g2
    rw [connectedAfter_append]
    refine ⟨?_, ?_, ?_, ?_⟩
    · exact List.Nodup.append h1 (List.nodup_singleton _) (by
        intro a ha1 ha2
        rw [List.mem_singleton] at ha2
        subst ha2
        exact g4 ha1)
    · intro a ha
      rcases List.mem_append.mp ha with h | h
      · exact h2 a h
      · rw [List.mem_singleton] at h
        subst h
        exact g3
    · intro d hd
      rcases List.mem_append.mp hd with h | h
      · exact ⟨List.mem_append_left _ (h3 d h).1, List.mem_append_left _ (h3 d h).2⟩
      · rw [List.mem_singleton] at h
        subst h
        exact ⟨List.mem_append_left _ g1,
          List.mem_append_right _ (List.mem_singleton.mpr rfl)⟩
    · intro a ha
      rcases List.mem_append.mp ha with h | h
      · exact linked_path_mono (fun d hd => List.mem_append_left _ hd) (h4 a h)
      · rw [List.mem_singleton] at h
        subst h
        exact Relation.ReflTransGen.tail
          (linked_path_mono (fun d hd => List.mem_append_left _ hd) (h4 _ g1))
          ⟨c, List.mem_append_right _ (List.mem_singleton.mpr rfl), Or.inl ⟨rfl, rfl⟩⟩

theorem roomDistance_comm (rooms : List Room) (a b : Nat) :
    roomDistance rooms a b = roomDistance rooms b a := by
  unfold roomDistance
  cases rooms.get? a with
  | none => cases rooms.get? b <;> rfl
  | some r1 =>
    cases rooms.get? b with
    | none => rfl
    | some r2 =>
      simp only []
      unfold centerDistance
      cases r1.centerX <;> cases r2.centerX <;> cases r1.centerY <;> cases r2.centerY <;>
        simp [abs_sub_comm]

theorem roomDistance_nonneg (rooms : List Room) (a b : Nat) : 0 ≤ roomDistance rooms a b := by
  unfold roomDistance
  cases rooms.get? a with
  | none => cases rooms.get? b <;> simp
  | some r1 =>
    cases rooms.get? b with
    | none => simp
    | some r2 =>
      simp only []
      unfold centerDistance
      cases r1.centerX <;> cases r2.centerX <;> cases r1.centerY <;> cases r2.centerY <;>
        simp
      positivity

theorem totalLength_erase (rooms : List Room) {T : List Connection} {c : Connection}
    (h : c ∈ T) :
    totalLength rooms T = roomDistance rooms c.source c.target + totalLength rooms (T.erase c) := by
  unfold totalLength
  rw [List.Perm.sum_eq (List.Perm.map _ (List.perm_cons_erase h))]
  simp

/-- Along a path that ends outside `S`, either some connection leaves `S` and
the rest of the path stays outside `S`, or the whole path stays outside. -/
theorem last_crossing (T : List Connection) (S : List Nat) {x v : Nat}
    (h : Relation.ReflTransGen (Linked T) x v) (hv : v ∉ S) :
    (∃ c ∈ T, ∃ a b, a ∈ S ∧ b ∉ S ∧
      ((c.source = a ∧ c.target = b) ∨ (c.source = b ∧ c.target = a)) ∧
      Relation.ReflTransGen (fun p q => Linked T p q ∧ p ∉ S ∧ q ∉ S) b v) ∨
    (x ∉ S ∧ Relation.ReflTransGen (fun p q => Linked T p q ∧ p ∉ S ∧ q ∉ S) x v) := by
  induction h using Relation.ReflTransGen.head_induction_on with
  | refl => exact Or.inr ⟨hv, Relation.ReflTransGen.refl⟩
  | @head x y hxy _ ih =>
    rcases ih with h1 | ⟨h1, h2⟩
    · exact Or.inl h1
    · by_cases hx : x ∈ S
      · obtain ⟨c, hc, hj⟩ := hxy
        exact Or.inl ⟨c, hc, x, y, hx, h1, hj, h2⟩
      · exact Or.inr ⟨hx, Relation.ReflTransGen.head ⟨hxy, hx, h1⟩ h2⟩

theorem outside_path_erase {T : List Connection} {S : List Nat} {c : Connection}
    (hc : c.source ∈ S ∨ c.target ∈ S) {b v : Nat}
    (h : Relation.ReflTransGen (fun p q => Linked T p q ∧ p ∉ S ∧ q ∉ S) b v) :
    Relation.ReflTransGen (Linked (T.erase c)) b v := by
  refine Relation.ReflTransGen.mono ?_ h
  rintro p q ⟨⟨d, hd, hj⟩, hp, hq⟩
  have hne : d ≠ c := by
    intro e
    subst e
    rcases hj with ⟨e1, e2⟩ | ⟨e1, e2⟩
    · rw [e1, e2] at hc
      exact hc.elim hp hq
    · rw [e1, e2] at hc
      exact hc.elim hq hp
  exact ⟨d, (List.mem_erase_of_ne hne).mpr hd, hj⟩

/-- The exchange step: a spanning edge list that contains the chosen
connections `F` can be changed, without growing longer, into one that also
contains a shortest edge from the connected set `S` to the rest. -/
theorem exchange {rooms : List Room} {S : List Nat} {F T : List Connection} {u v : Nat}
    (hT : Spanning rooms.length T) (hFT : ∀ c ∈ F, c ∈ T)
    (hFS : ∀ c ∈ F, c.source ∈ S ∧ c.target ∈ S)
    (hconn : ∀ a ∈ S, Relation.ReflTransGen (Linked F) 0 a)
    (hu : u ∈ S) (hv : v ∉ S) (hSn : ∀ a ∈ S, a < rooms.length) (hvn : v < rooms.length)
    (hmin : ∀ a ∈ S, ∀ b, b ∉ S → b < rooms.length →
      roomDistance rooms u v ≤ roomDistance rooms a b) :
    ∃ T1, Spanning rooms.length T1 ∧ (∀ c ∈ F ++ [⟨u, v⟩], c ∈ T1) ∧
      totalLength rooms T1 ≤ totalLength rooms T := by
  have huv : Relation.ReflTransGen (Linked T) u v :=
    (linked_path_swap (hT.2 u (hSn u hu))).trans (hT.2 v hvn)
  rcases last_crossing T S huv hv with ⟨c, hc, a, b, ha, hb, hj, hout⟩ | ⟨h, _⟩
  · have hcS : c.source ∈ S ∨ c.target ∈ S := by
      rcases hj with ⟨e1, e2⟩ | ⟨e1, e2⟩
      · left; rw [e1]; exact ha
      · right; rw [e2]; exact ha
    have hbn : b < rooms.length := by
      rcases hj with ⟨e1, e2⟩ | ⟨e1, e2⟩
      · rw [← e2]; exact (hT.1 c hc).2
      · rw [← e1]; exact (hT.1 c hc).1
    have hFerase : ∀ d ∈ F, d ∈ T.erase c := by
      intro d hd
      have hne : d ≠ c := by
        intro e
        subst e
        rcases hj with ⟨e1, e2⟩ | ⟨e1, e2⟩
        · exact hb (e2 ▸ (hFS d hd).2)
        · exact hb (e1 ▸ (hFS d hd).1)
      exact (List.mem_erase_of_ne hne).mpr (hFT d hd)
    have hsub : ∀ d ∈ T.erase c, d ∈ (⟨u, v⟩ : Connection) :: T.erase c :=
      fun d hd => List.mem_cons_of_mem _ hd
    have hF1 : ∀ d ∈ F, d ∈ (⟨u, v⟩ : Connection) :: T.erase c :=
      fun d hd => hsub d (hFerase d hd)
    have hab : Relation.ReflTransGen (Linked ((⟨u, v⟩ : Connection) :: T.erase c)) a b := by
      have p1 : Relation.ReflTransGen (Linked ((⟨u, v⟩ : Connection) :: T.erase c)) a u :=
        (linked_path_swap (linked_path_mono hF1 (hconn a ha))).trans
          (linked_path_mono hF1 (hconn u hu))
      have p2 : Linked ((⟨u, v⟩ : Connection) :: T.erase c) u v :=
        ⟨⟨u, v⟩, List.mem_cons_self _ _, Or.inl ⟨rfl, rfl⟩⟩
      have p3 : Relation.ReflTransGen (Linked ((⟨u, v⟩ : Connection) :: T.erase c)) v b :=
        linked_path_swap (linked_path_mono hsub (outside_path_erase hcS hout))
      exact (p1.tail p2).trans p3
    have hstep : ∀ p q, Linked T p q →
        Relation.ReflTransGen (Linked ((⟨u, v⟩ : Connection) :: T.erase c)) p q := by
      rintro p q ⟨d, hd, hdj⟩
      by_cases hdc : d = c
      · subst hdc
        rcases hj with ⟨e1, e2⟩ | ⟨e1, e2⟩ <;> rcases hdj with ⟨f1, f2⟩ | ⟨f1, f2⟩
        · rw [← f1, ← f2, e1, e2]; exact hab
        · rw [← f1, ← f2, e1, e2]; exact linked_path_swap hab
        · rw [← f1, ← f2, e1, e2]; exact linked_path_swap hab
        · rw [← f1, ← f2, e1, e2]; exact hab
      · exact Relation.ReflTransGen.single
          ⟨d, List.mem_cons_of_mem _ ((List.mem_erase_of_ne hdc).mpr hd), hdj⟩
    have hlift : ∀ p q, Relation.ReflTransGen (Linked T) p q →
        Relation.ReflTransGen (Linked ((⟨u, v⟩ : Connection) :: T.erase c)) p q := by
      intro p q hpq
      induction hpq with
      | refl => exact Relation.ReflTransGen.refl
      | tail _ hl ih => exact ih.trans (hstep _ _ hl)
    refine ⟨(⟨u, v⟩ : Connection) :: T.erase c, ⟨?_, ?_⟩, ?_, ?_⟩
    · intro d hd
      rcases List.mem_cons.mp hd with h | h
      · subst h
        exact ⟨hSn u hu, hvn⟩
      · exact hT.1 d (List.mem_of_mem_erase h)
    · intro i hi
      exact hlift 0 i (hT.2 i hi)
    · intro d hd
      rcases List.mem_append.mp hd with h | h
      · exact hF1 d h
      · rw [List.mem_singleton] at h
        subst h
        exact List.mem_cons_self _ _
    · rw [totalLength_erase rooms hc]
      have hw : roomDistance rooms u v ≤ roomDistance rooms c.source c.target := by
        rcases hj with ⟨e1, e2⟩ | ⟨e1, e2⟩
        · rw [e1, e2]; exact hmin a ha b hb hbn
        · rw [e1, e2, roomDistance_comm rooms b a]; exact hmin a ha b hb hbn
      have : totalLength rooms ((⟨u, v⟩ : Connection) :: T.erase c) =
          roomDistance rooms u v + totalLength rooms (T.erase c) := by
        simp [totalLength]
      rw [this]
      omega
  · exact absurd hu h

/-- Every spanning edge list can be changed, without growing longer, into one
that contains a given prefix of a greedily built list. -/
theorem greedy_prefix_contained {rooms : List Room} {connections : List Connection}
    (hpos : 0 < rooms.length)
    (hg : ∀ pre c post, connections = pre ++ c :: post → GreedyAt rooms pre c)
    (T : List Connection) (hT : Spanning rooms.length T) :
    ∀ pre post, connections = pre ++ post →
      ∃ T1, Spanning rooms.length T1 ∧ (∀ c ∈ pre, c ∈ T1) ∧
        totalLength rooms T1 ≤ totalLength rooms T := by
  intro pre
  induction pre using List.reverseRecOn with
  | nil => intro post _; exact ⟨T, hT, by simp, le_refl _⟩
  | append_singleton pre c ih =>
    intro post e
    rw [List.append_assoc, List.singleton_append] at e
    obtain ⟨T0, hT0, hsub, hle⟩ := ih (c :: post) e
    obtain ⟨_, h2, h3, h4⟩ := greedy_prefix hpos hg pre (c :: post) e
    obtain ⟨g1, g2, g3⟩ := (hg pre c post e).mem
    obtain ⟨⟨_, g4⟩, g5⟩ := mem_unconnectedAfter.mp g2
    have h0 : (0 : Nat) ∈ connectedAfter pre := List.mem_cons_self _ _
    obtain ⟨T1, hT1, hsub1, hle1⟩ := exchange (S := connectedAfter pre) (u := c.source)
      (v := c.target) hT0 hsub h3 h4 g1 g5 h2 g4 (by
        intro a ha b hb hbn
        apply g3 a ha b
        refine mem_unconnectedAfter.mpr ⟨⟨?_, hbn⟩, hb⟩
        by_contra hb0
        have : b = 0 := by omega
        subst this
        exact hb h0)
    exact ⟨T1, hT1, hsub1, le_trans hle1 hle⟩

theorem totalLength_le_of_subset (rooms : List Room) {F T : List Connection}
    (hnd : F.Nodup) (hsub : ∀ c ∈ F, c ∈ T) : totalLength rooms F ≤ totalLength rooms T := by
  obtain ⟨l, hperm, hsl⟩ := List.subperm_of_subset hnd hsub
  unfold totalLength
  rw [← List.Perm.sum_eq (List.Perm.map _ hperm)]
  apply List.Sublist.sum_le_sum (List.Sublist.map _ hsl)
  intro a ha
  obtain ⟨c, _, rfl⟩ := List.mem_map.mp ha
  exact roomDistance_nonneg rooms _ _

theorem centres_of_isSome {rooms : List Room}
    (h : ∀ room ∈ rooms, room.centerX.isSome = true ∧ room.centerY.isSome = true) :
    ∀ room ∈ rooms, ∃ cx cy, room.centerX = some cx ∧ room.centerY = some cy := by
  intro room hr
  obtain ⟨h1, h2⟩ := h room hr
  exact ⟨_, _, (Option.some_get h1).symm, (Option.some_get h2).symm⟩

/-- The targets of a greedily built list of `n - 1` connections are the ids
`1 .. n - 1`, each once. -/
theorem greedy_targets {rooms : List Room} {connections : List Connection}
    (hpos : 0 < rooms.length) (hlen : connections.length = rooms.length - 1)
    (hg : ∀ pre c post, connections = pre ++ c :: post → GreedyAt rooms pre c) :
    (connections.map Connection.target).Nodup ∧
    (connections.map Connection.target).Perm (List.range' 1 (rooms.length - 1)) := by
  obtain ⟨h1, h2, _, _⟩ := greedy_prefix hpos hg connections [] (by simp)
  have hnd : (connections.map Connection.target).Nodup := (List.nodup_cons.mp h1).2
  refine ⟨hnd, ?_⟩
  apply List.Subperm.perm_of_length_le
  · apply List.subperm_of_subset hnd
    intro a ha
    have hlt := h2 a (List.mem_cons_of_mem _ ha)
    have hne : a ≠ 0 := by
      intro e
      subst e
      exact (List.nodup_cons.mp h1).1 ha
    rw [List.mem_range']
    exact ⟨a - 1, by omega, by omega⟩
  · rw [List.length_range', List.length_map, hlen]

/-- C13: for `n ≥ 1` rooms whose ids are their indices and whose centres are
integers, `createMinimumSpanningTree` returns exactly `n - 1` connections
forming a spanning tree rooted at room 0: the `to` of the connections are the
ids `1 .. n - 1`, each exactly once, room 0 is never a `to`, the `from` of
each connection is room 0 or the `to` of an earlier connection, and so every
room is linked to room 0.  No draw is made. -/
theorem createMinimumSpanningTree_rooted_tree (rooms : List Room) (rng : SeededRandom)
    (hn : 1 ≤ rooms.length) (hid : rooms.map Room.id = List.range rooms.length)
    (hcen : ∀ room ∈ rooms, room.centerX.isSome = true ∧ room.centerY.isSome = true) :
    ∃ connections, createMinimumSpanningTree rooms rng = some (connections, rng) ∧
      connections.length = rooms.length - 1 ∧
      (connections.map Connection.target).Perm (List.range' 1 (rooms.length - 1)) ∧
      (∀ i, 1 ≤ i → i < rooms.length → (connections.map Connection.target).count i = 1) ∧
      (∀ c ∈ connections, c.target ≠ 0) ∧
      (∀ pre c post, connections = pre ++ c :: post →
        c.source = 0 ∨ c.source ∈ pre.map Connection.target) ∧
      (∀ i, i < rooms.length → Relation.ReflTransGen (Linked connections) 0 i) := by
  obtain ⟨connections, hrun, hlen, hg⟩ :=
    createMinimumSpanningTree_greedy rng hid hn (centres_of_isSome hcen)
  obtain ⟨hnd, hperm⟩ := greedy_targets hn hlen hg
  obtain ⟨h1, _, _, h4⟩ := greedy_prefix hn hg connections [] (by simp)
  have hmem : ∀ i, 1 ≤ i → i < rooms.length → i ∈ connections.map Connection.target := by
    intro i hi1 hi2
    rw [hperm.mem_iff, List.mem_range']
    exact ⟨i - 1, by omega, by omega⟩
  refine ⟨connections, hrun, hlen, hperm, ?_, ?_, ?_, ?_⟩
  · intro i hi1 hi2
    exact List.count_eq_one_of_mem hnd (hmem i hi1 hi2)
  · intro c hc e
    have : (0 : Nat) ∈ connections.map Connection.target := by
      rw [← e]
      exact List.mem_map_of_mem _ hc
    exact (List.nodup_cons.mp h1).1 this
  · intro pre c post e
    have := (hg pre c post e).mem.1
    simpa [connectedAfter] using this
  · intro i hi
    apply h4
    by_cases h0 : i = 0
    · subst h0; exact List.mem_cons_self _ _
    · exact List.mem_cons_of_mem _ (hmem i (by omega) hi)

/-- Witness for C13: three rooms with centres (3, 3), (13, 4) and (5, 14). -/
theorem createMinimumSpanningTree_rooted_tree_witness :
    1 ≤ centredRooms.length ∧
    centredRooms.map Room.id = List.range centredRooms.length ∧
    (∀ room ∈ centredRooms, room.centerX.isSome = true ∧ room.centerY.isSome = true) ∧
    ∃ connections, createMinimumSpanningTree centredRooms ⟨0⟩ = some (connections, ⟨0⟩) ∧
      connections.length = centredRooms.length - 1 ∧
      (connections.map Connection.target).Perm (List.range' 1 (centredRooms.length - 1)) ∧
      (∀ i, 1 ≤ i → i < centredRooms.length →
        (connections.map Connection.target).count i = 1) ∧
      (∀ c ∈ connections, c.target ≠ 0) ∧
      (∀ pre c post, connections = pre ++ c :: post →
        c.source = 0 ∨ c.source ∈ pre.map Connection.target) ∧
      (∀ i, i < centredRooms.length → Relation.ReflTransGen (Linked connections) 0 i) :=
  ⟨by decide, by decide, by decide,
    createMinimumSpanningTree_rooted_tree centredRooms ⟨0⟩ (by decide) (by decide)
      (by decide)⟩

/-- C14: for `n ≥ 2` rooms whose ids are their indices and whose centres are
integers, the connections returned by `createMinimumSpanningTree` form a
minimum spanning tree: they are `n - 1` connections linking every room to
room 0, the sum of the Manhattan distances between the centres they join is
at most that of every list of connections that links all the rooms (every
spanning tree among them), and each connection is a shortest edge between the
connected and the unconnected set at the time it is chosen, the first found in
iteration order on ties. -/
theorem createMinimumSpanningTree_minimal (rooms : List Room) (rng : SeededRandom)
    (hn : 2 ≤ rooms.length) (hid : rooms.map Room.id = List.range rooms.length)
    (hcen : ∀ room ∈ rooms, room.centerX.isSome = true ∧ room.centerY.isSome = true) :
    ∃ connections, createMinimumSpanningTree rooms rng = some (connections, rng) ∧
      connections.length = rooms.length - 1 ∧
      Spanning rooms.length connections ∧
      (∀ T, Spanning rooms.length T →
        totalLength rooms connections ≤ totalLength rooms T) ∧
      (∀ pre c post, connections = pre ++ c :: post → GreedyAt rooms pre c) := by
  have hpos : 0 < rooms.length := by omega
  obtain ⟨connections, hrun, hlen, hg⟩ :=
    createMinimumSpanningTree_greedy rng hid hpos (centres_of_isSome hcen)
  obtain ⟨hnd, hperm⟩ := greedy_targets hpos hlen hg
  obtain ⟨_, h2, h3, h4⟩ := greedy_prefix hpos hg connections [] (by simp)
  refine ⟨connections, hrun, hlen, ⟨?_, ?_⟩, ?_, hg⟩
  · intro c hc
    exact ⟨h2 _ (h3 c hc).1, h2 _ (h3 c hc).2⟩
  · intro i hi
    apply h4
    by_cases h0 : i = 0
    · subst h0; exact List.mem_cons_self _ _
    · apply List.mem_cons_of_mem
      rw [hperm.mem_iff, List.mem_range']
      exact ⟨i - 1, by omega, by omega⟩
  · intro T hT
    obtain ⟨T1, _, hsub, hle⟩ := greedy_prefix_contained hpos hg T hT connections [] (by simp)
    exact le_trans (totalLength_le_of_subset rooms (List.Nodup.of_map _ hnd) hsub) hle

/-- Witness for C14: three rooms with centres (3, 3), (13, 4) and (5, 14). -/
theorem createMinimumSpanningTree_minimal_witness :
    2 ≤ centredRooms.length ∧
    centredRooms.map Room.id = List.range centredRooms.length ∧
    (∀ room ∈ centredRooms, room.centerX.isSome = true ∧ room.centerY.isSome = true) ∧
    ∃ connections, createMinimumSpanningTree centredRooms ⟨0⟩ = some (connections, ⟨0⟩) ∧
      connections.length = centredRooms.length - 1 ∧
      Spanning centredRooms.length connections ∧
      (∀ T, Spanning centredRooms.length T →
        totalLength centredRooms connections ≤ totalLength centredRooms T) ∧
      (∀ pre c post, connections = pre ++ c :: post → GreedyAt centredRooms pre c) :=
  ⟨by decide, by decide, by decide,
    createMinimumSpanningTree_minimal centredRooms ⟨0⟩ (by decide) (by decide) (by decide)⟩

/-! ## The extra connections -/

theorem extraLoop_calls (rooms : List Room) (connections : List Connection)
    (width height corridorWidth : Int) (hne : rooms ≠ []) :
    ∀ (n : Nat) (grid : Grid) (rng : SeededRandom),
      extraLoop rooms connections width height corridorWidth n grid rng =
        some ((extraCalls rooms connections n rng).foldl
          (fun g p => (corridorBetween p.1 p.2 g width height corridorWidth).2) grid,
          afterDraw^[2 * n] rng) := by
  intro n
  induction n with
  | zero => intro grid rng; rfl
  | succ n ih =>
    intro grid rng
    have hpos : 0 < rooms.length := List.length_pos.mpr hne
    have hle : (0 : Int) ≤ (rooms.length : Int) - 1 := by omega
    obtain ⟨room1, _, e1⟩ := jsIndex_some_of_lt rooms (nextInt_ge rng hle)
      (by have := nextInt_le rng hle; omega)
    obtain ⟨room2, _, e2⟩ := jsIndex_some_of_lt rooms
      (nextInt_ge (rng.nextInt 0 ((rooms.length : Int) - 1)).2 hle)
      (by have := nextInt_le (rng.nextInt 0 ((rooms.length : Int) - 1)).2 hle; omega)
    have hr : afterDraw^[2 * (n + 1)] rng =
        afterDraw^[2 * n] ((rng.nextInt 0 ((rooms.length : Int) - 1)).2.nextInt 0
          ((rooms.length : Int) - 1)).2 := by
      rw [Nat.mul_succ, Function.iterate_add_apply]
      simp only [nextInt_rng, Function.iterate_succ, Function.iterate_zero,
        Function.comp_apply, id_eq, afterDraw]
    unfold extraLoop extraCalls
    simp only [e1, e2]
    rw [hr]
    split
    · split
      · exact ih _ _
      · rw [List.foldl_cons]
        exact ih _ _
    · exact ih _ _

theorem extraCalls_length_le (rooms : List Room) (connections : List Connection) :
    ∀ (n : Nat) (rng : SeededRandom), (extraCalls rooms connections n rng).length ≤ n := by
  intro n
  induction n with
  | zero => intro rng; exact le_refl _
  | succ n ih =>
    intro rng
    unfold extraCalls
    simp only []
    split
    · split
      · split
        · exact le_trans (ih _) (Nat.le_succ _)
        · rw [List.length_cons]
          exact Nat.succ_le_succ (ih _)
      · exact le_trans (ih _) (Nat.le_succ _)
    · exact le_trans (ih _) (Nat.le_succ _)
    · exact Nat.zero_le _

theorem jsIndex_eq_getElem? {α : Type} {l : List α} {i : Int} {a : α}
    (h : jsIndex l i = some a) : 0 ≤ i ∧ l[i.toNat]? = some a := by
  unfold jsIndex at h
  by_cases hi : i < 0
  · rw [if_pos hi] at h
    exact absurd h (by simp)
  · rw [if_neg hi] at h
    exact ⟨by omega, by simpa using h⟩

theorem alreadyConnected_eq_false {connections : List Connection} {room1 room2 : Room}
    (h : alreadyConnected connections room1 room2 = false) :
    ∀ conn ∈ connections, ¬(conn.source = room1.id ∧ conn.target = room2.id) ∧
      ¬(conn.source = room2.id ∧ conn.target = room1.id) := by
  intro conn hc
  unfold alreadyConnected at h
  rw [List.any_eq_false] at h
  have := h conn hc
  simp only [Bool.or_eq_true, Bool.and_eq_true, beq_iff_eq, not_or] at this
  exact this

theorem extraCalls_spec (rooms : List Room) (connections : List Connection) :
    ∀ (n : Nat) (rng : SeededRandom), ∀ p ∈ extraCalls rooms connections n rng,
      (∃ i j : Nat, i ≠ j ∧ rooms[i]? = some p.1 ∧ rooms[j]? = some p.2) ∧
      ∀ conn ∈ connections, ¬(conn.source = p.1.id ∧ conn.target = p.2.id) ∧
        ¬(conn.source = p.2.id ∧ conn.target = p.1.id) := by
  intro n
  induction n with
  | zero => intro rng p hp; simp [extraCalls] at hp
  | succ n ih =>
    intro rng p hp
    unfold extraCalls at hp
    simp only [] at hp
    split at hp
    · rename_i room1 room2 e1 e2
      split at hp
      · rename_i hne
        split at hp
        · exact ih _ p hp
        · rename_i hconn
          rcases List.mem_cons.mp hp with h | h
          · subst h
            obtain ⟨h1, g1⟩ := jsIndex_eq_getElem? e1
            obtain ⟨h2, g2⟩ := jsIndex_eq_getElem? e2
            refine ⟨⟨_, _, ?_, g1, g2⟩, alreadyConnected_eq_false (by simpa using hconn)⟩
            intro e
            apply hne
            omega
          · exact ih _ p h
      · exact ih _ p hp
    · exact ih _ p hp
    · simp at hp

theorem carveConnections_some (rooms : List Room) (width height corridorWidth : Int)
    (connections : List Connection) :
    ∀ (grid : Grid) (corridors : List Corridor),
      (∀ conn ∈ connections, conn.source < rooms.length ∧ conn.target < rooms.length) →
      ∃ result grid2,
        carveConnections rooms width height corridorWidth connections grid corridors =
          some (result, grid2) ∧
        result.length = corridors.length + connections.length := by
  induction connections with
  | nil => intro grid corridors _; exact ⟨corridors, grid, rfl, rfl⟩
  | cons conn rest ih =>
    intro grid corridors hv
    obtain ⟨h1, h2⟩ := hv conn (List.mem_cons_self _ _)
    have e1 : rooms.get? conn.source = some rooms[conn.source] := by simp [h1]
    have e2 : rooms.get? conn.target = some rooms[conn.target] := by simp [h2]
    unfold carveConnections
    rw [e1, e2]
    simp only []
    obtain ⟨result, grid2, e, hl⟩ := ih
      (corridorBetween rooms[conn.source] rooms[conn.target] grid width height
        corridorWidth).2
      (corridors ++ [(corridorBetween rooms[conn.source] rooms[conn.target] grid width height
        corridorWidth).1])
      (fun c hc => hv c (List.mem_cons_of_mem _ hc))
    refine ⟨result, grid2, e, ?_⟩
    rw [hl]
    simp
    omega

/-- C20 (as amended): for `n ≥ 2` placed rooms, after the spanning tree is
carved `generateCorridors` makes `min(2, floor(n / 3))` passes of two draws
each; a pass carves an extra corridor only when the two rooms drawn are
distinct and not directly connected by a tree edge.  So at most
`min(2, floor(n / 3))` extra corridors are carved, each between two distinct
rooms not directly connected by a tree edge, and the returned list holds the
tree corridors only. -/
theorem generateCorridors_extra_at_most (rng : SeededRandom) (rooms : List Room) (grid : Grid)
    (width height corridorWidth : Int) (hn : 2 ≤ rooms.length)
    (hid : rooms.map Room.id = List.range rooms.length) :
    ∃ connections rng1 corridors grid1,
      createMinimumSpanningTree rooms rng = some (connections, rng1) ∧
      carveConnections rooms width height corridorWidth connections grid [] =
        some (corridors, grid1) ∧
      corridors.length = connections.length ∧
      generateCorridors rng rooms grid width height corridorWidth =
        some (corridors,
          (extraCalls rooms connections (min 2 (rooms.length / 3)) rng1).foldl
            (fun g p => (corridorBetween p.1 p.2 g width height corridorWidth).2) grid1,
          afterDraw^[2 * min 2 (rooms.length / 3)] rng1) ∧
      (extraCalls rooms connections (min 2 (rooms.length / 3)) rng1).length ≤
        min 2 (rooms.length / 3) ∧
      ∀ p ∈ extraCalls rooms connections (min 2 (rooms.length / 3)) rng1,
        (∃ i j : Nat, i ≠ j ∧ rooms[i]? = some p.1 ∧ rooms[j]? = some p.2) ∧
        ∀ conn ∈ connections, ¬(conn.source = p.1.id ∧ conn.target = p.2.id) ∧
          ¬(conn.source = p.2.id ∧ conn.target = p.1.id) := by
  have hpos : 0 < rooms.length := by omega
  obtain ⟨connections, rng1, e1, hvalid, _⟩ := createMinimumSpanningTree_spans rng hid hpos
  obtain ⟨corridors, grid1, e2, hl⟩ :=
    carveConnections_some rooms width height corridorWidth connections grid [] hvalid
  refine ⟨connections, rng1, corridors, grid1, e1, e2, by simpa using hl, ?_,
    extraCalls_length_le _ _ _ _, extraCalls_spec _ _ _ _⟩
  unfold generateCorridors
  rw [if_neg (by omega)]
  simp only [e1, e2]
  rw [extraLoop_calls rooms connections width height corridorWidth (List.length_pos.mp hpos)]

/-- Witness for C20: the three rooms with centres (3, 3), (13, 4), (5, 14) on
the 20 by 20 grid of walls. -/
theorem generateCorridors_extra_at_most_witness :
    2 ≤ centredRooms.length ∧
    centredRooms.map Room.id = List.range centredRooms.length ∧
    ∃ connections rng1 corridors grid1,
      createMinimumSpanningTree centredRooms ⟨0⟩ = some (connections, rng1) ∧
      carveConnections centredRooms 20 20 1 connections wallGrid [] =
        some (corridors, grid1) ∧
      corridors.length = connections.length ∧
      generateCorridors ⟨0⟩ centredRooms wallGrid 20 20 1 =
        some (corridors,
          (extraCalls centredRooms connections (min 2 (centredRooms.length / 3)) rng1).foldl
            (fun g p => (corridorBetween p.1 p.2 g 20 20 1).2) grid1,
          afterDraw^[2 * min 2 (centredRooms.length / 3)] rng1) ∧
      (extraCalls centredRooms connections (min 2 (centredRooms.length / 3)) rng1).length ≤
        min 2 (centredRooms.length / 3) ∧
      ∀ p ∈ extraCalls centredRooms connections (min 2 (centredRooms.length / 3)) rng1,
        (∃ i j : Nat, i ≠ j ∧ centredRooms[i]? = some p.1 ∧ centredRooms[j]? = some p.2) ∧
        ∀ conn ∈ connections, ¬(conn.source = p.1.id ∧ conn.target = p.2.id) ∧
          ¬(conn.source = p.2.id ∧ conn.target = p.1.id) :=
  ⟨by decide, by decide,
    generateCorridors_extra_at_most ⟨0⟩ centredRooms wallGrid 20 20 1 (by decide) (by decide)⟩

theorem afterDraw_eval {rng : SeededRandom} {s : Nat}
    (hs : rng.seed ≤ 2 ^ 31) (hseed : (rng.seed * 9301 + 49297) % 233280 = s) :
    afterDraw rng = ⟨s⟩ := by
  have := next_seed_of_le hs
  rw [hseed] at this
  unfold afterDraw
  cases h : rng.next.2
  rw [h] at this
  simp only at this
  rw [this]

theorem nextInt_eval {rng : SeededRandom} {lo hi v : Int} {s : Nat}
    (hs : rng.seed ≤ 2 ^ 31) (hseed : (rng.seed * 9301 + 49297) % 233280 = s)
    (h1 : (v - lo) * 233280 ≤ (s : Int) * (hi - lo + 1))
    (h2 : (s : Int) * (hi - lo + 1) < (v - lo + 1) * 233280) :
    rng.nextInt lo hi = (v, ⟨s⟩) := by
  have e2 : rng.next.2 = ⟨s⟩ := afterDraw_eval hs hseed
  have e1 : (rng.nextInt lo hi).1 = v := by
    rw [nextInt_value, next_value, e2]
    have : ⌊((s : ℚ) / 233280) * ((hi - lo + 1 : Int) : ℚ)⌋ = v - lo := by
      rw [Int.floor_eq_iff]
      have q1 : (((v - lo) * 233280 : Int) : ℚ) ≤ (((s : Int) * (hi - lo + 1) : Int) : ℚ) := by
        exact_mod_cast h1
      have q2 : ((((s : Int) * (hi - lo + 1) : Int)) : ℚ) < (((v - lo + 1) * 233280 : Int) : ℚ) := by
        exact_mod_cast h2
      push_cast at q1 q2 ⊢
      constructor
      · rw [div_mul_eq_mul_div, le_div_iff₀ (by norm_num : (0 : ℚ) < 233280)]
        exact q1
      · rw [div_mul_eq_mul_div, div_lt_iff₀ (by norm_num : (0 : ℚ) < 233280)]
        exact q2
    rw [this]
    omega
  exact Prod.ext e1 ((nextInt_rng rng lo hi).trans e2)

/-- Counterexample to C20 as stated: with the three rooms of centres (3, 3),
(13, 4), (5, 14) the loop has `min(2, floor(3 / 3)) = 1` pass; from the state
0 it draws rooms 0 and 2, which the tree joins directly, so no extra corridor
is carved: the grid returned is the grid after the tree corridors. -/
theorem generateCorridors_skips_extra :
    min 2 (centredRooms.length / 3) = 1 ∧
    createMinimumSpanningTree centredRooms ⟨0⟩ = some ([⟨0, 1⟩, ⟨0, 2⟩], ⟨0⟩) ∧
    extraCalls centredRooms [⟨0, 1⟩, ⟨0, 2⟩] 1 ⟨0⟩ = [] ∧
    ∃ corridors grid1,
      carveConnections centredRooms 20 20 1 [⟨0, 1⟩, ⟨0, 2⟩] wallGrid [] =
        some (corridors, grid1) ∧
      generateCorridors ⟨0⟩ centredRooms wallGrid 20 20 1 =
        some (corridors, grid1, ⟨165494⟩) := by
  have hmst : createMinimumSpanningTree centredRooms ⟨0⟩ = some ([⟨0, 1⟩, ⟨0, 2⟩], ⟨0⟩) := by
    decide
  have d1 : (⟨0⟩ : SeededRandom).nextInt 0 ((centredRooms.length : Int) - 1) =
      (0, ⟨49297⟩) :=
    nextInt_eval (by decide) (by decide) (by decide) (by decide)
  have d2 : (⟨49297⟩ : SeededRandom).nextInt 0 ((centredRooms.length : Int) - 1) =
      (2, ⟨165494⟩) :=
    nextInt_eval (by decide) (by decide) (by decide) (by decide)
  have hcalls : extraCalls centredRooms [⟨0, 1⟩, ⟨0, 2⟩] 1 ⟨0⟩ = [] := by
    unfold extraCalls
    simp only [d1, d2]
    decide
  have hrng : afterDraw^[2 * 1] (⟨0⟩ : SeededRandom) = ⟨165494⟩ := by
    have a1 : afterDraw (⟨0⟩ : SeededRandom) = ⟨49297⟩ :=
      afterDraw_eval (by decide) (by decide)
    have a2 : afterDraw (⟨49297⟩ : SeededRandom) = ⟨165494⟩ :=
      afterDraw_eval (by decide) (by decide)
    simp only [Function.iterate_succ, Function.iterate_zero, Function.comp_apply, id_eq,
      a1, a2]
  obtain ⟨corridors, grid1, e2, _⟩ :=
    carveConnections_some centredRooms 20 20 1 [⟨0, 1⟩, ⟨0, 2⟩] wallGrid [] (by decide)
  refine ⟨by decide, hmst, hcalls, corridors, grid1, e2, ?_⟩
  have hmin : min 2 (centredRooms.length / 3) = 1 := by decide
  unfold generateCorridors
  rw [if_neg (by decide)]
  simp only [hmst, e2, hmin]
  rw [extraLoop_calls centredRooms _ 20 20 1 (by decide), hcalls, hrng]
  rfl

/-! ## Door placement -/

theorem loopRange_pairwise (start stop : Int) : (loopRange start stop).Pairwise (· < ·) := by
  unfold loopRange
  rw [List.pairwise_map]
  exact (List.pairwise_lt_range _).imp (fun h => by omega)

theorem mem_doorCells {width height : Int} {c : Int × Int} :
    c ∈ doorCells width height ↔
      1 ≤ c.1 ∧ c.1 ≤ width - 2 ∧ 1 ≤ c.2 ∧ c.2 ≤ height - 2 := by
  unfold doorCells
  simp only [List.mem_flatMap, List.mem_map, mem_loopRange]
  constructor
  · rintro ⟨y, hy, x, hx, rfl⟩
    exact ⟨hx.1, by omega, hy.1, by omega⟩
  · rintro ⟨h1, h2, h3, h4⟩
    exact ⟨c.2, ⟨h3, by omega⟩, c.1, ⟨h1, by omega⟩, rfl⟩

theorem doorCells_pairwise (width height : Int) :
    (doorCells width height).Pairwise (fun a b => a.2 < b.2 ∨ (a.2 = b.2 ∧ a.1 < b.1)) := by
  unfold doorCells
  rw [List.pairwise_flatMap]
  constructor
  · intro y _
    rw [List.pairwise_map]
    exact (loopRange_pairwise _ _).imp (fun h => Or.inr ⟨rfl, h⟩)
  · refine (loopRange_pairwise _ _).imp ?_
    intro y1 y2 h a ha b hb
    obtain ⟨_, _, rfl⟩ := List.mem_map.mp ha
    obtain ⟨_, _, rfl⟩ := List.mem_map.mp hb
    exact Or.inl h

theorem doorCells_nodup (width height : Int) : (doorCells width height).Nodup := by
  refine (doorCells_pairwise width height).imp ?_
  intro a b h e
  subst e
  omega

theorem inRoom_iff {rooms : List Room} {x y : Int} :
    inRoom rooms x y = true ↔ ∃ room ∈ rooms, room.Covers x y := by
  unfold inRoom Room.Covers
  simp only [List.any_eq_true, Bool.and_eq_true, decide_eq_true_eq, ge_iff_le]
  constructor
  · rintro ⟨room, hr, ⟨⟨h1, h2⟩, h3⟩, h4⟩
    exact ⟨room, hr, h1, h2, h3, h4⟩
  · rintro ⟨room, hr, h1, h2, h3, h4⟩
    exact ⟨room, hr, ⟨⟨h1, h2⟩, h3⟩, h4⟩

theorem isCorridorAt_iff {grid : Grid} {rooms : List Room} {width height : Int}
    {pos : Int × Int} :
    isCorridorAt grid rooms width height pos = true ↔
      inBounds width height pos.1 pos.2 = true ∧ getCell grid pos.1 pos.2 = some 1 ∧
      inRoom rooms pos.1 pos.2 = false := by
  unfold isCorridorAt
  rw [inBounds_iff]
  by_cases h1 : pos.1 < 0 ∨ pos.1 ≥ width ∨ pos.2 < 0 ∨ pos.2 ≥ height
  · rw [if_pos h1]
    constructor
    · intro h; exact absurd h (by simp)
    · rintro ⟨h, _⟩; omega
  · rw [if_neg h1]
    by_cases h2 : getCell grid pos.1 pos.2 ≠ some 1
    · rw [if_pos h2]
      constructor
      · intro h; exact absurd h (by simp)
      · rintro ⟨_, h, _⟩; exact absurd h h2
    · rw [if_neg h2]
      rw [not_not] at h2
      simp only [Bool.not_eq_true', h2, true_and]
      constructor
      · intro h; exact ⟨by omega, h⟩
      · rintro ⟨_, h⟩; exact h

theorem mem_neighbours {x y : Int} {n : Int × Int} :
    n ∈ [(x - 1, y), (x + 1, y), (x, y - 1), (x, y + 1)] ↔ Adjacent (x, y) n := by
  unfold Adjacent
  simp only [List.mem_cons, List.mem_singleton, List.not_mem_nil, or_false, Prod.ext_iff]
  rw [abs_eq (by norm_num : (0 : Int) ≤ 1), abs_eq (by norm_num : (0 : Int) ≤ 1)]
  constructor
  · rintro (⟨h1, h2⟩ | ⟨h1, h2⟩ | ⟨h1, h2⟩ | ⟨h1, h2⟩)
    · right; exact ⟨h2.symm, by omega⟩
    · right; exact ⟨h2.symm, by omega⟩
    · left; exact ⟨h1.symm, by omega⟩
    · left; exact ⟨h1.symm, by omega⟩
  · rintro (⟨h1, h2 | h2⟩ | ⟨h1, h2 | h2⟩)
    · right; right; left; exact ⟨h1.symm, by omega⟩
    · right; right; right; exact ⟨h1.symm, by omega⟩
    · left; exact ⟨by omega, h1.symm⟩
    · right; left; exact ⟨by omega, h1.symm⟩

theorem isRoomCorridorBoundary_iff {x y : Int} {grid : Grid} {rooms : List Room}
    {width height : Int} :
    isRoomCorridorBoundary x y grid rooms width height = true ↔
      inRoom rooms x y = true ∧
      ∃ n, Adjacent (x, y) n ∧ isCorridorAt grid rooms width height n = true := by
  unfold isRoomCorridorBoundary
  by_cases h : inRoom rooms x y = true
  · simp only [h, Bool.not_true, Bool.false_eq_true, if_false, true_and, List.any_eq_true]
    constructor
    · rintro ⟨n, hn, hc⟩
      exact ⟨n, mem_neighbours.mp hn, hc⟩
    · rintro ⟨n, hn, hc⟩
      exact ⟨n, mem_neighbours.mpr hn, hc⟩
  · simp [h]

theorem isDoorCandidate_iff {grid : Grid} {rooms : List Room} {width height : Int}
    {c : Int × Int} :
    isDoorCandidate grid rooms width height c = true ↔
      getCell grid c.1 c.2 = some 1 ∧ (∃ room ∈ rooms, room.Covers c.1 c.2) ∧
      ∃ n, Adjacent c n ∧ inBounds width height n.1 n.2 = true ∧
        getCell grid n.1 n.2 = some 1 ∧ ∀ room ∈ rooms, ¬ room.Covers n.1 n.2 := by
  unfold isDoorCandidate
  rw [Bool.and_eq_true, decide_eq_true_eq, isRoomCorridorBoundary_iff, inRoom_iff]
  constructor
  · rintro ⟨h1, h2, n, hn, hc⟩
    obtain ⟨a, b, d⟩ := isCorridorAt_iff.mp hc
    refine ⟨h1, h2, n, hn, a, b, ?_⟩
    intro room hr hcov
    have : inRoom rooms n.1 n.2 = true := inRoom_iff.mpr ⟨room, hr, hcov⟩
    rw [d] at this
    exact absurd this (by simp)
  · rintro ⟨h1, h2, n, hn, a, b, d⟩
    refine ⟨h1, h2, n, hn, isCorridorAt_iff.mpr ⟨a, b, ?_⟩⟩
    by_contra hne
    have : inRoom rooms n.1 n.2 = true := by simpa using hne
    obtain ⟨room, hr, hcov⟩ := inRoom_iff.mp this
    exact d room hr hcov

theorem isDoorCandidate_congr {g g0 : Grid} {rooms : List Room} {width height : Int}
    {c : Int × Int} (hc : getCell g c.1 c.2 = getCell g0 c.1 c.2)
    (hout : ∀ x y, inRoom rooms x y = false → getCell g x y = getCell g0 x y) :
    isDoorCandidate g rooms width height c = isDoorCandidate g0 rooms width height c := by
  have key : ∀ n, isCorridorAt g rooms width height n =
      isCorridorAt g0 rooms width height n := by
    intro n
    rw [Bool.eq_iff_iff, isCorridorAt_iff, isCorridorAt_iff]
    constructor
    · rintro ⟨a, b, d⟩; exact ⟨a, by rw [← hout _ _ d]; exact b, d⟩
    · rintro ⟨a, b, d⟩; exact ⟨a, by rw [hout _ _ d]; exact b, d⟩
  rw [Bool.eq_iff_iff]
  unfold isDoorCandidate
  rw [Bool.and_eq_true, Bool.and_eq_true, decide_eq_true_eq, decide_eq_true_eq,
    isRoomCorridorBoundary_iff, isRoomCorridorBoundary_iff, hc]
  simp only [key]

theorem placeDoorAt_eq (rooms : List Room) (width height : Int) (s : Grid × SeededRandom)
    (c : Int × Int) :
    placeDoorAt rooms width height s c =
      if isDoorCandidate s.1 rooms width height c = true then
        (if s.2.next.1 < 7 / 10 then setCell s.1 c.1 c.2 2 else s.1, afterDraw s.2)
      else s := by
  unfold placeDoorAt isDoorCandidate afterDraw
  by_cases h1 : getCell s.1 c.1 c.2 = some 1
  · by_cases h2 : isRoomCorridorBoundary c.1 c.2 s.1 rooms width height = true
    · simp only [h1, h2, if_true, decide_True, Bool.and_self]
      split <;> rfl
    · simp [h1, h2]
  · simp [h1]

theorem mem_doorsPlaced_cons {rng : SeededRandom} {c : Int × Int} {cs : List (Int × Int)}
    {a : Int × Int} :
    a ∈ doorsPlaced rng (c :: cs) ↔
      (a = c ∧ rng.next.1 < 7 / 10) ∨ a ∈ doorsPlaced (afterDraw rng) cs := by
  unfold doorsPlaced
  simp only [doorDraws]
  by_cases h : rng.next.1 < 7 / 10
  · rw [List.filter_cons_of_pos (by simpa using h), List.map_cons, List.mem_cons]
    simp only [h, and_true]
  · rw [List.filter_cons_of_neg (by simpa using h)]
    simp only [h, and_false, false_or]

theorem placeDoors_fold (rooms : List Room) (width height : Int) (g0 : Grid) :
    ∀ (cells : List (Int × Int)) (s : Grid × SeededRandom), cells.Nodup →
      (∀ c ∈ cells, getCell s.1 c.1 c.2 = getCell g0 c.1 c.2) →
      (∀ x y, inRoom rooms x y = false → getCell s.1 x y = getCell g0 x y) →
      (cells.foldl (placeDoorAt rooms width height) s).2 =
        afterDraw^[(cells.filter (isDoorCandidate g0 rooms width height)).length] s.2 ∧
      ∀ x y, getCell (cells.foldl (placeDoorAt rooms width height) s).1 x y =
        if (x, y) ∈ doorsPlaced s.2 (cells.filter (isDoorCandidate g0 rooms width height))
        then some 2 else getCell s.1 x y := by
  intro cells
  induction cells with
  | nil =>
    intro s _ _ _
    refine ⟨rfl, ?_⟩
    intro x y
    simp [doorsPlaced, doorDraws]
  | cons c rest ih =>
    intro s hnd hcells hout
    rw [List.nodup_cons] at hnd
    have hcongr : isDoorCandidate s.1 rooms width height c =
        isDoorCandidate g0 rooms width height c :=
      isDoorCandidate_congr (hcells c (List.mem_cons_self _ _)) hout
    rw [List.foldl_cons, placeDoorAt_eq, hcongr]
    by_cases hcand : isDoorCandidate g0 rooms width height c = true
    · rw [if_pos hcand, List.filter_cons_of_pos hcand]
      have hcand2 : isDoorCandidate s.1 rooms width height c = true := by rw [hcongr]; exact hcand
      have h1 : getCell s.1 c.1 c.2 = some 1 := (isDoorCandidate_iff.mp hcand2).1
      have hin : inRoom rooms c.1 c.2 = true :=
        inRoom_iff.mpr (isDoorCandidate_iff.mp hcand2).2.1
      have hget : ∀ x y, getCell (if s.2.next.1 < 7 / 10 then setCell s.1 c.1 c.2 2 else s.1) x y =
          if (x, y) = c ∧ s.2.next.1 < 7 / 10 then some 2 else getCell s.1 x y := by
        intro x y
        by_cases hd : s.2.next.1 < 7 / 10
        · rw [if_pos hd, getCell_setCell]
          simp only [h1, Option.isSome_some, and_true, hd, Prod.ext_iff]
        · rw [if_neg hd]
          simp only [hd, and_false, if_false]
      obtain ⟨r1, r2⟩ := ih (if s.2.next.1 < 7 / 10 then setCell s.1 c.1 c.2 2 else s.1,
        afterDraw s.2) hnd.2
        (by
          intro d hd
          show getCell (if s.2.next.1 < 7 / 10 then setCell s.1 c.1 c.2 2 else s.1) d.1 d.2 = _
          rw [hget, if_neg, hcells d (List.mem_cons_of_mem _ hd)]
          rintro ⟨e, _⟩
          have : d = c := e
          subst this
          exact hnd.1 hd)
        (by
          intro x y hxy
          show getCell (if s.2.next.1 < 7 / 10 then setCell s.1 c.1 c.2 2 else s.1) x y = _
          rw [hget, if_neg, hout x y hxy]
          rintro ⟨e, _⟩
          rw [← e] at hin
          rw [hin] at hxy
          exact absurd hxy (by simp))
      refine ⟨?_, ?_⟩
      · rw [r1, List.length_cons, Function.iterate_succ_apply]
      · intro x y
        rw [r2]
        show (if (x, y) ∈ doorsPlaced (afterDraw s.2) _ then some 2
          else getCell (if s.2.next.1 < 7 / 10 then setCell s.1 c.1 c.2 2 else s.1) x y) = _
        rw [hget]
        by_cases htail : (x, y) ∈ doorsPlaced (afterDraw s.2)
            (rest.filter (isDoorCandidate g0 rooms width height))
        · rw [if_pos htail, if_pos (mem_doorsPlaced_cons.mpr (Or.inr htail))]
        · rw [if_neg htail]
          by_cases hhead : (x, y) = c ∧ s.2.next.1 < 7 / 10
          · rw [if_pos hhead, if_pos (mem_doorsPlaced_cons.mpr (Or.inl hhead))]
          · rw [if_neg hhead, if_neg]
            intro hm
            rcases mem_doorsPlaced_cons.mp hm with h | h
            · exact hhead h
            · exact htail h
    · rw [if_neg hcand, List.filter_cons_of_neg hcand]
      exact ih s hnd.2 (fun d hd => hcells d (List.mem_cons_of_mem _ hd)) hout

theorem mem_doorsPlaced {rng : SeededRandom} {cs : List (Int × Int)} {a : Int × Int} :
    a ∈ doorsPlaced rng cs ↔ ∃ d, (a, d) ∈ doorDraws rng cs ∧ d < 7 / 10 := by
  unfold doorsPlaced
  simp only [List.mem_map, List.mem_filter, decide_eq_true_eq]
  constructor
  · rintro ⟨p, ⟨hp, hd⟩, rfl⟩
    exact ⟨p.2, hp, hd⟩
  · rintro ⟨d, hp, hd⟩
    exact ⟨(a, d), ⟨hp, hd⟩, rfl⟩

theorem doorDraws_fst : ∀ (rng : SeededRandom) (cs : List (Int × Int)),
    (doorDraws rng cs).map Prod.fst = cs := by
  intro rng cs
  induction cs generalizing rng with
  | nil => rfl
  | cons c cs ih => simp [doorDraws, ih]

theorem nthDraw_succ (rng : SeededRandom) (k : Nat) :
    nthDraw rng (k + 1) = nthDraw (afterDraw rng) k := by
  unfold nthDraw
  rw [Function.iterate_succ_apply]
  rfl

theorem getCell_replicate_zero (width height x y : Int) (v : Nat)
    (h : getCell (List.replicate height.toNat (List.replicate width.toNat 0)) x y = some v) :
    v = 0 := by
  unfold getCell jsIndex at h
  by_cases hy : y < 0
  · simp [hy] at h
  · rw [if_neg hy] at h
    simp only [List.get?_eq_getElem?, List.getElem?_replicate] at h
    by_cases hy2 : y.toNat < height.toNat
    · rw [if_pos hy2, Option.some_bind] at h
      by_cases hx : x < 0
      · simp [hx] at h
      · rw [if_neg hx] at h
        simp only [List.get?_eq_getElem?, List.getElem?_replicate] at h
        by_cases hx2 : x.toNat < width.toNat
        · rw [if_pos hx2] at h
          exact (Option.some.inj h).symm
        · rw [if_neg hx2] at h
          exact absurd h (by simp)
    · rw [if_neg hy2] at h
      exact absurd h (by simp)

theorem mem_roomCells {room : Room} {c : Int × Int} :
    c ∈ roomCells room ↔ room.Covers c.1 c.2 := by
  unfold roomCells Room.Covers
  simp only [List.mem_flatMap, List.mem_map, mem_loopRange]
  constructor
  · rintro ⟨y, hy, x, hx, rfl⟩
    exact ⟨hx.1, hx.2, hy.1, hy.2⟩
  · rintro ⟨h1, h2, h3, h4⟩
    exact ⟨c.2, ⟨h3, h4⟩, c.1, ⟨h1, h2⟩, rfl⟩

theorem getCell_stampCell (width height : Int) (g : Grid) (c : Int × Int) (x y : Int) :
    getCell (stampCell width height g c) x y =
      if (x, y) = c ∧ inBounds width height x y = true ∧ (getCell g x y).isSome = true
      then some 1 else getCell g x y := by
  unfold stampCell
  by_cases hb : inBounds width height c.1 c.2 = true
  · rw [if_pos hb, getCell_setCell]
    by_cases hxy : (x, y) = c
    · subst hxy
      simp only [true_and, hb]
    · have : ¬ (x = c.1 ∧ y = c.2 ∧ (getCell g c.1 c.2).isSome = true) := by
        rintro ⟨e1, e2, _⟩
        exact hxy (Prod.ext e1 e2)
      rw [if_neg this, if_neg (fun h => hxy h.1)]
  · rw [if_neg hb, if_neg]
    rintro ⟨e, h, _⟩
    subst e
    exact hb h

theorem getCell_stampCells (width height : Int) (cells : List (Int × Int)) :
    ∀ (g : Grid) (x y : Int),
      getCell (cells.foldl (stampCell width height) g) x y =
        if (x, y) ∈ cells ∧ inBounds width height x y = true ∧ (getCell g x y).isSome = true
        then some 1 else getCell g x y := by
  induction cells with
  | nil => intro g x y; simp
  | cons c cells ih =>
    intro g x y
    rw [List.foldl_cons, ih, getCell_stampCell]
    by_cases hb : inBounds width height x y = true ∧ (getCell g x y).isSome = true
    · by_cases hc : (x, y) = c
      · have e1 : ((x, y) = c ∧ inBounds width height x y = true ∧
            (getCell g x y).isSome = true) := ⟨hc, hb⟩
        simp only [e1, and_self, if_true, List.mem_cons, hc, true_or, hb, Option.isSome_some,
          and_true, ite_self]
      · by_cases hm : (x, y) ∈ cells
        · simp only [hc, false_and, if_false, hm, hb, and_self, if_true, List.mem_cons,
            or_true]
        · simp only [hc, false_and, if_false, hm, List.mem_cons, or_self]
    · have e1 : ¬ ((x, y) = c ∧ inBounds width height x y = true ∧
          (getCell g x y).isSome = true) := fun h => hb h.2
      rw [if_neg e1, if_neg (fun h => hb h.2), if_neg (fun h => hb h.2)]

theorem Room.Fits.covers_inBounds {width height : Int} {room : Room}
    (h : room.Fits width height) {x y : Int} (hc : room.Covers x y) :
    inBounds width height x y = true := by
  obtain ⟨h1, h2, h3, h4, h5, h6, h7, h8⟩ := h
  obtain ⟨c1, c2, c3, c4⟩ := hc
  rw [inBounds_iff]
  omega

theorem Room.Fits.covers_middle {width height : Int} {room : Room}
    (h : room.Fits width height) : room.Covers room.middle.1 room.middle.2 := by
  obtain ⟨h1, h2, h3, h4, h5, h6, h7, h8⟩ := h
  unfold Room.Covers Room.middle
  simp only []
  omega

/-- After a room is stamped, the cells holding 3 are its centre and the cells
outside its rectangle that held 3 before. -/
theorem stampRoom_three {width height : Int} {g : Grid} {room : Room}
    (hok : GridOK width height g) (hfit : room.Fits width height) (x y : Int) :
    getCell (stampRoom width height g room).1 x y = some 3 ↔
      (x, y) = room.middle ∨ (getCell g x y = some 3 ∧ ¬ room.Covers x y) := by
  have hb : inBounds width height (room.x + room.width / 2) (room.y + room.height / 2) = true :=
    hfit.middle_inBounds
  have hok1 := (stampCells_spec width height (roomCells room) g hok).1
  unfold stampRoom
  simp only [hb, if_true]
  rw [getCell_setCell]
  by_cases hm : (x, y) = room.middle
  · have e : x = room.x + room.width / 2 ∧ y = room.y + room.height / 2 ∧
        (getCell ((roomCells room).foldl (stampCell width height) g)
          (room.x + room.width / 2) (room.y + room.height / 2)).isSome = true :=
      ⟨congrArg Prod.fst hm, congrArg Prod.snd hm, hok1.isSome hb⟩
    rw [if_pos e]
    simp only [hm, true_or]
  · have e : ¬ (x = room.x + room.width / 2 ∧ y = room.y + room.height / 2 ∧
        (getCell ((roomCells room).foldl (stampCell width height) g)
          (room.x + room.width / 2) (room.y + room.height / 2)).isSome = true) := by
      rintro ⟨e1, e2, _⟩
      exact hm (Prod.ext e1 e2)
    rw [if_neg e, getCell_stampCells]
    simp only [hm, false_or]
    by_cases hc : room.Covers x y
    · have hin := hfit.covers_inBounds hc
      rw [if_pos ⟨mem_roomCells.mpr hc, hin, hok.isSome hin⟩]
      simp only [hc, not_true_eq_false, and_false, iff_false]
      decide
    · rw [if_neg (fun h => hc (mem_roomCells.mp h.1))]
      simp only [hc, not_false_eq_true, and_true]

/-- After all rooms are stamped, the cells holding 3 are the centres of the
rooms and the cells outside every rectangle that held 3 before. -/
theorem stampRooms_three {width height : Int} (rooms : List Room) :
    ∀ g : Grid, GridOK width height g → (∀ room ∈ rooms, room.Fits width height) →
      rooms.Pairwise (fun a b => ∀ x y, ¬ (a.Covers x y ∧ b.Covers x y)) →
      ∀ x y, getCell (stampRooms width height g rooms).1 x y = some 3 ↔
        (∃ room ∈ rooms, (x, y) = room.middle) ∨
        (getCell g x y = some 3 ∧ ∀ room ∈ rooms, ¬ room.Covers x y) := by
  induction rooms with
  | nil => intro g _ _ _ x y; simp [stampRooms]
  | cons room rooms ih =>
    intro g hok hfit hpw x y
    rw [List.pairwise_cons] at hpw
    have hfit0 := hfit room (List.mem_cons_self _ _)
    have hok1 := (stampRoom_spec room hok hfit0.middle_inBounds).2.1
    unfold stampRooms
    simp only []
    rw [ih _ hok1 (fun r hr => hfit r (List.mem_cons_of_mem _ hr)) hpw.2, stampRoom_three hok hfit0]
    constructor
    · rintro (⟨r, hr, e⟩ | ⟨e | ⟨e1, e2⟩, hno⟩)
      · exact Or.inl ⟨r, List.mem_cons_of_mem _ hr, e⟩
      · exact Or.inl ⟨room, List.mem_cons_self _ _, e⟩
      · refine Or.inr ⟨e1, ?_⟩
        intro r hr
        rcases List.mem_cons.mp hr with h | h
        · subst h; exact e2
        · exact hno r h
    · rintro (⟨r, hr, e⟩ | ⟨e1, hno⟩)
      · rcases List.mem_cons.mp hr with h | h
        · subst h
          refine Or.inr ⟨Or.inl e, ?_⟩
          intro r2 hr2 hcov
          have hmid := hfit0.covers_middle
          rw [← e] at hmid
          exact hpw.1 r2 hr2 x y ⟨hmid, hcov⟩
        · exact Or.inl ⟨r, h, e⟩
      · exact Or.inr ⟨Or.inr ⟨e1, hno room (List.mem_cons_self _ _)⟩,
          fun r hr => hno r (List.mem_cons_of_mem _ hr)⟩

theorem createCorridor_three (x1 y1 x2 y2 : Int) (grid : Grid)
    (width height corridorWidth : Int) (x y : Int) :
    getCell (createCorridor x1 y1 x2 y2 grid width height corridorWidth).2 x y = some 3 ↔
      getCell grid x y = some 3 := by
  rw [createCorridor_grid]
  obtain ⟨ha, _, _, _⟩ := carve_carved width height grid
    (corridorCells x1 y1 x2 y2 corridorWidth) (grid, []) (carved_start width height grid)
  rcases ha x y with e | ⟨e1, e2⟩
  · rw [e]
  · rw [e1, e2]
    constructor <;> intro h <;> exact absurd h (by decide)

theorem carveConnections_three (rooms : List Room) (width height corridorWidth : Int)
    (connections : List Connection) :
    ∀ (grid : Grid) (corridors result : List Corridor) (grid2 : Grid),
      carveConnections rooms width height corridorWidth connections grid corridors =
        some (result, grid2) →
      ∀ x y, getCell grid2 x y = some 3 ↔ getCell grid x y = some 3 := by
  induction connections with
  | nil =>
    intro grid corridors result grid2 h x y
    unfold carveConnections at h
    rw [Option.some.injEq, Prod.mk.injEq] at h
    rw [← h.2]
  | cons conn rest ih =>
    intro grid corridors result grid2 h x y
    unfold carveConnections at h
    split at h
    · rw [ih _ _ _ _ h x y, corridorBetween_eq, createCorridor_three]
    · exact absurd h (by simp)

theorem extraCalls_three (width height corridorWidth : Int) (calls : List (Room × Room)) :
    ∀ (grid : Grid) (x y : Int),
      getCell (calls.foldl
        (fun g p => (corridorBetween p.1 p.2 g width height corridorWidth).2) grid) x y =
          some 3 ↔ getCell grid x y = some 3 := by
  induction calls with
  | nil => intro grid x y; rfl
  | cons p calls ih =>
    intro grid x y
    rw [List.foldl_cons, ih, corridorBetween_eq, createCorridor_three]

theorem generateCorridors_three {rng rng2 : SeededRandom} {rooms : List Room}
    {grid grid2 : Grid} {width height corridorWidth : Int} {corridors : List Corridor}
    (h : generateCorridors rng rooms grid width height corridorWidth =
      some (corridors, grid2, rng2)) (x y : Int) :
    getCell grid2 x y = some 3 ↔ getCell grid x y = some 3 := by
  unfold generateCorridors at h
  by_cases hlen : rooms.length < 2
  · rw [if_pos hlen, Option.some.injEq, Prod.mk.injEq, Prod.mk.injEq] at h
    rw [← h.2.1]
  · rw [if_neg hlen] at h
    have hne : rooms ≠ [] := by
      intro e
      rw [e] at hlen
      simp at hlen
    split at h
    · exact absurd h (by simp)
    · rename_i connections rng1 e1
      split at h
      · exact absurd h (by simp)
      · rename_i cs grid1 e2
        simp only [extraLoop_calls rooms connections width height corridorWidth hne,
          Option.some.injEq, Prod.mk.injEq] at h
        rw [← h.2.1, extraCalls_three,
          carveConnections_three rooms width height corridorWidth connections grid [] cs grid1
            e2]

theorem mem_of_mem_doorsPlaced {rng : SeededRandom} {cs : List (Int × Int)} {a : Int × Int}
    (h : a ∈ doorsPlaced rng cs) : a ∈ cs := by
  obtain ⟨d, hd, _⟩ := mem_doorsPlaced.mp h
  rw [← doorDraws_fst rng cs]
  exact List.mem_map.mpr ⟨(a, d), hd, rfl⟩

theorem placeDoors_three (rng : SeededRandom) (grid : Grid) (rooms : List Room)
    (width height : Int) (x y : Int) :
    getCell (placeDoors rng grid rooms width height).1 x y = some 3 ↔
      getCell grid x y = some 3 := by
  obtain ⟨_, h2⟩ := placeDoors_fold rooms width height grid (doorCells width height)
    (grid, rng) (doorCells_nodup width height) (fun _ _ => rfl) (fun _ _ _ => rfl)
  have h := h2 x y
  unfold placeDoors
  rw [h]
  by_cases hm : (x, y) ∈ doorsPlaced rng
      ((doorCells width height).filter (isDoorCandidate grid rooms width height))
  · rw [if_pos hm]
    have hc := (List.mem_filter.mp (mem_of_mem_doorsPlaced hm)).2
    have h1 : getCell grid x y = some 1 := (isDoorCandidate_iff.mp hc).1
    rw [h1]
    constructor <;> intro h <;> exact absurd h (by decide)
  · rw [if_neg hm]

theorem generateRooms_disjoint (rng : SeededRandom) (width height roomCount : Int) :
    (generateRooms rng width height roomCount).1.Pairwise
      (fun a b => ∀ x y, ¬ (a.Covers x y ∧ b.Covers x y)) := by
  have h : (generateRooms rng width height roomCount).1.Pairwise Separated := by
    apply generateRooms_invariant (fun rooms => rooms.Pairwise Separated)
    · exact List.Pairwise.nil
    · intro rooms newRoom h _ _ hov
      rw [List.pairwise_append]
      refine ⟨h, List.pairwise_singleton _ _, ?_⟩
      intro a ha b hb
      rw [List.mem_singleton] at hb
      subst hb
      rw [List.any_eq_false] at hov
      exact separated_of_not_overlapsWith (by simpa using hov a ha)
  exact h.imp (fun hab => not_covers_of_separated hab)

/-- For a grid at least 10 by 10 and a corridor width of at least 1 every stage
of `generateDungeon` returns: the rooms of the result are the generated rooms
with their centres recorded, its grid is the grid after the doors. -/
theorem generateDungeon_stages (params : Params) (hw : 10 ≤ params.width)
    (hh : 10 ≤ params.height) (hcw : 1 ≤ params.corridorWidth) :
    ∃ corridors grid2 rng2 enc,
      generateCorridors
        (generateRooms (SeededRandom.create params.seed) params.width params.height
          params.roomCount).2
        ((generateRooms (SeededRandom.create params.seed) params.width params.height
          params.roomCount).1.map Room.withCenter)
        (stampRooms params.width params.height
          (List.replicate params.height.toNat (List.replicate params.width.toNat 0))
          (generateRooms (SeededRandom.create params.seed) params.width params.height
            params.roomCount).1).1
        params.width params.height params.corridorWidth = some (corridors, grid2, rng2) ∧
      generateDungeon params =
        some { width := params.width, height := params.height,
               grid := (placeDoors rng2 grid2
                 ((generateRooms (SeededRandom.create params.seed) params.width params.height
                   params.roomCount).1.map Room.withCenter) params.width params.height).1,
               rooms := (generateRooms (SeededRandom.create params.seed) params.width
                 params.height params.roomCount).1.map Room.withCenter,
               corridors := corridors, encounters := enc,
               biome := params.biome, difficulty := params.difficulty } := by
  have hfit := generateRooms_fits (SeededRandom.create params.seed) params.roomCount hw hh
  have hid : (generateRooms (SeededRandom.create params.seed) params.width params.height
      params.roomCount).1.map Room.id = List.range (generateRooms
        (SeededRandom.create params.seed) params.width params.height
        params.roomCount).1.length := by
    apply generateRooms_invariant (fun rooms => rooms.map Room.id = List.range rooms.length)
    · rfl
    · intro rooms newRoom h c _ _
      rw [List.map_append, List.map_singleton, List.length_append,
        List.length_singleton, List.range_succ, h, c.id_eq]
  obtain ⟨s1, s2, s3, s4⟩ := stampRooms_spec params.width params.height
    (generateRooms (SeededRandom.create params.seed) params.width params.height
      params.roomCount).1
    (List.replicate params.height.toNat (List.replicate params.width.toNat 0))
    (gridOK_replicate params.width params.height)
    (fun room hroom => (hfit room hroom).1.middle_inBounds)
  have hid2 : ((generateRooms (SeededRandom.create params.seed) params.width params.height
      params.roomCount).1.map Room.withCenter).map Room.id =
      List.range ((generateRooms (SeededRandom.create params.seed) params.width params.height
        params.roomCount).1.map Room.withCenter).length := by
    rw [List.map_map, List.length_map, ← hid]
    rfl
  obtain ⟨corridors, grid2, rng2, e1, _, _⟩ :=
    generateCorridors_connects
      (generateRooms (SeededRandom.create params.seed) params.width params.height
        params.roomCount).2 hid2
      (by
        intro room hroom
        obtain ⟨room0, h0, e0⟩ := List.mem_map.mp hroom
        rw [← e0, (hfit room0 h0).1.anchor_withCenter]
        exact (hfit room0 h0).1.middle_inBounds)
      (by
        intro room hroom
        obtain ⟨room0, h0, e0⟩ := List.mem_map.mp hroom
        rw [← e0, (hfit room0 h0).1.anchor_withCenter]
        exact s4 room0 h0)
      s2 hcw
  obtain ⟨enc, e2⟩ := generateEncounters_some
    (placeDoors rng2 grid2 ((generateRooms (SeededRandom.create params.seed) params.width
      params.height params.roomCount).1.map Room.withCenter) params.width params.height).2
    ((generateRooms (SeededRandom.create params.seed) params.width
      params.height params.roomCount).1.map Room.withCenter) params.difficulty params.biome
  have hguard : ¬ (params.height < 0 ∨ (0 < params.height ∧ params.width < 0)) := by omega
  refine ⟨corridors, grid2, rng2, enc.1, e1, ?_⟩
  rw [← s1] at e1 e2 ⊢
  exact generateDungeon_some_of params hguard e1 e2

/-- C18: for valid parameters (width and height at least 10, corridor width
1, 2 or 3) `generateDungeon` returns a dungeon in whose grid a cell holds 3
exactly when it is the floored geometric centre
`(floor(x + width / 2), floor(y + height / 2))` of some returned room; that
cell lies inside the rectangle of that room and of no other room, and the
room records it as `centerX`, `centerY`. -/
theorem generateDungeon_room_centres (params : Params) (hw : 10 ≤ params.width)
    (hh : 10 ≤ params.height)
    (hc : params.corridorWidth = 1 ∨ params.corridorWidth = 2 ∨ params.corridorWidth = 3) :
    ∃ dungeon, generateDungeon params = some dungeon ∧
      (∀ x y, getCell dungeon.grid x y = some 3 ↔
        ∃ room ∈ dungeon.rooms,
          x = room.x + room.width / 2 ∧ y = room.y + room.height / 2) ∧
      (∀ room ∈ dungeon.rooms,
        room.centerX = some (room.x + room.width / 2) ∧
        room.centerY = some (room.y + room.height / 2) ∧
        room.Covers (room.x + room.width / 2) (room.y + room.height / 2)) ∧
      dungeon.rooms.Pairwise (fun a b =>
        ¬ b.Covers (a.x + a.width / 2) (a.y + a.height / 2) ∧
        ¬ a.Covers (b.x + b.width / 2) (b.y + b.height / 2)) := by
  have hfit := generateRooms_fits (SeededRandom.create params.seed) params.roomCount hw hh
  obtain ⟨corridors, grid2, rng2, enc, e1, e2⟩ :=
    generateDungeon_stages params hw hh (by omega)
  refine ⟨_, e2, ?_, ?_, ?_⟩
  · intro x y
    show getCell (placeDoors rng2 grid2 _ params.width params.height).1 x y = some 3 ↔
      ∃ room ∈ (generateRooms (SeededRandom.create params.seed) params.width params.height
        params.roomCount).1.map Room.withCenter,
        x = room.x + room.width / 2 ∧ y = room.y + room.height / 2
    rw [placeDoors_three, generateCorridors_three e1,
      stampRooms_three _ _ (gridOK_replicate params.width params.height)
        (fun room hroom => (hfit room hroom).1)
        (generateRooms_disjoint _ _ _ _)]
    constructor
    · rintro (⟨room, hr, e⟩ | ⟨h0, _⟩)
      · exact ⟨room.withCenter, List.mem_map_of_mem _ hr, congrArg Prod.fst e,
          congrArg Prod.snd e⟩
      · have := getCell_replicate_zero _ _ _ _ _ h0
        omega
    · rintro ⟨room, hr, ex, ey⟩
      obtain ⟨room0, h0, e0⟩ := List.mem_map.mp hr
      subst e0
      exact Or.inl ⟨room0, h0, Prod.ext ex ey⟩
  · intro room hr
    obtain ⟨room0, h0, e0⟩ := List.mem_map.mp hr
    subst e0
    exact ⟨rfl, rfl, (hfit room0 h0).1.covers_middle⟩
  · show ((generateRooms (SeededRandom.create params.seed) params.width params.height
      params.roomCount).1.map Room.withCenter).Pairwise _
    rw [List.pairwise_map]
    refine (generateRooms_disjoint (SeededRandom.create params.seed) params.width
      params.height params.roomCount).imp_of_mem ?_
    intro a b ha hb hab
    exact ⟨fun h => hab _ _ ⟨(hfit a ha).1.covers_middle, h⟩,
      fun h => hab _ _ ⟨h, (hfit b hb).1.covers_middle⟩⟩

/-- Witness for C18 at the concrete scenario of the specification. -/
theorem generateDungeon_room_centres_witness :
    (10 ≤ testParams.width ∧ 10 ≤ testParams.height ∧ testParams.corridorWidth = 1) ∧
    ∃ dungeon, generateDungeon testParams = some dungeon ∧
      (∀ x y, getCell dungeon.grid x y = some 3 ↔
        ∃ room ∈ dungeon.rooms,
          x = room.x + room.width / 2 ∧ y = room.y + room.height / 2) ∧
      (∀ room ∈ dungeon.rooms,
        room.centerX = some (room.x + room.width / 2) ∧
        room.centerY = some (room.y + room.height / 2) ∧
        room.Covers (room.x + room.width / 2) (room.y + room.height / 2)) ∧
      dungeon.rooms.Pairwise (fun a b =>
        ¬ b.Covers (a.x + a.width / 2) (a.y + a.height / 2) ∧
        ¬ a.Covers (b.x + b.width / 2) (b.y + b.height / 2)) :=
  ⟨⟨by decide, by decide, rfl⟩,
    generateDungeon_room_centres testParams (by decide) (by decide) (Or.inl rfl)⟩

/-! ## NPCs with `enableAI` on -/

theorem npcCount_small {n : Nat} (h : n < 3) : ⌊(n : ℚ) * (2 / 5)⌋ = 0 := by
  rw [Int.floor_eq_iff]
  have h0 : (0 : ℚ) ≤ (n : ℚ) := Nat.cast_nonneg n
  have h1 : (n : ℚ) ≤ 2 := by exact_mod_cast (by omega : n ≤ 2)
  constructor
  · push_cast; linarith
  · push_cast; linarith

theorem generateNPCs_few_rooms (dungeon : GeneratedDungeon) (params : Params)
    (h : params.enableAI = true) (hn : dungeon.rooms.length < 3) :
    generateNPCs dungeon params = some [] := by
  unfold generateNPCs
  simp only [h, Bool.not_true, Bool.false_eq_true, if_false, npcCount_small hn, Int.toNat_zero]
  rfl

/-- C40: with `enableAI` true `generateNPCs` returns the empty list when the
dungeon has fewer than 3 rooms and raises (the `ReferenceError` of the
undeclared `getNames` in the first `generateSingleNPC` call) when it has 3 or
more; so whatever it returns is the empty list, for a dungeon of fewer than 3
rooms. -/
theorem generateNPCs_enabled (dungeon : GeneratedDungeon) (params : Params)
    (h : params.enableAI = true) :
    (dungeon.rooms.length < 3 → generateNPCs dungeon params = some []) ∧
    (3 ≤ dungeon.rooms.length → generateNPCs dungeon params = none) ∧
    (∀ npcs, generateNPCs dungeon params = some npcs →
      npcs = [] ∧ dungeon.rooms.length < 3) := by
  refine ⟨generateNPCs_few_rooms dungeon params h, generateNPCs_raises dungeon params h, ?_⟩
  intro npcs hs
  by_cases hn : dungeon.rooms.length < 3
  · rw [generateNPCs_few_rooms dungeon params h hn] at hs
    exact ⟨(Option.some.inj hs).symm, hn⟩
  · rw [generateNPCs_raises dungeon params h (by omega)] at hs
    exact absurd hs (by simp)

/-- Witness for C40: the scenario parameters on the dungeon without rooms and
on the dungeon with three rooms. -/
theorem generateNPCs_enabled_witness :
    testParams.enableAI = true ∧
    generateNPCs emptyDungeon testParams = some [] ∧
    generateNPCs threeRoomDungeon testParams = none :=
  ⟨rfl, (generateNPCs_enabled emptyDungeon testParams rfl).1 (by decide),
    (generateNPCs_enabled threeRoomDungeon testParams rfl).2.1 (by decide)⟩

/-! ## The loop of weightedChoice always returns -/

theorem weightedLoop_total {α : Type} (weights : List ℚ) (items : List α) (x : ℚ)
    (hne : items ≠ []) (hlen : weights.length = items.length) (hx : x ≤ weights.sum) :
    ∃ j, ∃ h : j < items.length,
      x ≤ (weights.take (j + 1)).sum ∧
      (∀ k, k < j → ¬ x ≤ (weights.take (k + 1)).sum) ∧
      weightedLoop weights items 0 (some x) = some items[j] := by
  have hpos : 0 < items.length := List.length_pos.mpr hne
  have hlast : x ≤ (weights.take (items.length - 1 + 1)).sum := by
    rw [show items.length - 1 + 1 = weights.length by omega, List.take_length]
    exact hx
  obtain ⟨j, hj, h1, h2, h3⟩ := weightedLoop_least weights x items 0
    (by omega) (by intro k hk; omega) ⟨items.length - 1, Nat.zero_le _, by omega, hlast⟩
  simp only [List.take_zero, List.sum_nil, sub_zero, Nat.zero_add] at h1 h2 h3
  exact ⟨j, hj, h1, h2, h3⟩

/-- C37: in exact arithmetic, for a non-empty list of items with as many
non-negative weights and every draw `r < 1` (so every `r` in `[0, 1)`), the
loop of `weightedChoice` returns an item before it ends; the statement after
the loop, which falls back to the last item, is not reached, and what
`weightedChoice` returns is what its loop returned. -/
theorem weightedChoice_loop_returns {α : Type} (items : List α) (weights : List ℚ)
    (hne : items ≠ []) (hlen : weights.length = items.length)
    (hw : ∀ w ∈ weights, 0 ≤ w) :
    (∀ r : ℚ, r < 1 → ∃ item ∈ items,
      weightedLoop weights items 0
        (some (r * weights.foldl (fun sum weight => sum + weight) 0)) = some item) ∧
    (∀ rng : SeededRandom, ∃ item ∈ items,
      weightedLoop weights items 0
        (some (rng.next.1 * weights.foldl (fun sum weight => sum + weight) 0)) = some item ∧
      (rng.weightedChoice items weights).1 = some item) := by
  have hT : 0 ≤ weights.sum := List.sum_nonneg hw
  have key : ∀ r : ℚ, r < 1 → ∃ item ∈ items,
      weightedLoop weights items 0
        (some (r * weights.foldl (fun sum weight => sum + weight) 0)) = some item := by
    intro r hr
    rw [foldl_add_eq_sum]
    have hx : r * weights.sum ≤ weights.sum := by
      calc r * weights.sum ≤ 1 * weights.sum :=
            mul_le_mul_of_nonneg_right (le_of_lt hr) hT
        _ = weights.sum := one_mul _
    obtain ⟨j, hj, _, _, h3⟩ := weightedLoop_total weights items _ hne hlen hx
    exact ⟨items[j], List.getElem_mem hj, h3⟩
  refine ⟨key, ?_⟩
  intro rng
  obtain ⟨item, hm, hl⟩ := key rng.next.1 (next_lt_one rng)
  refine ⟨item, hm, hl, ?_⟩
  unfold SeededRandom.weightedChoice
  simp only [hl]

/-- Witness for C37: two items with weights 1 and 3. -/
theorem weightedChoice_loop_returns_witness :
    (∀ r : ℚ, r < 1 → ∃ item ∈ ["a", "b"],
      weightedLoop [1, 3] ["a", "b"] 0
        (some (r * ([1, 3] : List ℚ).foldl (fun sum weight => sum + weight) 0)) = some item) ∧
    (∀ rng : SeededRandom, ∃ item ∈ ["a", "b"],
      weightedLoop [1, 3] ["a", "b"] 0
        (some (rng.next.1 * ([1, 3] : List ℚ).foldl (fun sum weight => sum + weight) 0)) =
          some item ∧
      (rng.weightedChoice ["a", "b"] [1, 3]).1 = some item) :=
  weightedChoice_loop_returns ["a", "b"] [1, 3] (by simp) (by simp)
    (by intro w hw; simp at hw; rcases hw with h | h <;> rw [h] <;> norm_num)

/-! ## Rarities -/

theorem rarity_weights_cases (difficulty : String) :
    (rarityWeights.lookup difficulty).getD [50, 30, 15, 4, 1] = [70, 25, 4, 1, 0] ∨
    (rarityWeights.lookup difficulty).getD [50, 30, 15, 4, 1] = [50, 30, 15, 4, 1] ∨
    (rarityWeights.lookup difficulty).getD [50, 30, 15, 4, 1] = [30, 35, 25, 8, 2] ∨
    (rarityWeights.lookup difficulty).getD [50, 30, 15, 4, 1] = [20, 30, 30, 15, 5] := by
  cases h : rarityWeights.lookup difficulty with
  | none => right; left; rfl
  | some v =>
    have hm := lookup_mem difficulty rarityWeights h
    simp only [rarityWeights, List.map_cons, List.map_nil, List.mem_cons, List.mem_singleton,
      List.not_mem_nil, or_false] at hm
    simp only [Option.getD_some]
    exact hm

theorem determineRarity_index (rng : SeededRandom) (difficulty : String) :
    ∃ j, ∃ h : j < rarityNames.length,
      (determineRarity rng difficulty).1 = some rarityNames[j] ∧
      ∀ k, k < j → ¬ rng.next.1 *
          ((rarityWeights.lookup difficulty).getD [50, 30, 15, 4, 1]).sum ≤
        (((rarityWeights.lookup difficulty).getD [50, 30, 15, 4, 1]).take (k + 1)).sum := by
  have hw : ∀ w ∈ (rarityWeights.lookup difficulty).getD [50, 30, 15, 4, 1], (0 : ℚ) ≤ w := by
    intro w hwm
    rcases rarity_weights_cases difficulty with e | e | e | e <;> rw [e] at hwm <;>
      simp only [List.mem_cons, List.mem_singleton, List.not_mem_nil, or_false] at hwm <;>
      rcases hwm with h | h | h | h | h <;> rw [h] <;> norm_num
  have hlen : ((rarityWeights.lookup difficulty).getD [50, 30, 15, 4, 1]).length =
      rarityNames.length := by
    rcases rarity_weights_cases difficulty with e | e | e | e <;> rw [e] <;> rfl
  have hT := List.sum_nonneg hw
  have hx : rng.next.1 * ((rarityWeights.lookup difficulty).getD [50, 30, 15, 4, 1]).sum ≤
      ((rarityWeights.lookup difficulty).getD [50, 30, 15, 4, 1]).sum := by
    calc rng.next.1 * _ ≤ 1 * ((rarityWeights.lookup difficulty).getD [50, 30, 15, 4, 1]).sum :=
          mul_le_mul_of_nonneg_right (le_of_lt (next_lt_one rng)) hT
      _ = _ := one_mul _
  obtain ⟨j, hj, _, h2, h3⟩ := weightedLoop_total _ rarityNames _ (by decide) hlen hx
  refine ⟨j, hj, ?_, h2⟩
  unfold determineRarity SeededRandom.weightedChoice
  simp only [foldl_add_eq_sum, h3]

/-- C38: `determineRarity` returns one of common, uncommon, rare, epic,
legendary, for every difficulty string and generator state; at difficulty
`easy`, where the weight of legendary is 0, it returns one of the first four
and never legendary. -/
theorem determineRarity_names (rng : SeededRandom) (difficulty : String) :
    (∃ name ∈ rarityNames, (determineRarity rng difficulty).1 = some name) ∧
    (∃ name ∈ ["common", "uncommon", "rare", "epic"],
      (determineRarity rng "easy").1 = some name) ∧
    (determineRarity rng "easy").1 ≠ some "legendary" := by
  have easy : ∃ name ∈ ["common", "uncommon", "rare", "epic"],
      (determineRarity rng "easy").1 = some name := by
    obtain ⟨j, hj, h1, h2⟩ := determineRarity_index rng "easy"
    have e : (rarityWeights.lookup "easy").getD [50, 30, 15, 4, 1] = [70, 25, 4, 1, 0] := rfl
    rw [e] at h2
    have hj5 : j < 5 := hj
    have hj3 : j ≤ 3 := by
      by_contra hgt
      apply h2 3 (by omega)
      have hlt : rng.next.1 < 1 := next_lt_one rng
      norm_num
      linarith
    have hq : (determineRarity rng "easy").1 = rarityNames[j]? := by
      rw [h1, List.getElem?_eq_getElem hj]
    rcases (by omega : j = 0 ∨ j = 1 ∨ j = 2 ∨ j = 3) with h | h | h | h <;> rw [h] at hq
    · exact ⟨"common", by simp, hq⟩
    · exact ⟨"uncommon", by simp, hq⟩
    · exact ⟨"rare", by simp, hq⟩
    · exact ⟨"epic", by simp, hq⟩
  refine ⟨?_, easy, ?_⟩
  · obtain ⟨j, hj, h1, _⟩ := determineRarity_index rng difficulty
    exact ⟨rarityNames[j], List.getElem_mem hj, h1⟩
  · obtain ⟨name, hm, hn⟩ := easy
    rw [hn]
    intro e
    rw [Option.some.injEq] at e
    subst e
    exact absurd hm (by decide)

/-! ## Seeds with congruent hashes -/

/-- C33: two seed strings whose hashes are congruent modulo 233280 give equal
results (value and generator) at the first `next()`, `nextInt` and `choice`
call, hence at every later call, and equal draw sequences; the sequence of a
seed is that of the generator in state `hashString(seed) mod 233280`, so at
most 233280 streams exist. -/
theorem streams_depend_on_hash_mod (seed1 seed2 : List Nat)
    (h : hashString seed1 % 233280 = hashString seed2 % 233280) :
    (SeededRandom.create seed1).next = (SeededRandom.create seed2).next ∧
    (∀ lo hi : Int, (SeededRandom.create seed1).nextInt lo hi =
      (SeededRandom.create seed2).nextInt lo hi) ∧
    (∀ (α : Type) (array : List α), (SeededRandom.create seed1).choice array =
      (SeededRandom.create seed2).choice array) ∧
    (∀ n, nthDraw (SeededRandom.create seed1) n = nthDraw (SeededRandom.create seed2) n) ∧
    (∀ n, nthDraw (SeededRandom.create seed1) n = nthDraw ⟨hashString seed1 % 233280⟩ n) ∧
    hashString seed1 % 233280 < 233280 := by
  have s1 : (SeededRandom.create seed1).next.2.seed =
      (hashString seed1 * 9301 + 49297) % 233280 :=
    next_seed_of_le (hashString_le seed1)
  have s2 : (SeededRandom.create seed2).next.2.seed =
      (hashString seed2 * 9301 + 49297) % 233280 :=
    next_seed_of_le (hashString_le seed2)
  have s3 : (⟨hashString seed1 % 233280⟩ : SeededRandom).next.2.seed =
      (hashString seed1 % 233280 * 9301 + 49297) % 233280 :=
    next_seed_of_le (by
      show hashString seed1 % 233280 ≤ 2 ^ 31
      have : hashString seed1 % 233280 < 233280 := Nat.mod_lt _ (by norm_num)
      have : (233280 : Nat) ≤ 2 ^ 31 := by norm_num
      omega)
  have hnext : (SeededRandom.create seed1).next = (SeededRandom.create seed2).next :=
    next_eq_of_seed_eq (by rw [s1, s2]; exact (lcg_step_mod_iff _ _).mpr h)
  have hcanon : (SeededRandom.create seed1).next =
      (⟨hashString seed1 % 233280⟩ : SeededRandom).next :=
    next_eq_of_seed_eq (by
      rw [s1, s3]
      exact (lcg_step_mod_iff _ _).mpr (Nat.mod_mod _ _).symm)
  refine ⟨hnext, ?_, ?_, nthDraw_congr hnext, nthDraw_congr hcanon,
    Nat.mod_lt _ (by norm_num)⟩
  · intro lo hi
    simp only [SeededRandom.nextInt, hnext]
  · intro α array
    simp only [SeededRandom.choice, SeededRandom.nextInt, hnext]

/-- Witness for C33: the seeds "Aa" and "BB", whose hashes are equal. -/
theorem streams_depend_on_hash_mod_witness :
    hashString [65, 97] % 233280 = hashString [66, 66] % 233280 ∧
    (SeededRandom.create [65, 97]).next = (SeededRandom.create [66, 66]).next ∧
    (∀ n, nthDraw (SeededRandom.create [65, 97]) n =
      nthDraw (SeededRandom.create [66, 66]) n) :=
  ⟨by decide, (streams_depend_on_hash_mod [65, 97] [66, 66] (by decide)).1,
    (streams_depend_on_hash_mod [65, 97] [66, 66] (by decide)).2.2.2.1⟩

/-! ## Value and rarity -/

theorem calculateValue_base (rng : SeededRandom) (rarity : String)
    (itemType : Option String) (lo hi : Int)
    (h : rarityRange.lookup rarity = some (lo, hi)) :
    ∃ base : Int, lo ≤ base ∧ base ≤ hi ∧
      (calculateValue rng (some rarity) itemType).1 =
        toString ⌊(base : ℚ) * (typeMultiplier.lookup (jsToString itemType)).getD 1⌋ ++
          " gp" := by
  have hp := lookup_mem_pair rarity rarityRange h
  simp only [rarityRange, List.mem_cons, List.mem_singleton, List.not_mem_nil, or_false,
    Prod.mk.injEq] at hp
  have c1 := nextInt_ge rng (by decide : (1 : Int) ≤ 50)
  have c2 := nextInt_le rng (by decide : (1 : Int) ≤ 50)
  have u1 := nextInt_ge (rng.nextInt 1 50).2 (by decide : (51 : Int) ≤ 250)
  have u2 := nextInt_le (rng.nextInt 1 50).2 (by decide : (51 : Int) ≤ 250)
  have r1 := nextInt_ge ((rng.nextInt 1 50).2.nextInt 51 250).2 (by decide : (251 : Int) ≤ 1000)
  have r2 := nextInt_le ((rng.nextInt 1 50).2.nextInt 51 250).2 (by decide : (251 : Int) ≤ 1000)
  have e1 := nextInt_ge (((rng.nextInt 1 50).2.nextInt 51 250).2.nextInt 251 1000).2
    (by decide : (1001 : Int) ≤ 5000)
  have e2 := nextInt_le (((rng.nextInt 1 50).2.nextInt 51 250).2.nextInt 251 1000).2
    (by decide : (1001 : Int) ≤ 5000)
  have l1 := nextInt_ge
    ((((rng.nextInt 1 50).2.nextInt 51 250).2.nextInt 251 1000).2.nextInt 1001 5000).2
    (by decide : (5001 : Int) ≤ 25000)
  have l2 := nextInt_le
    ((((rng.nextInt 1 50).2.nextInt 51 250).2.nextInt 251 1000).2.nextInt 1001 5000).2
    (by decide : (5001 : Int) ≤ 25000)
  rcases hp with ⟨hr, hlo, hhi⟩ | ⟨hr, hlo, hhi⟩ | ⟨hr, hlo, hhi⟩ | ⟨hr, hlo, hhi⟩ |
    ⟨hr, hlo, hhi⟩ <;> subst hr hlo hhi
  · refine ⟨(rng.nextInt 1 50).1, c1, c2, ?_⟩
    simp [calculateValue, jsToString, List.lookup]
  · refine ⟨((rng.nextInt 1 50).2.nextInt 51 250).1, u1, u2, ?_⟩
    have : ((rng.nextInt 1 50).2.nextInt 51 250).1 ≠ 0 := by omega
    simp [calculateValue, jsToString, List.lookup, this]
  · refine ⟨(((rng.nextInt 1 50).2.nextInt 51 250).2.nextInt 251 1000).1, r1, r2, ?_⟩
    have : (((rng.nextInt 1 50).2.nextInt 51 250).2.nextInt 251 1000).1 ≠ 0 := by omega
    simp [calculateValue, jsToString, List.lookup, this]
  · refine ⟨((((rng.nextInt 1 50).2.nextInt 51 250).2.nextInt 251 1000).2.nextInt 1001
      5000).1, e1, e2, ?_⟩
    have : ((((rng.nextInt 1 50).2.nextInt 51 250).2.nextInt 251 1000).2.nextInt 1001
      5000).1 ≠ 0 := by omega
    simp [calculateValue, jsToString, List.lookup, this]
  · refine ⟨(((((rng.nextInt 1 50).2.nextInt 51 250).2.nextInt 251 1000).2.nextInt 1001
      5000).2.nextInt 5001 25000).1, l1, l2, ?_⟩
    have : (((((rng.nextInt 1 50).2.nextInt 51 250).2.nextInt 251 1000).2.nextInt 1001
      5000).2.nextInt 5001 25000).1 ≠ 0 := by omega
    simp [calculateValue, jsToString, List.lookup, this]

theorem rarity_range_at {k : Nat} {r : String} (h : rarityNames[k]? = some r) :
    ∃ lo hi : Int, rarityRange.lookup r = some (lo, hi) ∧
      [(1 : Int), 51, 251, 1001, 5001][k]? = some lo ∧
      [(50 : Int), 250, 1000, 5000, 25000][k]? = some hi := by
  have hk : k < 5 := by
    by_contra hge
    have : rarityNames[k]? = none := List.getElem?_eq_none (by
      show rarityNames.length ≤ k
      have : rarityNames.length = 5 := rfl
      omega)
    rw [this] at h
    exact absurd h (by simp)
  rcases (by omega : k = 0 ∨ k = 1 ∨ k = 2 ∨ k = 3 ∨ k = 4) with e | e | e | e | e <;>
    subst e <;> simp only [rarityNames, List.getElem?_cons_zero, List.getElem?_cons_succ,
      Option.some.injEq] at h <;> subst h
  · exact ⟨1, 50, rfl, rfl, rfl⟩
  · exact ⟨51, 250, rfl, rfl, rfl⟩
  · exact ⟨251, 1000, rfl, rfl, rfl⟩
  · exact ⟨1001, 5000, rfl, rfl, rfl⟩
  · exact ⟨5001, 25000, rfl, rfl, rfl⟩

theorem rarity_ranges_ordered {i j : Nat} {hi lo : Int} (hij : i < j)
    (h1 : [(50 : Int), 250, 1000, 5000, 25000][i]? = some hi)
    (h2 : [(1 : Int), 51, 251, 1001, 5001][j]? = some lo) : hi < lo := by
  have hj : j < 5 := by
    by_contra hge
    have : [(1 : Int), 51, 251, 1001, 5001][j]? = none :=
      List.getElem?_eq_none (by simp; omega)
    rw [this] at h2
    exact absurd h2 (by simp)
  rcases (by omega : j = 1 ∨ j = 2 ∨ j = 3 ∨ j = 4) with e | e | e | e <;> subst e
  · rcases (by omega : i = 0) with e
    subst e
    simp at h1 h2
    omega
  · rcases (by omega : i = 0 ∨ i = 1) with e | e <;> subst e <;> simp at h1 h2 <;> omega
  · rcases (by omega : i = 0 ∨ i = 1 ∨ i = 2) with e | e | e <;> subst e <;>
      simp at h1 h2 <;> omega
  · rcases (by omega : i = 0 ∨ i = 1 ∨ i = 2 ∨ i = 3) with e | e | e | e <;> subst e <;>
      simp at h1 h2 <;> omega

/-- C39: for a fixed item type, the value `calculateValue` gives a higher
rarity is at least the value it gives a lower rarity, whatever the two
generator states: with `lower` before `higher` in the order common, uncommon,
rare, epic, legendary, the two results are `"<v1> gp"` and `"<v2> gp"` with
`v = floor(base * mult)`, `base1 < base2` and `v1 ≤ v2`. -/
theorem calculateValue_monotone (rng1 rng2 : SeededRandom) (itemType : Option String)
    (i j : Nat) (lower higher : String) (hij : i < j)
    (h1 : rarityNames[i]? = some lower) (h2 : rarityNames[j]? = some higher) :
    ∃ base1 base2 : Int, base1 < base2 ∧
      (calculateValue rng1 (some lower) itemType).1 =
        toString ⌊(base1 : ℚ) * (typeMultiplier.lookup (jsToString itemType)).getD 1⌋ ++
          " gp" ∧
      (calculateValue rng2 (some higher) itemType).1 =
        toString ⌊(base2 : ℚ) * (typeMultiplier.lookup (jsToString itemType)).getD 1⌋ ++
          " gp" ∧
      ⌊(base1 : ℚ) * (typeMultiplier.lookup (jsToString itemType)).getD 1⌋ ≤
        ⌊(base2 : ℚ) * (typeMultiplier.lookup (jsToString itemType)).getD 1⌋ := by
  obtain ⟨lo1, hi1, r1, _, b1⟩ := rarity_range_at h1
  obtain ⟨lo2, hi2, r2, a2, _⟩ := rarity_range_at h2
  obtain ⟨base1, _, u1, e1⟩ := calculateValue_base rng1 lower itemType lo1 hi1 r1
  obtain ⟨base2, l2, _, e2⟩ := calculateValue_base rng2 higher itemType lo2 hi2 r2
  have hlt : base1 < base2 := by
    have := rarity_ranges_ordered hij b1 a2
    omega
  exact ⟨base1, base2, hlt, e1, e2,
    (floor_mul_bounds (typeMultiplier_nonneg (jsToString itemType)) (le_of_lt hlt)
      (le_refl base2)).1⟩

/-- Witness for C39: a common and a legendary gem, from the states 0 and 1. -/
theorem calculateValue_monotone_witness :
    (0 : Nat) < 4 ∧ rarityNames[0]? = some "common" ∧ rarityNames[4]? = some "legendary" ∧
    ∃ base1 base2 : Int, base1 < base2 ∧
      (calculateValue ⟨0⟩ (some "common") (some "gem")).1 =
        toString ⌊(base1 : ℚ) * (typeMultiplier.lookup (jsToString (some "gem"))).getD 1⌋ ++
          " gp" ∧
      (calculateValue ⟨1⟩ (some "legendary") (some "gem")).1 =
        toString ⌊(base2 : ℚ) * (typeMultiplier.lookup (jsToString (some "gem"))).getD 1⌋ ++
          " gp" ∧
      ⌊(base1 : ℚ) * (typeMultiplier.lookup (jsToString (some "gem"))).getD 1⌋ ≤
        ⌊(base2 : ℚ) * (typeMultiplier.lookup (jsToString (some "gem"))).getD 1⌋ :=
  ⟨by decide, rfl, rfl,
    calculateValue_monotone ⟨0⟩ ⟨1⟩ (some "gem") 0 4 "common" "legendary" (by decide) rfl rfl⟩

/-! ## The centre line of a corridor -/

theorem horizontalFirst_iff {x1 y1 x2 y2 : Int} :
    horizontalFirst x1 y1 x2 y2 = true ↔ |x2 - x1| > |y2 - y1| := by
  simp [horizontalFirst]

/-- C31: on a grid of `width` by `height` cells, for endpoints inside the
bounds and a corridor width of at least 1, after `createCorridor` every cell
of the L-shaped centre line is not wall: the row of the start and the column
of the end when horizontal-first, the column of the start and the row of the
end when vertical-first (ties included); so the end is reached from the start
by a path of orthogonally adjacent cells that are not wall. -/
theorem createCorridor_centre_line (x1 y1 x2 y2 : Int) (grid : Grid)
    (width height corridorWidth : Int) (hok : GridOK width height grid)
    (h1 : inBounds width height x1 y1 = true) (h2 : inBounds width height x2 y2 = true)
    (hw : 1 ≤ corridorWidth) :
    (|x2 - x1| > |y2 - y1| →
      (∀ x, min x1 x2 ≤ x → x ≤ max x1 x2 →
        Walkable (createCorridor x1 y1 x2 y2 grid width height corridorWidth).2 (x, y1)) ∧
      (∀ y, min y1 y2 ≤ y → y ≤ max y1 y2 →
        Walkable (createCorridor x1 y1 x2 y2 grid width height corridorWidth).2 (x2, y))) ∧
    (|x2 - x1| ≤ |y2 - y1| →
      (∀ y, min y1 y2 ≤ y → y ≤ max y1 y2 →
        Walkable (createCorridor x1 y1 x2 y2 grid width height corridorWidth).2 (x1, y)) ∧
      (∀ x, min x1 x2 ≤ x → x ≤ max x1 x2 →
        Walkable (createCorridor x1 y1 x2 y2 grid width height corridorWidth).2 (x, y2))) ∧
    Reachable (createCorridor x1 y1 x2 y2 grid width height corridorWidth).2
      (x1, y1) (x2, y2) := by
  refine ⟨?_, ?_, (createCorridor_reachable hok h1 h2 hw).2.2⟩
  · intro hd
    rw [createCorridor_grid]
    obtain ⟨_, _, a3⟩ := carve_spec width height (corridorCells x1 y1 x2 y2 corridorWidth)
      (grid, []) hok
    rw [inBounds_iff] at h1 h2
    unfold corridorCells at a3 ⊢
    rw [if_pos (horizontalFirst_iff.mpr hd)] at a3 ⊢
    constructor
    · intro x hx1 hx2
      exact a3 (x, y1) (List.mem_append_left _ (mem_horizontalCells hw hx1 hx2))
        (inBounds_iff.mpr ⟨by omega, by omega, h1.2.2.1, h1.2.2.2⟩)
    · intro y hy1 hy2
      exact a3 (x2, y) (List.mem_append_right _ (mem_verticalCells hw hy1 hy2))
        (inBounds_iff.mpr ⟨h2.1, h2.2.1, by omega, by omega⟩)
  · intro hd
    rw [createCorridor_grid]
    obtain ⟨_, _, a3⟩ := carve_spec width height (corridorCells x1 y1 x2 y2 corridorWidth)
      (grid, []) hok
    rw [inBounds_iff] at h1 h2
    have hf : ¬ horizontalFirst x1 y1 x2 y2 = true := by
      rw [horizontalFirst_iff]
      omega
    unfold corridorCells at a3 ⊢
    rw [if_neg hf] at a3 ⊢
    constructor
    · intro y hy1 hy2
      exact a3 (x1, y) (List.mem_append_left _ (mem_verticalCells hw hy1 hy2))
        (inBounds_iff.mpr ⟨h1.1, h1.2.1, by omega, by omega⟩)
    · intro x hx1 hx2
      exact a3 (x, y2) (List.mem_append_right _ (mem_horizontalCells hw hx1 hx2))
        (inBounds_iff.mpr ⟨by omega, by omega, h2.2.2.1, h2.2.2.2⟩)

/-- Witness for C31: a corridor of width 2 from (3, 4) to (12, 9) on the 20 by
20 grid of walls. -/
theorem createCorridor_centre_line_witness :
    GridOK 20 20 wallGrid ∧ inBounds 20 20 3 4 = true ∧ inBounds 20 20 12 9 = true ∧
    (1 : Int) ≤ 2 ∧
    (|(12 : Int) - 3| > |(9 : Int) - 4| →
      (∀ x, min 3 12 ≤ x → x ≤ max 3 12 →
        Walkable (createCorridor 3 4 12 9 wallGrid 20 20 2).2 (x, 4)) ∧
      (∀ y, min 4 9 ≤ y → y ≤ max 4 9 →
        Walkable (createCorridor 3 4 12 9 wallGrid 20 20 2).2 (12, y))) ∧
    Reachable (createCorridor 3 4 12 9 wallGrid 20 20 2).2 (3, 4) (12, 9) :=
  ⟨gridOK_replicate 20 20, by decide, by decide, by decide,
    (createCorridor_centre_line 3 4 12 9 wallGrid 20 20 2 (gridOK_replicate 20 20)
      (by decide) (by decide) (by decide)).1,
    (createCorridor_centre_line 3 4 12 9 wallGrid 20 20 2 (gridOK_replicate 20 20)
      (by decide) (by decide) (by decide)).2.2⟩

/-! ## The fallback of the spanning tree -/

/-- C32: with every room centre defined, a pass of the loop of
`createMinimumSpanningTree` over non-empty connected and unconnected sets of
room ids always finds a best connection, so the fallback branch (the only
place where the function draws) is not taken; on rooms whose ids are their
indices the tree is returned with the generator as it was. -/
theorem spanningTree_fallback_unreachable (rooms : List Room)
    (hcen : ∀ room ∈ rooms, room.centerX.isSome = true ∧ room.centerY.isSome = true) :
    (∀ connected unconnected : List Nat, connected ≠ [] → unconnected ≠ [] →
      (∀ i ∈ connected, i < rooms.length) → (∀ i ∈ unconnected, i < rooms.length) →
      ∃ best, scanPairs rooms (allPairs connected unconnected) none = some (some best)) ∧
    (∀ rng : SeededRandom, rooms.map Room.id = List.range rooms.length → 0 < rooms.length →
      ∃ connections, createMinimumSpanningTree rooms rng = some (connections, rng) ∧
        connections.length = rooms.length - 1) := by
  constructor
  · intro connected unconnected hc hu hcv huv
    obtain ⟨c, hcm⟩ := List.exists_mem_of_ne_nil _ hc
    obtain ⟨u, hum⟩ := List.exists_mem_of_ne_nil _ hu
    have hne : allPairs connected unconnected ≠ [] := by
      intro e
      have : (c, u) ∈ allPairs connected unconnected := mem_allPairs.mpr ⟨hcm, hum⟩
      rw [e] at this
      simp at this
    obtain ⟨_, p, _, _, hs, _, _⟩ := scanPairs_first_min (centres_of_isSome hcen)
      (allPairs connected unconnected)
      (fun p hp => ⟨hcv _ (mem_allPairs.mp hp).1, huv _ (mem_allPairs.mp hp).2⟩) hne
    exact ⟨_, hs⟩
  · intro rng hid hpos
    obtain ⟨connections, hrun, hlen, _⟩ :=
      createMinimumSpanningTree_greedy rng hid hpos (centres_of_isSome hcen)
    exact ⟨connections, hrun, hlen⟩

/-- Witness for C32: the three rooms with centres (3, 3), (13, 4), (5, 14). -/
theorem spanningTree_fallback_unreachable_witness :
    (∀ room ∈ centredRooms, room.centerX.isSome = true ∧ room.centerY.isSome = true) ∧
    (∃ best, scanPairs centredRooms (allPairs [0] [1, 2]) none = some (some best)) ∧
    ∃ connections, createMinimumSpanningTree centredRooms ⟨7⟩ = some (connections, ⟨7⟩) ∧
      connections.length = centredRooms.length - 1 :=
  ⟨by decide,
    (spanningTree_fallback_unreachable centredRooms (by decide)).1 [0] [1, 2] (by simp)
      (by simp) (by decide) (by decide),
    (spanningTree_fallback_unreachable centredRooms (by decide)).2 ⟨7⟩ (by decide)
      (by decide)⟩

/-! ## The list of corridors -/

theorem mstLoop_length (rooms : List Room) :
    ∀ (fuel : Nat) (connected unconnected : List Nat) (connections : List Connection)
      (rng : SeededRandom),
      unconnected.length ≤ fuel → connected ≠ [] →
      (∀ c ∈ connected, c < rooms.length) → (∀ u ∈ unconnected, u < rooms.length) →
      ∃ result rng2, mstLoop rooms fuel connected unconnected connections rng =
          some (result, rng2) ∧
        result.length = connections.length + unconnected.length := by
  intro fuel
  induction fuel with
  | zero =>
    intro connected unconnected connections rng hlen _ _ _
    have : unconnected = [] := List.length_eq_zero.mp (by omega)
    subst this
    exact ⟨connections, rng, rfl, rfl⟩
  | succ fuel ih =>
    intro connected unconnected connections rng hlen hne hc hu
    cases unconnected with
    | nil => exact ⟨connections, rng, rfl, rfl⟩
    | cons first rest =>
      have key : ∀ (source target : Nat) (rng1 : SeededRandom), target ∈ first :: rest →
          ∃ result rng2, mstLoop rooms fuel (setAdd connected target)
              ((first :: rest).erase target) (connections ++ [⟨source, target⟩]) rng1 =
              some (result, rng2) ∧
            result.length = connections.length + (first :: rest).length := by
        intro source target rng1 ht
        have hl : ((first :: rest).erase target).length = rest.length := by
          rw [List.length_erase_of_mem ht]
          simp
        obtain ⟨result, rng2, e, p1⟩ := ih (setAdd connected target)
          ((first :: rest).erase target) (connections ++ [⟨source, target⟩]) rng1
          (by rw [hl]; simpa using hlen)
          (by
            intro h
            have : target ∈ setAdd connected target := mem_setAdd.mpr (Or.inr rfl)
            rw [h] at this
            simp at this)
          (by
            intro c hcm
            rcases mem_setAdd.mp hcm with h | h
            · exact hc c h
            · subst h; exact hu _ ht)
          (fun u hum => hu u (List.mem_of_mem_erase hum))
        refine ⟨result, rng2, e, ?_⟩
        rw [p1, hl]
        simp
        omega
      obtain ⟨b, eb, hb⟩ := scanPairs_spec rooms (allPairs connected (first :: rest)) none
        (fun p hp => ⟨hc _ (mem_allPairs.mp hp).1, hu _ (mem_allPairs.mp hp).2⟩)
      rw [mstLoop]
      simp only [eb]
      rcases hb with e | ⟨p, hp, d, e⟩
      · subst e
        simp only []
        have hpos : 0 < connected.length := List.length_pos.mpr hne
        have hex := jsIndex_some_of_lt connected
          (nextInt_ge rng (by omega : (0 : Int) ≤ (connected.length : Int) - 1))
          (by
            have := nextInt_le rng (by omega : (0 : Int) ≤ (connected.length : Int) - 1)
            omega)
        revert hex
        generalize rng.nextInt 0 ((connected.length : Int) - 1) = r
        rintro ⟨c, _, ec⟩
        rw [ec]
        exact key c first _ (List.mem_cons_self _ _)
      · subst e
        exact key p.1 p.2 rng (mem_allPairs.mp hp).2

theorem createMinimumSpanningTree_length {rooms : List Room} (rng : SeededRandom)
    (hid : rooms.map Room.id = List.range rooms.length) (hpos : 0 < rooms.length) :
    ∃ connections rng2, createMinimumSpanningTree rooms rng = some (connections, rng2) ∧
      connections.length = rooms.length - 1 ∧
      ∀ conn ∈ connections, conn.source < rooms.length ∧ conn.target < rooms.length := by
  obtain ⟨connections, rng2, e, hvalid, _⟩ := createMinimumSpanningTree_spans rng hid hpos
  have hconn : setOfList [0] = [0] := rfl
  have eU : (rooms.drop 1).map (fun room => room.id) = List.range' 1 (rooms.length - 1) := by
    rw [← range_eq_range'_one _ hpos, ← hid, List.map_drop]
  obtain ⟨result, rng3, e2, hl⟩ := mstLoop_length rooms
    (setOfList ((rooms.drop 1).map (fun room => room.id))).length (setOfList [0])
    (setOfList ((rooms.drop 1).map (fun room => room.id))) [] rng (le_refl _)
    (by rw [hconn]; simp)
    (by rw [hconn]; intro c hcm; rw [List.mem_singleton] at hcm; omega)
    (by intro u hum; exact ((mem_drop_one_ids hid).mp (mem_setOfList.mp hum)).2)
  have e3 : createMinimumSpanningTree rooms rng = some (result, rng3) := e2
  rw [e] at e3
  rw [Option.some.injEq, Prod.mk.injEq] at e3
  refine ⟨connections, rng2, e, ?_, hvalid⟩
  rw [e3.1, hl, eU, setOfList_of_nodup (List.nodup_range' 1 _), List.length_range']
  simp

theorem carveConnections_ends (rooms : List Room) (width height corridorWidth : Int)
    (connections : List Connection) :
    ∀ (grid : Grid) (corridors : List Corridor),
      (∀ conn ∈ connections, conn.source < rooms.length ∧ conn.target < rooms.length) →
      ∃ result grid2,
        carveConnections rooms width height corridorWidth connections grid corridors =
          some (result, grid2) ∧
        result.length = corridors.length + connections.length ∧
        result.map (fun c => some (c.start, c.finish)) =
          corridors.map (fun c => some (c.start, c.finish)) ++
            connections.map (connectionEnds rooms) := by
  induction connections with
  | nil => intro grid corridors _; exact ⟨corridors, grid, rfl, rfl, by simp⟩
  | cons conn rest ih =>
    intro grid corridors hv
    obtain ⟨h1, h2⟩ := hv conn (List.mem_cons_self _ _)
    have e1 : rooms.get? conn.source = some rooms[conn.source] := by simp [h1]
    have e2 : rooms.get? conn.target = some rooms[conn.target] := by simp [h2]
    have e3 : connectionEnds rooms conn =
        some ((corridorBetween rooms[conn.source] rooms[conn.target] grid width height
          corridorWidth).1.start,
          (corridorBetween rooms[conn.source] rooms[conn.target] grid width height
          corridorWidth).1.finish) := by
      unfold connectionEnds
      rw [e1, e2]
      rfl
    rw [carveConnections, e1, e2]
    simp only []
    obtain ⟨result, grid2, e, hl, hm⟩ := ih
      (corridorBetween rooms[conn.source] rooms[conn.target] grid width height
        corridorWidth).2
      (corridors ++ [(corridorBetween rooms[conn.source] rooms[conn.target] grid width height
        corridorWidth).1])
      (fun c hc => hv c (List.mem_cons_of_mem _ hc))
    refine ⟨result, grid2, e, ?_, ?_⟩
    · rw [hl]
      simp
      omega
    · rw [hm, List.map_append, List.map_cons, List.map_cons, e3]
      simp

/-- C34: for `n ≥ 2` rooms whose ids are their indices, the list returned by
`generateCorridors` holds exactly `n - 1` records, one per spanning-tree
connection in tree order (the record of a connection starts at the centre of
its `from` room and ends at the centre of its `to` room); the corridors of
the extra-connection loop are carved into the returned grid and are not in
the list.  For fewer than 2 rooms the list is empty and the grid and the
generator are returned as they were. -/
theorem generateCorridors_records (rng : SeededRandom) (rooms : List Room) (grid : Grid)
    (width height corridorWidth : Int) :
    (rooms.length < 2 →
      generateCorridors rng rooms grid width height corridorWidth = some ([], grid, rng)) ∧
    (2 ≤ rooms.length → rooms.map Room.id = List.range rooms.length →
      ∃ connections rng1 corridors grid1,
        createMinimumSpanningTree rooms rng = some (connections, rng1) ∧
        connections.length = rooms.length - 1 ∧
        carveConnections rooms width height corridorWidth connections grid [] =
          some (corridors, grid1) ∧
        corridors.length = rooms.length - 1 ∧
        corridors.map (fun c => some (c.start, c.finish)) =
          connections.map (connectionEnds rooms) ∧
        generateCorridors rng rooms grid width height corridorWidth =
          some (corridors,
            (extraCalls rooms connections (min 2 (rooms.length / 3)) rng1).foldl
              (fun g p => (corridorBetween p.1 p.2 g width height corridorWidth).2) grid1,
            afterDraw^[2 * min 2 (rooms.length / 3)] rng1)) := by
  constructor
  · intro hlt
    unfold generateCorridors
    rw [if_pos hlt]
  · intro hn hid
    have hpos : 0 < rooms.length := by omega
    obtain ⟨connections, rng1, e1, hlen, hvalid⟩ :=
      createMinimumSpanningTree_length rng hid hpos
    obtain ⟨corridors, grid1, e2, hl, hm⟩ :=
      carveConnections_ends rooms width height corridorWidth connections grid [] hvalid
    refine ⟨connections, rng1, corridors, grid1, e1, hlen, e2, ?_, ?_, ?_⟩
    · rw [hl, hlen]
      simp
    · simpa using hm
    · unfold generateCorridors
      rw [if_neg (by omega)]
      simp only [e1, e2]
      rw [extraLoop_calls rooms connections width height corridorWidth
        (List.length_pos.mp hpos)]

/-- Witness for C34: the three rooms with centres (3, 3), (13, 4), (5, 14) on
the 20 by 20 grid of walls, and no room at all. -/
theorem generateCorridors_records_witness :
    ([] : List Room).length < 2 ∧
    generateCorridors ⟨0⟩ [] wallGrid 20 20 1 = some ([], wallGrid, ⟨0⟩) ∧
    2 ≤ centredRooms.length ∧
    centredRooms.map Room.id = List.range centredRooms.length ∧
    ∃ connections rng1 corridors grid1,
      createMinimumSpanningTree centredRooms ⟨0⟩ = some (connections, rng1) ∧
      connections.length = centredRooms.length - 1 ∧
      carveConnections centredRooms 20 20 1 connections wallGrid [] =
        some (corridors, grid1) ∧
      corridors.length = centredRooms.length - 1 ∧
      corridors.map (fun c => some (c.start, c.finish)) =
        connections.map (connectionEnds centredRooms) ∧
      generateCorridors ⟨0⟩ centredRooms wallGrid 20 20 1 =
        some (corridors,
          (extraCalls centredRooms connections (min 2 (centredRooms.length / 3)) rng1).foldl
            (fun g p => (corridorBetween p.1 p.2 g 20 20 1).2) grid1,
          afterDraw^[2 * min 2 (centredRooms.length / 3)] rng1) :=
  ⟨by decide, (generateCorridors_records ⟨0⟩ [] wallGrid 20 20 1).1 (by decide), by decide,
    by decide,
    (generateCorridors_records ⟨0⟩ centredRooms wallGrid 20 20 1).2 (by decide) (by decide)⟩

/-! ## What stays outside the interior -/

theorem stampRoom_frame {width height : Int} (g : Grid) {room : Room}
    (hfit : room.Fits width height) {x y : Int} (hc : ¬ room.Covers x y) :
    getCell (stampRoom width height g room).1 x y = getCell g x y := by
  have hb : inBounds width height (room.x + room.width / 2) (room.y + room.height / 2) = true :=
    hfit.middle_inBounds
  have hm : ¬ (x = room.x + room.width / 2 ∧ y = room.y + room.height / 2 ∧
      (getCell ((roomCells room).foldl (stampCell width height) g)
        (room.x + room.width / 2) (room.y + room.height / 2)).isSome = true) := by
    rintro ⟨e1, e2, _⟩
    apply hc
    have := hfit.covers_middle
    unfold Room.middle at this
    rw [e1, e2]
    exact this
  unfold stampRoom
  simp only [hb, if_true]
  rw [getCell_setCell, if_neg hm, getCell_stampCells,
    if_neg (fun h => hc (mem_roomCells.mp h.1))]

theorem stampRooms_frame {width height : Int} (rooms : List Room) :
    ∀ g : Grid, (∀ room ∈ rooms, room.Fits width height) →
      ∀ x y, (∀ room ∈ rooms, ¬ room.Covers x y) →
        getCell (stampRooms width height g rooms).1 x y = getCell g x y := by
  induction rooms with
  | nil => intro g _ x y _; rfl
  | cons room rooms ih =>
    intro g hfit x y hc
    rw [stampRooms]
    simp only []
    rw [ih _ (fun r hr => hfit r (List.mem_cons_of_mem _ hr)) x y
        (fun r hr => hc r (List.mem_cons_of_mem _ hr)),
      stampRoom_frame g (hfit room (List.mem_cons_self _ _)) (hc room (List.mem_cons_self _ _))]

theorem Room.Fits.covers_interior {width height : Int} {room : Room}
    (h : room.Fits width height) {x y : Int} (hc : room.Covers x y) :
    Interior width height x y := by
  obtain ⟨h1, h2, h3, h4, h5, h6, h7, h8⟩ := h
  obtain ⟨c1, c2, c3, c4⟩ := hc
  unfold Interior
  omega

theorem Room.Fits.middle_deep {width height : Int} {room : Room}
    (h : room.Fits width height) : Deep width height room.middle := by
  obtain ⟨h1, h2, h3, h4, h5, h6, h7, h8⟩ := h
  unfold Deep Room.middle
  simp only []
  omega

theorem carve_frame (width height : Int) (cells : List (Int × Int)) {x y : Int}
    (hn : (x, y) ∉ cells) :
    ∀ s : Grid × List Point,
      getCell (cells.foldl (carveCell width height) s).1 x y = getCell s.1 x y := by
  induction cells with
  | nil => intro s; rfl
  | cons c cells ih =>
    intro s
    rw [List.foldl_cons, ih (fun h => hn (List.mem_cons_of_mem _ h))]
    unfold carveCell
    split
    · split
      · show getCell (setCell s.1 c.1 c.2 1) x y = _
        rw [getCell_setCell, if_neg]
        rintro ⟨e1, e2, _⟩
        exact hn (by rw [e1, e2]; exact List.mem_cons_self _ _)
      · rfl
    · rfl

theorem mem_corridorCells_near {x1 y1 x2 y2 corridorWidth : Int} {c : Int × Int}
    (hw : corridorWidth ≤ 3) (h : c ∈ corridorCells x1 y1 x2 y2 corridorWidth) :
    min x1 x2 - 1 ≤ c.1 ∧ c.1 ≤ max x1 x2 + 1 ∧ min y1 y2 - 1 ≤ c.2 ∧ c.2 ≤ max y1 y2 + 1 := by
  unfold corridorCells horizontalCells verticalCells at h
  split at h
  · rcases List.mem_append.mp h with h | h <;>
      simp only [List.mem_flatMap, List.mem_map, mem_loopRange] at h <;>
      obtain ⟨a, ha, w, hw2, rfl⟩ := h <;> simp only [] <;> omega
  · rcases List.mem_append.mp h with h | h <;>
      simp only [List.mem_flatMap, List.mem_map, mem_loopRange] at h <;>
      obtain ⟨a, ha, w, hw2, rfl⟩ := h <;> simp only [] <;> omega

theorem createCorridor_frame {x1 y1 x2 y2 : Int} (grid : Grid)
    {width height corridorWidth : Int} (hw : corridorWidth ≤ 3)
    (h1 : Deep width height (x1, y1)) (h2 : Deep width height (x2, y2)) {x y : Int}
    (hxy : ¬ Interior width height x y) :
    getCell (createCorridor x1 y1 x2 y2 grid width height corridorWidth).2 x y =
      getCell grid x y := by
  rw [createCorridor_grid]
  apply carve_frame
  intro hm
  have := mem_corridorCells_near hw hm
  unfold Deep at h1 h2
  unfold Interior at hxy
  simp only [] at this h1 h2
  omega

theorem corridorBetween_frame (room1 room2 : Room) (grid : Grid)
    {width height corridorWidth : Int} (hw : corridorWidth ≤ 3)
    (h1 : Deep width height room1.anchor) (h2 : Deep width height room2.anchor) {x y : Int}
    (hxy : ¬ Interior width height x y) :
    getCell (corridorBetween room1 room2 grid width height corridorWidth).2 x y =
      getCell grid x y := by
  rw [corridorBetween_eq]
  exact createCorridor_frame grid hw h1 h2 hxy

theorem carveConnections_frame (rooms : List Room) {width height corridorWidth : Int}
    (hw : corridorWidth ≤ 3) (hdeep : ∀ room ∈ rooms, Deep width height room.anchor)
    (connections : List Connection) {x y : Int} (hxy : ¬ Interior width height x y) :
    ∀ (grid : Grid) (corridors result : List Corridor) (grid2 : Grid),
      carveConnections rooms width height corridorWidth connections grid corridors =
        some (result, grid2) →
      getCell grid2 x y = getCell grid x y := by
  induction connections with
  | nil =>
    intro grid corridors result grid2 h
    rw [carveConnections, Option.some.injEq, Prod.mk.injEq] at h
    rw [← h.2]
  | cons conn rest ih =>
    intro grid corridors result grid2 h
    rw [carveConnections] at h
    split at h
    · rename_i room1 room2 e1 e2
      rw [ih _ _ _ _ h]
      exact corridorBetween_frame room1 room2 grid hw
        (hdeep _ (List.get?_mem e1)) (hdeep _ (List.get?_mem e2)) hxy
    · exact absurd h (by simp)

theorem extraCalls_frame {width height corridorWidth : Int} (hw : corridorWidth ≤ 3)
    {x y : Int} (hxy : ¬ Interior width height x y) (calls : List (Room × Room)) :
    ∀ grid : Grid,
      (∀ p ∈ calls, Deep width height p.1.anchor ∧ Deep width height p.2.anchor) →
      getCell (calls.foldl
        (fun g p => (corridorBetween p.1 p.2 g width height corridorWidth).2) grid) x y =
          getCell grid x y := by
  induction calls with
  | nil => intro grid _; rfl
  | cons p calls ih =>
    intro grid hd
    rw [List.foldl_cons, ih _ (fun q hq => hd q (List.mem_cons_of_mem _ hq))]
    exact corridorBetween_frame p.1 p.2 grid hw (hd p (List.mem_cons_self _ _)).1
      (hd p (List.mem_cons_self _ _)).2 hxy

theorem generateCorridors_frame {rng rng2 : SeededRandom} {rooms : List Room}
    {grid grid2 : Grid} {width height corridorWidth : Int} {corridors : List Corridor}
    (h : generateCorridors rng rooms grid width height corridorWidth =
      some (corridors, grid2, rng2))
    (hw : corridorWidth ≤ 3) (hdeep : ∀ room ∈ rooms, Deep width height room.anchor)
    {x y : Int} (hxy : ¬ Interior width height x y) :
    getCell grid2 x y = getCell grid x y := by
  unfold generateCorridors at h
  by_cases hlen : rooms.length < 2
  · rw [if_pos hlen, Option.some.injEq, Prod.mk.injEq, Prod.mk.injEq] at h
    rw [← h.2.1]
  · rw [if_neg hlen] at h
    have hne : rooms ≠ [] := by
      intro e
      rw [e] at hlen
      simp at hlen
    split at h
    · exact absurd h (by simp)
    · rename_i connections rng1 e1
      split at h
      · exact absurd h (by simp)
      · rename_i cs grid1 e2
        simp only [extraLoop_calls rooms connections width height corridorWidth hne,
          Option.some.injEq, Prod.mk.injEq] at h
        rw [← h.2.1, extraCalls_frame hw hxy,
          carveConnections_frame rooms hw hdeep connections hxy grid [] cs grid1 e2]
        intro p hp
        obtain ⟨⟨i, j, _, g1, g2⟩, _⟩ := extraCalls_spec rooms connections _ _ p hp
        exact ⟨hdeep _ (List.getElem?_mem g1), hdeep _ (List.getElem?_mem g2)⟩

theorem placeDoors_cell (rng : SeededRandom) (grid : Grid) (rooms : List Room)
    (width height : Int) (x y : Int) :
    getCell (placeDoors rng grid rooms width height).1 x y =
      if (x, y) ∈ doorsPlaced rng (doorCandidates grid rooms width height) then some 2
      else getCell grid x y :=
  (placeDoors_fold rooms width height grid (doorCells width height) (grid, rng)
    (doorCells_nodup width height) (fun _ _ => rfl) (fun _ _ _ => rfl)).2 x y

theorem mem_doorCandidates {grid : Grid} {rooms : List Room} {width height : Int}
    {c : Int × Int} :
    c ∈ doorCandidates grid rooms width height ↔
      c ∈ doorCells width height ∧ isDoorCandidate grid rooms width height c = true := by
  unfold doorCandidates
  rw [List.mem_filter]

theorem placeDoors_frame (rng : SeededRandom) (grid : Grid) (rooms : List Room)
    (width height : Int) {x y : Int} (hxy : ¬ Interior width height x y) :
    getCell (placeDoors rng grid rooms width height).1 x y = getCell grid x y := by
  rw [placeDoors_cell, if_neg]
  intro hm
  have := mem_doorCells.mp (mem_doorCandidates.mp (mem_of_mem_doorsPlaced hm)).1
  exact hxy this

/-- C35: for valid parameters (width and height at least 10, corridor width
1, 2 or 3, any room count) `generateDungeon` returns a dungeon in whose grid
every cell of the outer border (`x = 0`, `x = width - 1`, `y = 0` or
`y = height - 1`) is wall: rooms, corridors and doors only touch cells with
`1 ≤ x ≤ width - 2` and `1 ≤ y ≤ height - 2`. -/
theorem generateDungeon_border_walls (params : Params) (hw : 10 ≤ params.width)
    (hh : 10 ≤ params.height)
    (hc : params.corridorWidth = 1 ∨ params.corridorWidth = 2 ∨ params.corridorWidth = 3) :
    ∃ dungeon, generateDungeon params = some dungeon ∧
      ∀ x y, 0 ≤ x → x < params.width → 0 ≤ y → y < params.height →
        (x = 0 ∨ x = params.width - 1 ∨ y = 0 ∨ y = params.height - 1) →
        getCell dungeon.grid x y = some 0 := by
  have hfit := generateRooms_fits (SeededRandom.create params.seed) params.roomCount hw hh
  obtain ⟨corridors, grid2, rng2, enc, e1, e2⟩ :=
    generateDungeon_stages params hw hh (by omega)
  refine ⟨_, e2, ?_⟩
  intro x y hx0 hx1 hy0 hy1 hb
  have hxy : ¬ Interior params.width params.height x y := by
    unfold Interior
    omega
  show getCell (placeDoors rng2 grid2 _ params.width params.height).1 x y = some 0
  rw [placeDoors_frame _ _ _ _ _ hxy,
    generateCorridors_frame e1 (by omega) (by
      intro room hroom
      obtain ⟨room0, h0, e0⟩ := List.mem_map.mp hroom
      rw [← e0, (hfit room0 h0).1.anchor_withCenter]
      exact (hfit room0 h0).1.middle_deep) hxy,
    stampRooms_frame _ _ (fun room hroom => (hfit room hroom).1) x y
      (fun room hroom hcov => hxy ((hfit room hroom).1.covers_interior hcov))]
  exact getCell_replicate params.width params.height x y 0
    (inBounds_iff.mpr ⟨hx0, hx1, hy0, hy1⟩)

/-- Witness for C35 at the concrete scenario of the specification. -/
theorem generateDungeon_border_walls_witness :
    (10 ≤ testParams.width ∧ 10 ≤ testParams.height ∧ testParams.corridorWidth = 1) ∧
    ∃ dungeon, generateDungeon testParams = some dungeon ∧
      ∀ x y, 0 ≤ x → x < testParams.width → 0 ≤ y → y < testParams.height →
        (x = 0 ∨ x = testParams.width - 1 ∨ y = 0 ∨ y = testParams.height - 1) →
        getCell dungeon.grid x y = some 0 :=
  ⟨⟨by decide, by decide, rfl⟩,
    generateDungeon_border_walls testParams (by decide) (by decide) (Or.inl rfl)⟩

/-! ## Where the doors are -/

theorem getCell_stampRoom_door (width height : Int) (g : Grid) (room : Room) (x y : Int)
    (h : getCell (stampRoom width height g room).1 x y = some 2) :
    getCell g x y = some 2 := by
  unfold stampRoom at h
  simp only [] at h
  split at h
  · rw [getCell_setCell] at h
    split at h
    · exact absurd h (by decide)
    · rw [getCell_stampCells] at h
      split at h
      · exact absurd h (by decide)
      · exact h
  · rw [getCell_stampCells] at h
    split at h
    · exact absurd h (by decide)
    · exact h

theorem getCell_stampRooms_door (width height : Int) (rooms : List Room) :
    ∀ (g : Grid) (x y : Int),
      getCell (stampRooms width height g rooms).1 x y = some 2 → getCell g x y = some 2 := by
  induction rooms with
  | nil => intro g x y h; exact h
  | cons room rooms ih =>
    intro g x y h
    rw [stampRooms] at h
    exact getCell_stampRoom_door width height g room x y (ih _ x y h)

theorem createCorridor_door (x1 y1 x2 y2 : Int) (grid : Grid)
    (width height corridorWidth : Int) (x y : Int) :
    getCell (createCorridor x1 y1 x2 y2 grid width height corridorWidth).2 x y = some 2 ↔
      getCell grid x y = some 2 := by
  rw [createCorridor_grid]
  obtain ⟨ha, _, _, _⟩ := carve_carved width height grid
    (corridorCells x1 y1 x2 y2 corridorWidth) (grid, []) (carved_start width height grid)
  rcases ha x y with e | ⟨e1, e2⟩
  · rw [e]
  · rw [e1, e2]
    constructor <;> intro h <;> exact absurd h (by decide)

theorem carveConnections_door (rooms : List Room) (width height corridorWidth : Int)
    (connections : List Connection) :
    ∀ (grid : Grid) (corridors result : List Corridor) (grid2 : Grid),
      carveConnections rooms width height corridorWidth connections grid corridors =
        some (result, grid2) →
      ∀ x y, getCell grid2 x y = some 2 ↔ getCell grid x y = some 2 := by
  induction connections with
  | nil =>
    intro grid corridors result grid2 h x y
    rw [carveConnections, Option.some.injEq, Prod.mk.injEq] at h
    rw [← h.2]
  | cons conn rest ih =>
    intro grid corridors result grid2 h x y
    rw [carveConnections] at h
    split at h
    · rw [ih _ _ _ _ h x y, corridorBetween_eq, createCorridor_door]
    · exact absurd h (by simp)

theorem extraCalls_door (width height corridorWidth : Int) (calls : List (Room × Room)) :
    ∀ (grid : Grid) (x y : Int),
      getCell (calls.foldl
        (fun g p => (corridorBetween p.1 p.2 g width height corridorWidth).2) grid) x y =
          some 2 ↔ getCell grid x y = some 2 := by
  induction calls with
  | nil => intro grid x y; rfl
  | cons p calls ih =>
    intro grid x y
    rw [List.foldl_cons, ih, corridorBetween_eq, createCorridor_door]

theorem generateCorridors_door {rng rng2 : SeededRandom} {rooms : List Room}
    {grid grid2 : Grid} {width height corridorWidth : Int} {corridors : List Corridor}
    (h : generateCorridors rng rooms grid width height corridorWidth =
      some (corridors, grid2, rng2)) (x y : Int) :
    getCell grid2 x y = some 2 ↔ getCell grid x y = some 2 := by
  unfold generateCorridors at h
  by_cases hlen : rooms.length < 2
  · rw [if_pos hlen, Option.some.injEq, Prod.mk.injEq, Prod.mk.injEq] at h
    rw [← h.2.1]
  · rw [if_neg hlen] at h
    have hne : rooms ≠ [] := by
      intro e
      rw [e] at hlen
      simp at hlen
    split at h
    · exact absurd h (by simp)
    · rename_i connections rng1 e1
      split at h
      · exact absurd h (by simp)
      · rename_i cs grid1 e2
        simp only [extraLoop_calls rooms connections width height corridorWidth hne,
          Option.some.injEq, Prod.mk.injEq] at h
        rw [← h.2.1, extraCalls_door,
          carveConnections_door rooms width height corridorWidth connections grid [] cs grid1
            e2]

/-- In the grid `placeDoors` returns from a grid without doors, the doors are
the candidates that drew below 0.7: each lies in a room and has an orthogonal
neighbour that is still floor and lies in no room. -/
theorem placeDoors_doors (rng : SeededRandom) (grid : Grid) (rooms : List Room)
    (width height : Int) (hno : ∀ x y, getCell grid x y ≠ some 2) (x y : Int)
    (h : getCell (placeDoors rng grid rooms width height).1 x y = some 2) :
    (∃ room ∈ rooms, room.Covers x y) ∧
    ∃ n, Adjacent (x, y) n ∧ inBounds width height n.1 n.2 = true ∧
      getCell (placeDoors rng grid rooms width height).1 n.1 n.2 = some 1 ∧
      ∀ room ∈ rooms, ¬ room.Covers n.1 n.2 := by
  rw [placeDoors_cell] at h
  by_cases hm : (x, y) ∈ doorsPlaced rng (doorCandidates grid rooms width height)
  · obtain ⟨_, hroom, n, hadj, hin, hfloor, hout⟩ :=
      isDoorCandidate_iff.mp (mem_doorCandidates.mp (mem_of_mem_doorsPlaced hm)).2
    refine ⟨hroom, n, hadj, hin, ?_, hout⟩
    rw [placeDoors_cell, if_neg, hfloor]
    intro hn
    obtain ⟨_, ⟨room, hr, hcov⟩, _⟩ :=
      isDoorCandidate_iff.mp (mem_doorCandidates.mp (mem_of_mem_doorsPlaced hn)).2
    exact hout room hr hcov
  · rw [if_neg hm] at h
    exact absurd h (hno x y)

/-- C36: for valid parameters `generateDungeon` returns a dungeon in whose
grid every door cell lies inside some room rectangle and is orthogonally
adjacent to a floor cell that lies outside every room rectangle; so no cell
outside all room rectangles is a door.  On every grid `placeDoors` changes
floor cells only: a wall or room-centre cell keeps its value. -/
theorem generateDungeon_doors (params : Params) (hw : 10 ≤ params.width)
    (hh : 10 ≤ params.height)
    (hc : params.corridorWidth = 1 ∨ params.corridorWidth = 2 ∨ params.corridorWidth = 3) :
    ∃ dungeon, generateDungeon params = some dungeon ∧
      (∀ x y, getCell dungeon.grid x y = some 2 →
        (∃ room ∈ dungeon.rooms, room.Covers x y) ∧
        ∃ n, Adjacent (x, y) n ∧ getCell dungeon.grid n.1 n.2 = some 1 ∧
          ∀ room ∈ dungeon.rooms, ¬ room.Covers n.1 n.2) ∧
      (∀ x y, (∀ room ∈ dungeon.rooms, ¬ room.Covers x y) →
        getCell dungeon.grid x y ≠ some 2) ∧
      (∀ (rng : SeededRandom) (grid : Grid) (rooms : List Room) (x y : Int),
        GridOK params.width params.height grid → getCell grid x y ≠ some 1 →
        getCell (placeDoors rng grid rooms params.width params.height).1 x y =
          getCell grid x y) := by
  obtain ⟨corridors, grid2, rng2, enc, e1, e2⟩ :=
    generateDungeon_stages params hw hh (by omega)
  have hno : ∀ x y, getCell grid2 x y ≠ some 2 := by
    intro x y h
    rw [generateCorridors_door e1] at h
    have h2 := getCell_stampRooms_door _ _ _ _ x y h
    have := getCell_replicate_zero _ _ _ _ _ h2
    omega
  have key := placeDoors_doors rng2 grid2
    ((generateRooms (SeededRandom.create params.seed) params.width params.height
      params.roomCount).1.map Room.withCenter) params.width params.height hno
  refine ⟨_, e2, ?_, ?_, ?_⟩
  · intro x y h
    obtain ⟨k1, n, k2, _, k3, k4⟩ := key x y h
    exact ⟨k1, n, k2, k3, k4⟩
  · intro x y hout h
    obtain ⟨⟨room, hr, hcov⟩, _⟩ := key x y h
    exact hout room hr hcov
  · intro rng grid rooms x y _ h1
    rw [placeDoors_cell, if_neg]
    intro hm
    exact h1 (isDoorCandidate_iff.mp (mem_doorCandidates.mp (mem_of_mem_doorsPlaced hm)).2).1

/-- Witness for C36 at the concrete scenario of the specification. -/
theorem generateDungeon_doors_witness :
    (10 ≤ testParams.width ∧ 10 ≤ testParams.height ∧ testParams.corridorWidth = 1) ∧
    ∃ dungeon, generateDungeon testParams = some dungeon ∧
      (∀ x y, getCell dungeon.grid x y = some 2 →
        (∃ room ∈ dungeon.rooms, room.Covers x y) ∧
        ∃ n, Adjacent (x, y) n ∧ getCell dungeon.grid n.1 n.2 = some 1 ∧
          ∀ room ∈ dungeon.rooms, ¬ room.Covers n.1 n.2) ∧
      (∀ x y, (∀ room ∈ dungeon.rooms, ¬ room.Covers x y) →
        getCell dungeon.grid x y ≠ some 2) ∧
      (∀ (rng : SeededRandom) (grid : Grid) (rooms : List Room) (x y : Int),
        GridOK testParams.width testParams.height grid → getCell grid x y ≠ some 1 →
        getCell (placeDoors rng grid rooms testParams.width testParams.height).1 x y =
          getCell grid x y) :=
  ⟨⟨by decide, by decide, rfl⟩,
    generateDungeon_doors testParams (by decide) (by decide) (Or.inl rfl)⟩

end CraftADungeon
